import Mathlib

/-!
# margonem-bot: state store, targeting, combat controller, navigator and decision loop

A shallow embedding of `internal/game/state.go`, `internal/combat/targeting.go`,
`internal/combat/engine.go`, `internal/behavior/delays.go`,
`internal/behavior/randomizer.go`, `internal/navigation/waypoints.go` and of the death
and disconnection handling of `cmd/bot/main.go`.

Modelling conventions.

* Go `float64` values are elements of an arbitrary linearly ordered field `F`
  (exact arithmetic: no rounding, no NaN, no infinities).  The functions of the
  Go `math` package that the code calls are not part of the repository and are
  passed in as a `MathFns F` record.
* Where a property depends on the rounding of `float64` operations (a strict order
  between two scores, a bound without slack on a computed point), the functions
  concerned are embedded a second time over the rationals with every operation
  rounded to the nearest `float64` value (`roundF64`); their names end in `F64`.
  A statement that holds on the exact embedding only is marked as holding in
  exact arithmetic.
* Go `int` values are `Int`; where the code multiplies, the 64-bit wrap-around
  is applied explicitly (`wrap64`).
* Pointers to mobs are modelled by the mob values themselves; a nil pointer is
  `none`.
* `time.Time` and `time.Duration` are integers (nanoseconds); the clock reading
  of a call is a parameter `now`.
* The game client is an external collaborator: the outcome of each of its
  commands is a parameter, and the commands issued are recorded in a list.
* Conversions between `float64` and integers are exact: an integer is cast into
  `F`, and `int(x)` truncates toward zero (`F` is then a `FloorRing`).
* The store is written concurrently by the poller; where an operation reads the
  store more than once, the later readings are parameters.
* Where sharing matters (`GetMobs`), mob objects live in an explicit heap and the
  mob list is a list of pointers into it.
-/

namespace MargonemBot

/-! ## internal/game/state.go -/

/-- Two's-complement wrap-around of a Go `int` (64 bits). -/
def wrap64 (z : Int) : Int :=
  (z + 2 ^ 63) % 2 ^ 64 - 2 ^ 63

/-- The type `HeroState`. -/
structure HeroState (F : Type) where
  X : F
  Y : F
  MapID : String
  HP : Int
  HPMax : Int
  MP : Int
  MPMax : Int
  Level : Int
  Exp : Int
  InCombat : Bool
  Dead : Bool
  LastUpdate : Int
  deriving DecidableEq

/-- The method `HeroState.HPPercent`: Go integer division truncates toward zero. -/
def HeroState.HPPercent {F : Type} (h : HeroState F) : Int :=
  if h.HPMax = 0 then 0
  else wrap64 (Int.tdiv (wrap64 (h.HP * 100)) h.HPMax)

/-- The method `HeroState.MPPercent`. -/
def HeroState.MPPercent {F : Type} (h : HeroState F) : Int :=
  if h.MPMax = 0 then 0
  else wrap64 (Int.tdiv (wrap64 (h.MP * 100)) h.MPMax)

/-- Go integer division `x / y` on `int`: a run-time panic (`none`) when the divisor is
zero, otherwise the quotient truncated toward zero, wrapped to 64 bits. -/
def goDiv (x y : Int) : Option Int :=
  if y = 0 then none else some (wrap64 (Int.tdiv x y))

/-- The method `HeroState.HPPercent` with the division fault made explicit: `none`
stands for the run-time panic of an integer division by zero. -/
def HeroState.HPPercentChecked {F : Type} (h : HeroState F) : Option Int :=
  if h.HPMax = 0 then some 0
  else goDiv (wrap64 (h.HP * 100)) h.HPMax

/-- The method `HeroState.MPPercent` with the division fault made explicit. -/
def HeroState.MPPercentChecked {F : Type} (h : HeroState F) : Option Int :=
  if h.MPMax = 0 then some 0
  else goDiv (wrap64 (h.MP * 100)) h.MPMax

/-- The type `Mob`. -/
structure Mob (F : Type) where
  ID : String
  Name : String
  Level : Int
  X : F
  Y : F
  HP : Int
  HPMax : Int
  Alive : Bool
  Attackable : Bool
  deriving DecidableEq

/-- The type `PositionRecord`. -/
structure PositionRecord (F : Type) where
  X : F
  Y : F
  Timestamp : Int
  deriving DecidableEq

/-- The type `ConnectionState`. -/
structure ConnectionState where
  Connected : Bool
  LastCheck : Int
  Retries : Int

/-- The type `BotPhase`. -/
inductive BotPhase where
  | PhaseStartup
  | PhaseLogin
  | PhaseWaitGameReady
  | PhaseNavigate
  | PhaseHunt
  | PhaseDead
  | PhaseRecover
  | PhaseDisconnected
  | PhaseShutdown
  deriving DecidableEq, Repr

/-- The type `StateManager` (the mutex is not modelled). -/
structure StateManager (F : Type) where
  hero : HeroState F
  mobs : List (Mob F)
  connection : ConnectionState
  phase : BotPhase
  positionHistory : List (PositionRecord F)
  actionCount : Int

/-- The method `StateManager.GetHero`. -/
def StateManager.GetHero {F : Type} (sm : StateManager F) : HeroState F :=
  sm.hero

/-- The method `StateManager.GetMobs`. -/
def StateManager.GetMobs {F : Type} (sm : StateManager F) : List (Mob F) :=
  sm.mobs

/-- The function `NewStateManager`: the zero hero, no mobs, connected, phase STARTUP and
an empty position history. -/
def NewStateManager {F : Type} [Zero F] : StateManager F :=
  { hero :=
      { X := 0, Y := 0, MapID := "", HP := 0, HPMax := 0, MP := 0, MPMax := 0, Level := 0,
        Exp := 0, InCombat := false, Dead := false, LastUpdate := 0 },
    mobs := [],
    connection := { Connected := true, LastCheck := 0, Retries := 0 },
    phase := BotPhase.PhaseStartup,
    positionHistory := [],
    actionCount := 0 }

/-- The method `StateManager.UpdateHero`; `tUpdate` and `tRecord` are the readings of its
two `time.Now()` calls. -/
def StateManager.UpdateHero {F : Type} (sm : StateManager F) (hero : HeroState F)
    (tUpdate tRecord : Int) : StateManager F :=
  let hero1 := { hero with LastUpdate := tUpdate }
  let history1 := sm.positionHistory ++ [{ X := hero1.X, Y := hero1.Y, Timestamp := tRecord }]
  let history2 := if history1.length > 10 then history1.drop 1 else history1
  { sm with hero := hero1, positionHistory := history2 }

/-- The method `StateManager.UpdateMobs`. -/
def StateManager.UpdateMobs {F : Type} (sm : StateManager F) (mobs : List (Mob F)) :
    StateManager F :=
  { sm with mobs := mobs }

/-- The method `StateManager.SetPhase`. -/
def StateManager.SetPhase {F : Type} (sm : StateManager F) (phase : BotPhase) :
    StateManager F :=
  { sm with phase := phase }

/-- The method `StateManager.GetPhase`. -/
def StateManager.GetPhase {F : Type} (sm : StateManager F) : BotPhase :=
  sm.phase

/-- The method `StateManager.IncrementAction`: the store afterwards and the returned
count. -/
def StateManager.IncrementAction {F : Type} (sm : StateManager F) : StateManager F × Int :=
  ({ sm with actionCount := wrap64 (sm.actionCount + 1) }, wrap64 (sm.actionCount + 1))

/-- The method `StateManager.GetActionCount`. -/
def StateManager.GetActionCount {F : Type} (sm : StateManager F) : Int :=
  sm.actionCount

/-- The method `StateManager.UpdateConnection`; `now` is the reading of `time.Now()`. -/
def StateManager.UpdateConnection {F : Type} (sm : StateManager F) (connected : Bool)
    (now : Int) : StateManager F :=
  { sm with
    connection :=
      { Connected := connected, LastCheck := now,
        Retries := if !connected then wrap64 (sm.connection.Retries + 1) else 0 } }

/-- The method `StateManager.IsConnected`. -/
def StateManager.IsConnected {F : Type} (sm : StateManager F) : Bool :=
  sm.connection.Connected

/-- The method `StateManager.GetRetries`. -/
def StateManager.GetRetries {F : Type} (sm : StateManager F) : Int :=
  sm.connection.Retries

/-- A write operation of the store, with the clock readings it takes. -/
inductive StoreOp (F : Type) where
  | UpdateHero (hero : HeroState F) (tUpdate tRecord : Int)
  | UpdateMobs (mobs : List (Mob F))
  | SetPhase (phase : BotPhase)
  | IncrementAction
  | UpdateConnection (connected : Bool) (now : Int)

/-- The store after a write operation. -/
def StoreOp.apply {F : Type} (sm : StateManager F) : StoreOp F → StateManager F
  | StoreOp.UpdateHero hero tUpdate tRecord => sm.UpdateHero hero tUpdate tRecord
  | StoreOp.UpdateMobs mobs => sm.UpdateMobs mobs
  | StoreOp.SetPhase phase => sm.SetPhase phase
  | StoreOp.IncrementAction => sm.IncrementAction.1
  | StoreOp.UpdateConnection connected now => sm.UpdateConnection connected now

/-- The position samples recorded by the `UpdateHero` calls among a sequence of write
operations, in call order. -/
def recordedPositions {F : Type} : List (StoreOp F) → List (PositionRecord F)
  | [] => []
  | StoreOp.UpdateHero hero _ tRecord :: rest =>
    { X := hero.X, Y := hero.Y, Timestamp := tRecord } :: recordedPositions rest
  | _ :: rest => recordedPositions rest

/-! ## internal/config/config.go -/

/-- The fields of `AccountConfig` read by the decision loop. -/
structure AccountConfig where
  StartURL : String

/-- The type `HuntingGround`. -/
structure HuntingGround (F : Type) where
  MapID : String
  CenterX : F
  CenterY : F
  Radius : F

/-- The type `Waypoint`. -/
structure Waypoint (F : Type) where
  MapID : String
  X : F
  Y : F
  Description : String
  Action : String
  Selector : String

/-- The type `RespawnPoint`. -/
structure RespawnPoint (F : Type) where
  MapID : String
  X : F
  Y : F

/-- The type `ProfileConfig`. -/
structure ProfileConfig (F : Type) where
  Name : String
  HuntingGround : HuntingGround F
  Waypoints : List (Waypoint F)
  TownRespawn : RespawnPoint F

/-- The fields of `RuntimeConfig` read by the decision loop. -/
structure RuntimeConfig where
  AutoDetectMode : Bool

/-- The type `CombatConfig`. -/
structure CombatConfig (F : Type) where
  HPThreshold : Int
  MPThreshold : Int
  TargetPriority : List String
  RetargetOnDeath : Bool
  MaxEngageDistance : F
  MinLevel : Int
  MaxLevel : Int

/-- The type `BehaviorConfig`. -/
structure BehaviorConfig (F : Type) where
  MinDelayMs : Int
  MaxDelayMs : Int
  MouseSpeedRange : Int
  PathJitter : F
  IdleBreakEvery : Int
  IdleBreakDuration : Int

/-- The type `Config`. -/
structure Config (F : Type) where
  Account : AccountConfig
  Profile : ProfileConfig F
  Combat : CombatConfig F
  Behavior : BehaviorConfig F
  Runtime : RuntimeConfig

/-! ## The Go `math` package -/

/-- The functions and constants of the Go `math` package used by the code. -/
structure MathFns (F : Type) where
  Sqrt : F → F
  Cos : F → F
  Sin : F → F
  Pi : F

/-! ## internal/combat/targeting.go -/

section Targeting

variable {F : Type} [LinearOrderedField F]

/-- The type `TargetScore`. -/
structure TargetScore (F : Type) where
  Mob : Mob F
  Score : F
  Distance : F

/-- The function `distance` of package `combat`. -/
def distance (M : MathFns F) (x1 y1 x2 y2 : F) : F :=
  let dx := x2 - x1
  let dy := y2 - y1
  M.Sqrt (dx * dx + dy * dy)

/-- The priority loop of `scoreMob`: `i` is the index of the head of `rest` in
the priority list, `len` the length of the whole list. -/
def priorityLoop (name : String) (len : Nat) : Nat → List String → F → F
  | _, [], score => score
  | i, n :: rest, score =>
    if name = n then score + (((len : Int) - (i : Int) : Int) : F) * 50
    else priorityLoop name len (i + 1) rest score

/-- The function `scoreMob`. -/
def scoreMob (mob : Mob F) (dist : F) (priority : List String) : F :=
  let score := priorityLoop mob.Name priority.length 0 priority (100 : F)
  let distPenalty := (dist / 300) * 50
  score - distPenalty

/-- The filtering loop of `SelectTarget`, building `candidates` in scan order. -/
def candidates (M : MathFns F) (hero : HeroState F) (cfg : CombatConfig F) :
    List (Mob F) → List (TargetScore F)
  | [] => []
  | mob :: rest =>
    if !mob.Alive || !mob.Attackable then candidates M hero cfg rest
    else if cfg.MinLevel > 0 ∧ mob.Level < cfg.MinLevel then candidates M hero cfg rest
    else if cfg.MaxLevel > 0 ∧ mob.Level > cfg.MaxLevel then candidates M hero cfg rest
    else
      let dist := distance M hero.X hero.Y mob.X mob.Y
      if cfg.MaxEngageDistance > 0 ∧ dist > cfg.MaxEngageDistance then
        candidates M hero cfg rest
      else
        { Mob := mob, Score := scoreMob mob dist cfg.TargetPriority, Distance := dist } ::
          candidates M hero cfg rest

/-- The scan for the highest score in `SelectTarget`. -/
def bestLoop (best : TargetScore F) : List (TargetScore F) → TargetScore F
  | [] => best
  | c :: cs => if c.Score > best.Score then bestLoop c cs else bestLoop best cs

/-- The function `SelectTarget`. -/
def SelectTarget (M : MathFns F) (hero : HeroState F) (mobs : List (Mob F))
    (cfg : CombatConfig F) : Option (Mob F) :=
  if mobs.length = 0 then none
  else
    match candidates M hero cfg mobs with
    | [] => none
    | c0 :: cs => some (bestLoop c0 cs).Mob

/-- The conditions under which the filtering loop of `SelectTarget` keeps a mob
(none of its `continue` branches is taken). -/
def passesFilters (M : MathFns F) (hero : HeroState F) (cfg : CombatConfig F)
    (mob : Mob F) : Prop :=
  mob.Alive = true ∧ mob.Attackable = true ∧
  ¬ (cfg.MinLevel > 0 ∧ mob.Level < cfg.MinLevel) ∧
  ¬ (cfg.MaxLevel > 0 ∧ mob.Level > cfg.MaxLevel) ∧
  ¬ (cfg.MaxEngageDistance > 0 ∧
      distance M hero.X hero.Y mob.X mob.Y > cfg.MaxEngageDistance)

instance passesFilters.decidable (M : MathFns F) (hero : HeroState F) (cfg : CombatConfig F)
    (mob : Mob F) : Decidable (passesFilters M hero cfg mob) := by
  unfold passesFilters
  infer_instance

/-- The score `SelectTarget` gives a mob: `scoreMob` at the mob's distance. -/
def mobScore (M : MathFns F) (hero : HeroState F) (cfg : CombatConfig F) (mob : Mob F) : F :=
  scoreMob mob (distance M hero.X hero.Y mob.X mob.Y) cfg.TargetPriority

/-- The candidate record the loop of `SelectTarget` appends for a mob. -/
def mkCandidate (M : MathFns F) (hero : HeroState F) (cfg : CombatConfig F)
    (mob : Mob F) : TargetScore F :=
  { Mob := mob, Score := mobScore M hero cfg mob,
    Distance := distance M hero.X hero.Y mob.X mob.Y }

end Targeting

/-! ## internal/game/state.go: stuck detection -/

section Stuck

variable {F : Type} [LinearOrderedField F]

/-- The loop of `IsStuck`: the argument `k` stands for `i + 1`, the loop running
`i = k - 1, ..., 0`; `now` is the clock reading of `time.Since`. -/
def stuckLoop (history : List (PositionRecord F)) (recent : PositionRecord F) (now : Int)
    (threshold : F) (duration : Int) : Nat → Bool
  | 0 => false
  | i + 1 =>
    match history[i]? with
    | none => false
    | some pos =>
      if now - pos.Timestamp > duration then false
      else
        let dx := recent.X - pos.X
        let dy := recent.Y - pos.Y
        let dist := dx * dx + dy * dy
        if dist < threshold * threshold then true
        else stuckLoop history recent now threshold duration i

/-- The method `StateManager.IsStuck`. -/
def StateManager.IsStuck (sm : StateManager F) (now : Int) (threshold : F)
    (duration : Int) : Bool :=
  if sm.positionHistory.length < 2 then false
  else
    match sm.positionHistory[sm.positionHistory.length - 1]? with
    | none => false
    | some recent =>
      stuckLoop sm.positionHistory recent now threshold duration
        (sm.positionHistory.length - 1)

/-- Squared Euclidean distance between two position samples, as `IsStuck` computes it. -/
def sqDist (recent pos : PositionRecord F) : F :=
  (recent.X - pos.X) * (recent.X - pos.X) + (recent.Y - pos.Y) * (recent.Y - pos.Y)

/-- A sample is within the time window of `now`: its age does not exceed `duration`. -/
def inWindow (now duration : Int) (pos : PositionRecord F) : Prop :=
  now - pos.Timestamp ≤ duration

instance inWindow.decidable (now duration : Int) (pos : PositionRecord F) :
    Decidable (inWindow now duration pos) := by
  unfold inWindow
  infer_instance

end Stuck

/-! ## internal/behavior/randomizer.go -/

section Behavior

variable {F : Type} [LinearOrderedField F]

/-- The type `Point`. -/
structure Point (F : Type) where
  X : F
  Y : F

/-- The function `AddJitter`; `u1` and `u2` are its two `rand.Float64()` draws. -/
def AddJitter (u1 u2 : F) (p : Point F) (maxOffset : F) : Point F :=
  { X := p.X + (u1 * 2 - 1) * maxOffset,
    Y := p.Y + (u2 * 2 - 1) * maxOffset }

/-- The function `RandomOffset`; `u1` and `u2` are its two `rand.Float64()` draws. -/
def RandomOffset (M : MathFns F) (u1 u2 : F) (radius : F) : Point F :=
  let angle := u1 * 2 * M.Pi
  let r := u2 * radius
  { X := r * M.Cos angle,
    Y := r * M.Sin angle }

end Behavior

/-! ## internal/combat/engine.go -/

section Combat

variable {F : Type} [LinearOrderedField F]

/-- A command sent to the game client. -/
inductive Command (F : Type) where
  | MoveTo (x y : F)
  | AttackMob (mobID : String)

/-- What one tick gets from outside the engine: whether a game-client command
returns an error, and the two `rand.Float64()` draws the tick makes. -/
structure Collaborators (F : Type) where
  MoveToErr : F → F → Bool
  AttackMobErr : String → Bool
  rand1 : F
  rand2 : F

/-- The errors `Tick` returns. -/
inductive TickError where
  | failedToRetreat
  | failedToMoveToTarget
  | failedToAttack
  deriving DecidableEq, Repr

/-- The type `Engine` (client and logger are not state of the model). -/
structure Engine (F : Type) where
  cfg : Config F
  currentTarget : Option (Mob F)

/-- The result of a tick: the engine afterwards, the commands sent to the game
client in order, and the returned error (`none` for nil). -/
structure TickResult (F : Type) where
  engine : Engine F
  commands : List (Command F)
  err : Option TickError

/-- The method `Engine.retreat`: commands sent and error returned. -/
def Engine.retreat (M : MathFns F) (env : Collaborators F) (hero : HeroState F) :
    List (Command F) × Option TickError :=
  let offset := RandomOffset M env.rand1 env.rand2 100
  let newX := hero.X + offset.X
  let newY := hero.Y + offset.Y
  if env.MoveToErr newX newY then
    ([Command.MoveTo newX newY], some TickError.failedToRetreat)
  else
    ([Command.MoveTo newX newY], none)

/-- The method `Engine.engage`: commands sent and error returned. -/
def Engine.engage (M : MathFns F) (env : Collaborators F) (e : Engine F) (hero : HeroState F)
    (target : Mob F) : List (Command F) × Option TickError :=
  let dist := distance M hero.X hero.Y target.X target.Y
  if dist > 50 then
    let targetPos : Point F := { X := target.X, Y := target.Y }
    let jitteredPos := AddJitter env.rand1 env.rand2 targetPos e.cfg.Behavior.PathJitter
    if env.MoveToErr jitteredPos.X jitteredPos.Y then
      ([Command.MoveTo jitteredPos.X jitteredPos.Y], some TickError.failedToMoveToTarget)
    else if env.AttackMobErr target.ID then
      ([Command.MoveTo jitteredPos.X jitteredPos.Y, Command.AttackMob target.ID],
        some TickError.failedToAttack)
    else
      ([Command.MoveTo jitteredPos.X jitteredPos.Y, Command.AttackMob target.ID], none)
  else if env.AttackMobErr target.ID then
    ([Command.AttackMob target.ID], some TickError.failedToAttack)
  else
    ([Command.AttackMob target.ID], none)

/-- The validity loop of `Tick`: the first mob with the held identifier that is alive
and attackable, if any. -/
def revalidate (targetID : String) : List (Mob F) → Option (Mob F)
  | [] => none
  | m :: rest =>
    if m.ID = targetID ∧ m.Alive = true ∧ m.Attackable = true then some m
    else revalidate targetID rest

/-- The method `Engine.Tick`. -/
def Engine.Tick (M : MathFns F) (env : Collaborators F) (e : Engine F)
    (stateMgr : StateManager F) : TickResult F :=
  let hero := stateMgr.GetHero
  if hero.HPPercent < e.cfg.Combat.HPThreshold then
    let r := Engine.retreat M env hero
    { engine := { e with currentTarget := none }, commands := r.1, err := r.2 }
  else
    let mobs := stateMgr.GetMobs
    let afterCheck : Option (Mob F) :=
      match e.currentTarget with
      | none => none
      | some t =>
        match revalidate t.ID mobs with
        | some m => some m
        | none =>
          if e.cfg.Combat.RetargetOnDeath then SelectTarget M hero mobs e.cfg.Combat
          else none
    let held : Option (Mob F) :=
      match afterCheck with
      | none => SelectTarget M hero mobs e.cfg.Combat
      | some t => some t
    match held with
    | none => { engine := { e with currentTarget := none }, commands := [], err := none }
    | some t =>
      let r := Engine.engage M env e hero t
      { engine := { e with currentTarget := some t }, commands := r.1, err := r.2 }

end Combat

/-! ## internal/behavior/delays.go -/

section Delays

variable {F : Type} [LinearOrderedField F] [FloorRing F]

/-- Go conversion of a `float64` to an integer type: truncation toward zero. -/
def truncToInt (x : F) : Int :=
  if 0 ≤ x then Int.floor x else Int.ceil x

/-- The loop of `Backoff`: `n` iterations remain, `duration` is the current value.
A `time.Duration` is an exact integer number of nanoseconds. -/
def backoffLoop (factor : F) (max : Int) : Nat → Int → Int
  | 0, duration => duration
  | n + 1, duration =>
    let duration1 := truncToInt ((duration : F) * factor)
    if duration1 > max then max
    else backoffLoop factor max n duration1

/-- The function `Backoff`: the loop `for i := 0; i < attempt; i++` runs `attempt` times,
and not at all for a non-positive `attempt`. -/
def Backoff (base : Int) (factor : F) (max : Int) (attempt : Int) : Int :=
  backoffLoop factor max attempt.toNat base

end Delays

/-! ## internal/behavior/randomizer.go: paths -/

section Paths

variable {F : Type} [LinearOrderedField F] [FloorRing F]

/-- The function `Distance` of package `behavior`. -/
def Distance (M : MathFns F) (a b : Point F) : F :=
  let dx := b.X - a.X
  let dy := b.Y - a.Y
  M.Sqrt (dx * dx + dy * dy)

/-- The body of the loop of `GeneratePath` for index `i`: the point `path[i]`. The draws
`rand (2 * i)` and `rand (2 * i + 1)` are the two `rand.Float64()` calls of the
iteration. -/
def pathPoint (rand : Nat → F) (fromPt toPt : Point F) (steps : Nat) (i : Nat) : Point F :=
  let t := ((i + 1 : Nat) : F) / (steps : F)
  let controlX := (fromPt.X + toPt.X) / 2 + (rand (2 * i) * 2 - 1) * 20
  let controlY := (fromPt.Y + toPt.Y) / 2 + (rand (2 * i + 1) * 2 - 1) * 20
  let x := (1 - t) * (1 - t) * fromPt.X + 2 * (1 - t) * t * controlX + t * t * toPt.X
  let y := (1 - t) * (1 - t) * fromPt.Y + 2 * (1 - t) * t * controlY + t * t * toPt.Y
  { X := x, Y := y }

/-- The function `GeneratePath`; `int(math.Ceil(x))` is the integer ceiling. For a step
size that is not positive the Go code divides by zero or asks for a slice of negative
length; the model is meant for positive step sizes. -/
def GeneratePath (M : MathFns F) (rand : Nat → F) (fromPt toPt : Point F) (stepSize : F) :
    List (Point F) :=
  let dist := Distance M fromPt toPt
  if dist < stepSize then [toPt]
  else
    let steps := (Int.ceil (dist / stepSize)).toNat
    (List.range steps).map (pathPoint rand fromPt toPt steps)

/-- The function `ShouldTakeBreak`. -/
def ShouldTakeBreak (actionCount breakEvery : Int) : Bool :=
  if breakEvery ≤ 0 then false
  else Int.tmod actionCount breakEvery = 0

end Paths

/-! ## internal/navigation/waypoints.go -/

section Navigation

variable {F : Type} [LinearOrderedField F] [FloorRing F]

/-- What a navigator operation gets from outside: whether the `n`-th `MoveTo` call of the
operation returns an error, the `n`-th `rand.Float64()` draw of the operation, the agent
status read from the store at the start of waypoint `i`, and the statuses read by the
portal wait loop of waypoint `i` before its timeout (the store is written concurrently
by the poller). -/
structure NavCollaborators (F : Type) where
  MoveToErr : Nat → F → F → Bool
  rand : Nat → F
  heroAt : Nat → HeroState F
  polls : Nat → List (HeroState F)

/-- The errors of `followWaypoint`. -/
inductive WaypointError where
  | failedToChangeMap
  | failedToMoveToWaypoint
  deriving DecidableEq, Repr

/-- The errors of the navigator. -/
inductive NavError where
  | failedToFollowWaypoint (i : Nat) (cause : WaypointError)
  | failedToPatrol
  deriving DecidableEq, Repr

/-- The result of a navigator operation: the commands sent to the game client in order
and the returned error (`none` for nil). -/
structure NavResult (F : Type) where
  commands : List (Command F)
  err : Option NavError

/-- The portal wait loop of `followWaypoint`: `hero` is the status held so far, the list
holds the statuses read by the remaining iterations. -/
def portalWait (mapID : String) : HeroState F → List (HeroState F) → HeroState F
  | hero, [] => hero
  | _, h :: rest => if h.MapID = mapID then h else portalWait mapID h rest

/-- The second half of `followWaypoint`: the jittered move to the waypoint of index
`i`. -/
def moveToWaypoint (env : NavCollaborators F) (cfg : Config F) (i : Nat) (wp : Waypoint F) :
    List (Command F) × Option WaypointError :=
  let targetPos : Point F := { X := wp.X, Y := wp.Y }
  let jitteredPos :=
    AddJitter (env.rand (2 * i)) (env.rand (2 * i + 1)) targetPos cfg.Behavior.PathJitter
  if env.MoveToErr i jitteredPos.X jitteredPos.Y then
    ([Command.MoveTo jitteredPos.X jitteredPos.Y], some WaypointError.failedToMoveToWaypoint)
  else
    ([Command.MoveTo jitteredPos.X jitteredPos.Y], none)

/-- The method `Navigator.followWaypoint` for the waypoint of index `i`: commands sent
and error returned. -/
def followWaypoint (env : NavCollaborators F) (cfg : Config F) (i : Nat) (wp : Waypoint F) :
    List (Command F) × Option WaypointError :=
  let hero := env.heroAt i
  if hero.MapID ≠ wp.MapID ∧ wp.Action = "portal" then
    let hero1 := portalWait wp.MapID hero (env.polls i)
    if hero1.MapID ≠ wp.MapID then ([], some WaypointError.failedToChangeMap)
    else moveToWaypoint env cfg i wp
  else moveToWaypoint env cfg i wp

/-- The waypoint loop of `GoToHuntingGround`, from the waypoint of index `i` on. -/
def waypointLoop (env : NavCollaborators F) (cfg : Config F) :
    Nat → List (Waypoint F) → NavResult F
  | _, [] => { commands := [], err := none }
  | i, wp :: rest =>
    let r := followWaypoint env cfg i wp
    match r.2 with
    | some cause => { commands := r.1, err := some (NavError.failedToFollowWaypoint i cause) }
    | none =>
      let r2 := waypointLoop env cfg (i + 1) rest
      { commands := r.1 ++ r2.commands, err := r2.err }

/-- The method `Navigator.GoToHuntingGround`. -/
def GoToHuntingGround (M : MathFns F) (env : NavCollaborators F) (cfg : Config F)
    (stateMgr : StateManager F) : NavResult F :=
  let hero := stateMgr.GetHero
  let target := cfg.Profile.HuntingGround
  if hero.MapID = target.MapID ∧
      Distance M { X := hero.X, Y := hero.Y } { X := target.CenterX, Y := target.CenterY }
        ≤ target.Radius then
    { commands := [], err := none }
  else
    waypointLoop env cfg 0 cfg.Profile.Waypoints

/-- The point `targetPos` that `PatrolArea` chooses: the centre of the hunting ground
plus `RandomOffset(Radius * 0.8)`, made with the first two draws. -/
def patrolTarget (M : MathFns F) (env : NavCollaborators F) (cfg : Config F) : Point F :=
  let huntingGround := cfg.Profile.HuntingGround
  let center : Point F := { X := huntingGround.CenterX, Y := huntingGround.CenterY }
  let offset := RandomOffset M (env.rand 0) (env.rand 1) (huntingGround.Radius * 0.8)
  { X := center.X + offset.X, Y := center.Y + offset.Y }

/-- The move loop of `PatrolArea` over the points of the path, `k` moves having been
made. -/
def patrolLoop (env : NavCollaborators F) : Nat → List (Point F) → NavResult F
  | _, [] => { commands := [], err := none }
  | k, point :: rest =>
    if env.MoveToErr k point.X point.Y then
      { commands := [Command.MoveTo point.X point.Y], err := some NavError.failedToPatrol }
    else
      let r := patrolLoop env (k + 1) rest
      { commands := Command.MoveTo point.X point.Y :: r.commands, err := r.err }

/-- The method `Navigator.PatrolArea`; the draws of `GeneratePath` follow the two draws of
`RandomOffset`. -/
def PatrolArea (M : MathFns F) (env : NavCollaborators F) (cfg : Config F)
    (stateMgr : StateManager F) : NavResult F :=
  let hero := stateMgr.GetHero
  let targetPos := patrolTarget M env cfg
  let currentPos : Point F := { X := hero.X, Y := hero.Y }
  let dist := Distance M currentPos targetPos
  if dist > 150 then
    let path := GeneratePath M (fun n => env.rand (n + 2)) currentPos targetPos 50
    patrolLoop env 0 path
  else if env.MoveToErr 0 targetPos.X targetPos.Y then
    { commands := [Command.MoveTo targetPos.X targetPos.Y], err := some NavError.failedToPatrol }
  else
    { commands := [Command.MoveTo targetPos.X targetPos.Y], err := none }

/-- The method `Navigator.ReturnFromDeath`. -/
def ReturnFromDeath (M : MathFns F) (env : NavCollaborators F) (cfg : Config F)
    (stateMgr : StateManager F) : NavResult F :=
  GoToHuntingGround M env cfg stateMgr

end Navigation

/-! ## The store at the level of pointers -/

section Pointers

/-- The memory cells that hold `Mob` objects; a `*Mob` is the index of a cell, `none`
the nil pointer. -/
structure MobHeap (F : Type) where
  cells : List (Mob F)

/-- Reading through a pointer. -/
def MobHeap.load {F : Type} (heap : MobHeap F) (p : Option Nat) : Option (Mob F) :=
  match p with
  | none => none
  | some a => heap.cells[a]?

/-- Writing a `Mob` object through a pointer, as an assignment to its fields does. -/
def MobHeap.store {F : Type} (heap : MobHeap F) (p : Option Nat) (m : Mob F) : MobHeap F :=
  match p with
  | none => heap
  | some a => { cells := heap.cells.set a m }

/-- The Go builtin `copy(dst, src)` on slices: the first `min(len(dst), len(src))`
elements of `dst` are overwritten. -/
def copySlice {α : Type} (dst src : List α) : List α :=
  src.take dst.length ++ dst.drop src.length

/-- The method `StateManager.GetMobs` on the slice of pointers `sm.mobs`: a new slice of
the same length into which the pointers are copied. -/
def GetMobsPointers (mobs : List (Option Nat)) : List (Option Nat) :=
  let result : List (Option Nat) := List.replicate mobs.length none
  copySlice result mobs

end Pointers

/-! ## cmd/bot/main.go: death and disconnection handling -/

section DecisionLoop

variable {F : Type} [LinearOrderedField F] [FloorRing F]

/-- The method `Engine.Reset`. -/
def Engine.Reset (e : Engine F) : Engine F :=
  { e with currentTarget := none }

/-- The constant `time.Second`, in nanoseconds. -/
def Second : Int := 1000000000

/-- What `handleDisconnect` does, in order. -/
inductive ReconnectEvent where
  | Sleep (d : Int)
  | Navigate (url : String)
  | EnsureReady
  deriving DecidableEq, Repr

/-- What an iteration of the decision loop gets from outside before the stuck check:
whether `Respawn` returns an error, the result of `IsConnected` (`none` for an error),
whether `Navigate` and `EnsureReady` return an error at reconnection attempt `i`, the
agent status read from the store after the respawn wait, and the collaborators of the
navigator. -/
structure LoopCollaborators (F : Type) where
  RespawnErr : Bool
  IsConnected : Option Bool
  NavigateErr : Nat → Bool
  EnsureReadyErr : Nat → Bool
  heroAfterRespawn : HeroState F
  nav : NavCollaborators F

/-- The loop of `handleDisconnect`: `n` attempts remain, `attempt` is the loop counter.
The result is what was done and whether the error of exhausted retries is returned. -/
def handleDisconnectLoop (env : LoopCollaborators F) (cfg : Config F) :
    Nat → Nat → List ReconnectEvent × Bool
  | 0, _ => ([], true)
  | n + 1, attempt =>
    let backoff := Backoff (5 * Second) (2 : F) (60 * Second) attempt
    if env.NavigateErr attempt then
      let r := handleDisconnectLoop env cfg n (attempt + 1)
      (ReconnectEvent.Sleep backoff :: ReconnectEvent.Navigate cfg.Account.StartURL :: r.1, r.2)
    else if env.EnsureReadyErr attempt then
      let r := handleDisconnectLoop env cfg n (attempt + 1)
      (ReconnectEvent.Sleep backoff :: ReconnectEvent.Navigate cfg.Account.StartURL ::
        ReconnectEvent.EnsureReady :: r.1, r.2)
    else
      ([ReconnectEvent.Sleep backoff, ReconnectEvent.Navigate cfg.Account.StartURL,
        ReconnectEvent.EnsureReady], false)

/-- The function `handleDisconnect`, with `maxRetries := 3`. -/
def handleDisconnect (env : LoopCollaborators F) (cfg : Config F) :
    List ReconnectEvent × Bool :=
  handleDisconnectLoop env cfg 3 0

/-- The function `handleDeath`: the store afterwards and whether an error is returned. -/
def handleDeath (M : MathFns F) (env : LoopCollaborators F) (cfg : Config F)
    (stateMgr : StateManager F) : StateManager F × Bool :=
  if env.RespawnErr then (stateMgr, true)
  else
    let stateMgr1 := stateMgr.SetPhase BotPhase.PhaseRecover
    let r := ReturnFromDeath M env.nav cfg stateMgr1
    (stateMgr1, r.err.isSome)

/-- The state of the decision loop: the store and the combat engine; the configuration
shared by the loop, the engine and the navigator is `combatEngine.cfg`. -/
structure LoopState (F : Type) where
  stateMgr : StateManager F
  combatEngine : Engine F

/-- How the first part of an iteration of the decision loop ends. -/
inductive RecoveryOutcome (F : Type) where
  | handled (s : LoopState F)
  | fatal (s : LoopState F)
  | proceed (s : LoopState F)

/-- The branch `if hero.Dead` of the decision loop, up to its `continue`. -/
def deathBranch (M : MathFns F) (env : LoopCollaborators F) (s : LoopState F) : LoopState F :=
  let cfg := s.combatEngine.cfg
  let s1 : LoopState F :=
    if cfg.Runtime.AutoDetectMode then
      let hero := env.heroAfterRespawn
      let cfg1 : Config F :=
        { cfg with
          Profile :=
            { cfg.Profile with
              HuntingGround :=
                { cfg.Profile.HuntingGround with
                  MapID := hero.MapID, CenterX := hero.X, CenterY := hero.Y } } }
      { s with combatEngine := { s.combatEngine with cfg := cfg1 } }
    else
      let stateMgr1 := s.stateMgr.SetPhase BotPhase.PhaseDead
      let r := handleDeath M env cfg stateMgr1
      { s with stateMgr := r.1 }
  let s2 : LoopState F := { s1 with stateMgr := s1.stateMgr.SetPhase BotPhase.PhaseHunt }
  { s2 with combatEngine := s2.combatEngine.Reset }

/-- The branch of the decision loop taken when the connection check fails, up to its
`continue` or to the return of the fatal error. -/
def disconnectBranch (env : LoopCollaborators F) (s : LoopState F) : RecoveryOutcome F :=
  let stateMgr1 := s.stateMgr.SetPhase BotPhase.PhaseDisconnected
  let r := handleDisconnect env s.combatEngine.cfg
  if r.2 then RecoveryOutcome.fatal { s with stateMgr := stateMgr1 }
  else RecoveryOutcome.handled { s with stateMgr := stateMgr1.SetPhase BotPhase.PhaseHunt }

/-- The first part of an iteration of the decision loop of `run`: the death check and
the connection check. `proceed` means that the iteration goes on to the stuck check. -/
def loopRecovery (M : MathFns F) (env : LoopCollaborators F) (s : LoopState F) :
    RecoveryOutcome F :=
  let hero := s.stateMgr.GetHero
  if hero.Dead then RecoveryOutcome.handled (deathBranch M env s)
  else
    match env.IsConnected with
    | some true => RecoveryOutcome.proceed s
    | _ => disconnectBranch env s

end DecisionLoop

/-! ## Notions used to state the behaviour of the loops -/

section LoopNotions

variable {F : Type} [LinearOrderedField F]

/-- The engine with the retarget-on-loss option of its configuration set to `b`. -/
def Engine.withRetarget (e : Engine F) (b : Bool) : Engine F :=
  { e with cfg := { e.cfg with Combat := { e.cfg.Combat with RetargetOnDeath := b } } }

/-- The move command that `followWaypoint` sends for the waypoint of index `i`: the move
to the jittered position of the waypoint. -/
def waypointMove (env : NavCollaborators F) (cfg : Config F) (i : Nat) (wp : Waypoint F) :
    Command F :=
  Command.MoveTo
    (AddJitter (env.rand (2 * i)) (env.rand (2 * i + 1)) { X := wp.X, Y := wp.Y }
      cfg.Behavior.PathJitter).X
    (AddJitter (env.rand (2 * i)) (env.rand (2 * i + 1)) { X := wp.X, Y := wp.Y }
      cfg.Behavior.PathJitter).Y

/-- The agent is inside the hunting ground: the test at the head of
`GoToHuntingGround`. -/
def insideHuntingGround (M : MathFns F) (cfg : Config F) (hero : HeroState F) : Prop :=
  hero.MapID = cfg.Profile.HuntingGround.MapID ∧
    Distance M { X := hero.X, Y := hero.Y }
        { X := cfg.Profile.HuntingGround.CenterX, Y := cfg.Profile.HuntingGround.CenterY }
      ≤ cfg.Profile.HuntingGround.Radius

instance insideHuntingGround.decidable (M : MathFns F) (cfg : Config F) (hero : HeroState F) :
    Decidable (insideHuntingGround M cfg hero) := by
  unfold insideHuntingGround
  infer_instance

/-- Reconnection attempt `i` fails: the page reload or the ready check returns an
error. -/
def attemptFails (env : LoopCollaborators F) (i : Nat) : Bool :=
  env.NavigateErr i || env.EnsureReadyErr i

/-- What one iteration of the loop of `handleDisconnect` does in attempt `i`: the
backoff wait, the page reload and, when the reload succeeds, the ready check. -/
def attemptEvents [FloorRing F] (env : LoopCollaborators F) (cfg : Config F) (i : Nat) :
    List ReconnectEvent :=
  ReconnectEvent.Sleep (Backoff (5 * Second) (2 : F) (60 * Second) i) ::
    ReconnectEvent.Navigate cfg.Account.StartURL ::
      (if env.NavigateErr i then [] else [ReconnectEvent.EnsureReady])

/-- The event is a page reload. -/
def ReconnectEvent.isNavigate : ReconnectEvent → Bool
  | ReconnectEvent.Navigate _ => true
  | _ => false

end LoopNotions

/-! ## float64 arithmetic with rounding

A finite `float64` value is the rational number it denotes.  Every arithmetic operation
of the Go code is the exact operation followed by `roundF64`, the rounding to the
nearest `float64` value, ties going to the even significand (IEEE 754 binary64, the
subnormal range included).  Overflow to an infinity and NaN are not modelled, and each
operation rounds on its own (no fused multiply-add, as on amd64). -/

section Float64

/-- The power `2 ^ e` for an integer exponent. -/
def pow2 (e : Int) : ℚ :=
  if 0 ≤ e then ((2 ^ e.toNat : Nat) : ℚ) else 1 / ((2 ^ (-e).toNat : Nat) : ℚ)

/-- The loop of `natLog2`, with a bound on the number of halvings. -/
def log2Loop : Nat → Nat → Nat
  | 0, _ => 0
  | fuel + 1, n => if n < 2 then 0 else log2Loop fuel (n / 2) + 1

/-- The position of the leading bit of a natural number (0 for 0). -/
def natLog2 (n : Nat) : Nat :=
  log2Loop n n

/-- The binary exponent of a rational `q` other than 0: the integer `e` with
`2 ^ e ≤ |q| < 2 ^ (e + 1)`. -/
def ilog2 (q : ℚ) : Int :=
  let k : Int := (natLog2 q.num.natAbs : Int) - (natLog2 q.den : Int)
  if pow2 k ≤ |q| then k else k - 1

/-- Rounding to the nearest integer, a tie going to the even one. -/
def roundHalfEven (x : ℚ) : Int :=
  let f := Int.floor x
  let r := x - (f : ℚ)
  if r < 1 / 2 then f
  else if 1 / 2 < r then f + 1
  else if f % 2 = 0 then f else f + 1

/-- The spacing of the `float64` values around `q`: `2 ^ (e - 52)` for the binary
exponent `e` of `q`, the exponent being at least -1022 (subnormal range). -/
def ulpF64 (q : ℚ) : ℚ :=
  pow2 (max (ilog2 q) (-1022) - 52)

/-- Rounding of a rational to the nearest `float64` value, ties to even. -/
def roundF64 (q : ℚ) : ℚ :=
  (roundHalfEven (q / ulpF64 q) : ℚ) * ulpF64 q

/-- The bisection loop of `isqrt`: `lo * lo ≤ n < hi * hi` throughout. -/
def isqrtLoop (n : Nat) : Nat → Nat → Nat → Nat
  | 0, lo, _ => lo
  | fuel + 1, lo, hi =>
    if hi ≤ lo + 1 then lo
    else
      let mid := (lo + hi) / 2
      if mid * mid ≤ n then isqrtLoop n fuel mid hi else isqrtLoop n fuel lo mid

/-- The integer square root: the largest `r` with `r * r ≤ n`. -/
def isqrt (n : Nat) : Nat :=
  isqrtLoop n (n + 1) 0 (n + 1)

/-- The function `math.Sqrt` on a finite `float64` value: the square root rounded to the
nearest `float64` value (the result for a negative argument, NaN in Go, is not
modelled). With `u` the spacing of the values around the root, `m` is the root in units
of `u` rounded down, and the argument is compared with the square of the midpoint. -/
def sqrtF64 (x : ℚ) : ℚ :=
  if x ≤ 0 then 0
  else
    let u := pow2 (ilog2 x / 2 - 52)
    let m := isqrt (Int.floor (x / (u * u))).toNat
    let mid := ((m : ℚ) + 1 / 2) * u
    if x < mid * mid then (m : ℚ) * u
    else if mid * mid < x then ((m : ℚ) + 1) * u
    else if m % 2 = 0 then (m : ℚ) * u else ((m : ℚ) + 1) * u

/-- The `float64` sum. -/
def addF64 (a b : ℚ) : ℚ :=
  roundF64 (a + b)

/-- The `float64` difference. -/
def subF64 (a b : ℚ) : ℚ :=
  roundF64 (a - b)

/-- The `float64` product. -/
def mulF64 (a b : ℚ) : ℚ :=
  roundF64 (a * b)

/-- The `float64` quotient. -/
def divF64 (a b : ℚ) : ℚ :=
  roundF64 (a / b)

/-- The constant `math.Pi` as a `float64` value. -/
def piF64 : ℚ :=
  884279719003555 / 281474976710656

end Float64

/-! ## The targeting engine, the random points and the tick in float64 arithmetic

The functions whose result depends on rounding, embedded a second time with every
`float64` operation rounded.  Comparisons of finite `float64` values are comparisons of
the rationals they denote. `math.Cos` and `math.Sin` stay parameters (`MathFns ℚ`, whose
`Sqrt` entry is not used here: `math.Sqrt` is `sqrtF64`). -/

section TargetingF64

deriving instance DecidableEq for Command

/-- The function `distance` of package `combat`, every operation rounded; the function
`Distance` of package `behavior` computes the same value. -/
def distanceF64 (x1 y1 x2 y2 : ℚ) : ℚ :=
  let dx := subF64 x2 x1
  let dy := subF64 y2 y1
  sqrtF64 (addF64 (mulF64 dx dx) (mulF64 dy dy))

/-- The priority loop of `scoreMob`, every operation rounded; `float64(len - i)` is the
conversion of an integer, rounded as well. -/
def priorityLoopF64 (name : String) (len : Nat) : Nat → List String → ℚ → ℚ
  | _, [], score => score
  | i, n :: rest, score =>
    if name = n then
      addF64 score (mulF64 (roundF64 ((((len : Int) - (i : Int) : Int) : ℚ))) 50)
    else priorityLoopF64 name len (i + 1) rest score

/-- The function `scoreMob`, every operation rounded. -/
def scoreMobF64 (mob : Mob ℚ) (dist : ℚ) (priority : List String) : ℚ :=
  let score := priorityLoopF64 mob.Name priority.length 0 priority 100
  let distPenalty := mulF64 (divF64 dist 300) 50
  subF64 score distPenalty

/-- The filtering loop of `SelectTarget` with rounded distance and score. -/
def candidatesF64 (hero : HeroState ℚ) (cfg : CombatConfig ℚ) :
    List (Mob ℚ) → List (TargetScore ℚ)
  | [] => []
  | mob :: rest =>
    if !mob.Alive || !mob.Attackable then candidatesF64 hero cfg rest
    else if cfg.MinLevel > 0 ∧ mob.Level < cfg.MinLevel then candidatesF64 hero cfg rest
    else if cfg.MaxLevel > 0 ∧ mob.Level > cfg.MaxLevel then candidatesF64 hero cfg rest
    else
      let dist := distanceF64 hero.X hero.Y mob.X mob.Y
      if cfg.MaxEngageDistance > 0 ∧ dist > cfg.MaxEngageDistance then
        candidatesF64 hero cfg rest
      else
        { Mob := mob, Score := scoreMobF64 mob dist cfg.TargetPriority, Distance := dist } ::
          candidatesF64 hero cfg rest

/-- The function `SelectTarget` with rounded distance and score. -/
def SelectTargetF64 (hero : HeroState ℚ) (mobs : List (Mob ℚ))
    (cfg : CombatConfig ℚ) : Option (Mob ℚ) :=
  if mobs.length = 0 then none
  else
    match candidatesF64 hero cfg mobs with
    | [] => none
    | c0 :: cs => some (bestLoop c0 cs).Mob

/-- The conditions under which the filtering loop keeps a mob, with the rounded
distance. -/
def passesFiltersF64 (hero : HeroState ℚ) (cfg : CombatConfig ℚ) (mob : Mob ℚ) : Prop :=
  mob.Alive = true ∧ mob.Attackable = true ∧
  ¬ (cfg.MinLevel > 0 ∧ mob.Level < cfg.MinLevel) ∧
  ¬ (cfg.MaxLevel > 0 ∧ mob.Level > cfg.MaxLevel) ∧
  ¬ (cfg.MaxEngageDistance > 0 ∧
      distanceF64 hero.X hero.Y mob.X mob.Y > cfg.MaxEngageDistance)

instance passesFiltersF64.decidable (hero : HeroState ℚ) (cfg : CombatConfig ℚ)
    (mob : Mob ℚ) : Decidable (passesFiltersF64 hero cfg mob) := by
  unfold passesFiltersF64
  infer_instance

/-- The offset `(rand.Float64()*2 - 1) * maxOffset` of `AddJitter` for the draw `u`,
every operation rounded. -/
def jitterOffsetF64 (u maxOffset : ℚ) : ℚ :=
  mulF64 (subF64 (mulF64 u 2) 1) maxOffset

/-- The function `AddJitter`, every operation rounded. -/
def AddJitterF64 (u1 u2 : ℚ) (p : Point ℚ) (maxOffset : ℚ) : Point ℚ :=
  { X := addF64 p.X (jitterOffsetF64 u1 maxOffset),
    Y := addF64 p.Y (jitterOffsetF64 u2 maxOffset) }

/-- The function `RandomOffset`, every operation rounded. -/
def RandomOffsetF64 (M : MathFns ℚ) (u1 u2 : ℚ) (radius : ℚ) : Point ℚ :=
  let angle := mulF64 (mulF64 u1 2) M.Pi
  let r := mulF64 u2 radius
  { X := mulF64 r (M.Cos angle),
    Y := mulF64 r (M.Sin angle) }

/-- The method `Engine.retreat`, every operation rounded. -/
def Engine.retreatF64 (M : MathFns ℚ) (env : Collaborators ℚ) (hero : HeroState ℚ) :
    List (Command ℚ) × Option TickError :=
  let offset := RandomOffsetF64 M env.rand1 env.rand2 100
  let newX := addF64 hero.X offset.X
  let newY := addF64 hero.Y offset.Y
  if env.MoveToErr newX newY then
    ([Command.MoveTo newX newY], some TickError.failedToRetreat)
  else
    ([Command.MoveTo newX newY], none)

/-- The method `Engine.engage`, every operation rounded. -/
def Engine.engageF64 (env : Collaborators ℚ) (e : Engine ℚ) (hero : HeroState ℚ)
    (target : Mob ℚ) : List (Command ℚ) × Option TickError :=
  let dist := distanceF64 hero.X hero.Y target.X target.Y
  if dist > 50 then
    let targetPos : Point ℚ := { X := target.X, Y := target.Y }
    let jitteredPos := AddJitterF64 env.rand1 env.rand2 targetPos e.cfg.Behavior.PathJitter
    if env.MoveToErr jitteredPos.X jitteredPos.Y then
      ([Command.MoveTo jitteredPos.X jitteredPos.Y], some TickError.failedToMoveToTarget)
    else if env.AttackMobErr target.ID then
      ([Command.MoveTo jitteredPos.X jitteredPos.Y, Command.AttackMob target.ID],
        some TickError.failedToAttack)
    else
      ([Command.MoveTo jitteredPos.X jitteredPos.Y, Command.AttackMob target.ID], none)
  else if env.AttackMobErr target.ID then
    ([Command.AttackMob target.ID], some TickError.failedToAttack)
  else
    ([Command.AttackMob target.ID], none)

/-- The method `Engine.Tick`, every `float64` operation rounded. -/
def Engine.TickF64 (M : MathFns ℚ) (env : Collaborators ℚ) (e : Engine ℚ)
    (stateMgr : StateManager ℚ) : TickResult ℚ :=
  let hero := stateMgr.GetHero
  if hero.HPPercent < e.cfg.Combat.HPThreshold then
    let r := Engine.retreatF64 M env hero
    { engine := { e with currentTarget := none }, commands := r.1, err := r.2 }
  else
    let mobs := stateMgr.GetMobs
    let afterCheck : Option (Mob ℚ) :=
      match e.currentTarget with
      | none => none
      | some t =>
        match revalidate t.ID mobs with
        | some m => some m
        | none =>
          if e.cfg.Combat.RetargetOnDeath then SelectTargetF64 hero mobs e.cfg.Combat
          else none
    let held : Option (Mob ℚ) :=
      match afterCheck with
      | none => SelectTargetF64 hero mobs e.cfg.Combat
      | some t => some t
    match held with
    | none => { engine := { e with currentTarget := none }, commands := [], err := none }
    | some t =>
      let r := Engine.engageF64 env e hero t
      { engine := { e with currentTarget := some t }, commands := r.1, err := r.2 }

end TargetingF64

/-! ## Predicates of the specification and concrete data -/

section SpecPredicates

variable {F : Type} [LinearOrderedField F]

/-- The filter of the targeting engine in the words of the specification: alive and
attackable, inside the level band where a bound of zero imposes no limit on its side,
and, when the maximum engage distance is positive, at distance at most that maximum. -/
def specQualifies (M : MathFns F) (hero : HeroState F) (cfg : CombatConfig F)
    (mob : Mob F) : Prop :=
  mob.Alive = true ∧ mob.Attackable = true ∧
  (cfg.MinLevel = 0 ∨ cfg.MinLevel ≤ mob.Level) ∧
  (cfg.MaxLevel = 0 ∨ mob.Level ≤ cfg.MaxLevel) ∧
  (0 < cfg.MaxEngageDistance →
    distance M hero.X hero.Y mob.X mob.Y ≤ cfg.MaxEngageDistance)

/-- The filter of the targeting engine with the level band read as the code reads it:
a bound that is zero or negative imposes no limit on its side. -/
def qualifies (M : MathFns F) (hero : HeroState F) (cfg : CombatConfig F)
    (mob : Mob F) : Prop :=
  mob.Alive = true ∧ mob.Attackable = true ∧
  (cfg.MinLevel ≤ 0 ∨ cfg.MinLevel ≤ mob.Level) ∧
  (cfg.MaxLevel ≤ 0 ∨ mob.Level ≤ cfg.MaxLevel) ∧
  (0 < cfg.MaxEngageDistance →
    distance M hero.X hero.Y mob.X mob.Y ≤ cfg.MaxEngageDistance)

instance specQualifies.decidable (M : MathFns F) (hero : HeroState F) (cfg : CombatConfig F)
    (mob : Mob F) : Decidable (specQualifies M hero cfg mob) := by
  unfold specQualifies
  infer_instance

instance qualifies.decidable (M : MathFns F) (hero : HeroState F) (cfg : CombatConfig F)
    (mob : Mob F) : Decidable (qualifies M hero cfg mob) := by
  unfold qualifies
  infer_instance

end SpecPredicates

section Examples

/-- Integer square root by search, exact on perfect squares. -/
def natSqrt (n : Nat) : Nat :=
  (List.range (n + 1)).foldl (fun acc k => if k * k ≤ n then k else acc) 0

/-- A square root on the rationals, exact on squares of rationals. -/
def ratSqrt (q : ℚ) : ℚ :=
  (natSqrt q.num.toNat : ℚ) / (natSqrt q.den : ℚ)

/-- Math functions over the rationals for the concrete examples: the square root is
exact on squares; the trigonometric entries are stand-ins, no example depends on their
values. -/
def exMath : MathFns ℚ :=
  { Sqrt := ratSqrt, Cos := fun _ => 1, Sin := fun _ => 0, Pi := 3 }

/-- An agent at the origin with full health. -/
def exHero : HeroState ℚ :=
  { X := 0, Y := 0, MapID := "map1", HP := 100, HPMax := 100, MP := 50, MPMax := 50,
    Level := 10, Exp := 0, InCombat := false, Dead := false, LastUpdate := 0 }

/-- An agent at the origin at 10 percent health. -/
def exHeroLow : HeroState ℚ :=
  { X := 0, Y := 0, MapID := "map1", HP := 10, HPMax := 100, MP := 50, MPMax := 50,
    Level := 10, Exp := 0, InCombat := false, Dead := false, LastUpdate := 0 }

/-- Combat constraints with the priority list Orc, Goblin and no level band. -/
def exCfg : CombatConfig ℚ :=
  { HPThreshold := 30, MPThreshold := 0, TargetPriority := ["Orc", "Goblin"],
    RetargetOnDeath := true, MaxEngageDistance := 200, MinLevel := 0, MaxLevel := 0 }

/-- Combat constraints with the level band 2 to 8. -/
def exCfgBand : CombatConfig ℚ :=
  { HPThreshold := 30, MPThreshold := 0, TargetPriority := ["Orc", "Goblin"],
    RetargetOnDeath := true, MaxEngageDistance := 200, MinLevel := 2, MaxLevel := 8 }

/-- Combat constraints whose upper level bound is negative. -/
def exCfgNeg : CombatConfig ℚ :=
  { HPThreshold := 30, MPThreshold := 0, TargetPriority := [],
    RetargetOnDeath := true, MaxEngageDistance := 200, MinLevel := 0, MaxLevel := -1 }

/-- An orc at distance 5. -/
def exOrc : Mob ℚ :=
  { ID := "1", Name := "Orc", Level := 3, X := 3, Y := 4, HP := 10, HPMax := 10,
    Alive := true, Attackable := true }

/-- A goblin at distance 5. -/
def exGoblin : Mob ℚ :=
  { ID := "2", Name := "Goblin", Level := 3, X := 0, Y := 5, HP := 10, HPMax := 10,
    Alive := true, Attackable := true }

/-- A goblin at distance 10. -/
def exGoblinFar : Mob ℚ :=
  { ID := "3", Name := "Goblin", Level := 3, X := 6, Y := 8, HP := 10, HPMax := 10,
    Alive := true, Attackable := true }

/-- A rat, not on the priority list, at distance 5. -/
def exRat : Mob ℚ :=
  { ID := "4", Name := "Rat", Level := 5, X := 4, Y := 3, HP := 10, HPMax := 10,
    Alive := true, Attackable := true }

/-- Behaviour settings with a path jitter of 5. -/
def exBehavior : BehaviorConfig ℚ :=
  { MinDelayMs := 1000, MaxDelayMs := 2000, MouseSpeedRange := 200, PathJitter := 5,
    IdleBreakEvery := 0, IdleBreakDuration := 0 }

/-- A profile whose hunting ground is the disc of radius 100 around (200, 0) on the map
of the example agent, reached by two waypoints. -/
def exProfile : ProfileConfig ℚ :=
  { Name := "example",
    HuntingGround := { MapID := "map1", CenterX := 200, CenterY := 0, Radius := 100 },
    Waypoints :=
      [{ MapID := "map1", X := 50, Y := 0, Description := "gate", Action := "walk",
         Selector := "" },
       { MapID := "map1", X := 150, Y := 0, Description := "field", Action := "walk",
         Selector := "" }],
    TownRespawn := { MapID := "town", X := 0, Y := 0 } }

/-- A configuration with a retreat threshold of 30 percent. -/
def exConfig : Config ℚ :=
  { Account := { StartURL := "https://example.invalid/" }, Profile := exProfile,
    Combat := exCfg, Behavior := exBehavior, Runtime := { AutoDetectMode := false } }

/-- A game client whose move command fails and whose attack command succeeds. -/
def exEnvMoveFails : Collaborators ℚ :=
  { MoveToErr := fun _ _ => true, AttackMobErr := fun _ => false,
    rand1 := 1 / 2, rand2 := 1 / 2 }

/-- A game client whose commands succeed. -/
def exEnv : Collaborators ℚ :=
  { MoveToErr := fun _ _ => false, AttackMobErr := fun _ => false,
    rand1 := 1 / 2, rand2 := 1 / 2 }

/-- A store whose agent is at 10 percent health, with the orc in sight. -/
def exStoreLow : StateManager ℚ :=
  { hero := exHeroLow, mobs := [exOrc],
    connection := { Connected := true, LastCheck := 0, Retries := 0 },
    phase := BotPhase.PhaseHunt, positionHistory := [], actionCount := 0 }

/-- A store whose agent is at full health, with only the goblin in sight. -/
def exStore : StateManager ℚ :=
  { hero := exHero, mobs := [exGoblin],
    connection := { Connected := true, LastCheck := 0, Retries := 0 },
    phase := BotPhase.PhaseHunt, positionHistory := [], actionCount := 0 }

/-- An engine holding the orc as its target. -/
def exEngine : Engine ℚ :=
  { cfg := exConfig, currentTarget := some exOrc }

/-- A store whose two position samples are 40 seconds apart (time in nanoseconds). -/
def exStoreStale : StateManager ℚ :=
  { hero := exHero, mobs := [],
    connection := { Connected := true, LastCheck := 0, Retries := 0 },
    phase := BotPhase.PhaseHunt,
    positionHistory :=
      [{ X := 0, Y := 0, Timestamp := 0 }, { X := 0, Y := 0, Timestamp := 40000000000 }],
    actionCount := 0 }

/-- A store whose three position samples are one second apart and within 2 units. -/
def exStoreStill : StateManager ℚ :=
  { hero := exHero, mobs := [],
    connection := { Connected := true, LastCheck := 0, Retries := 0 },
    phase := BotPhase.PhaseHunt,
    positionHistory :=
      [{ X := 1, Y := 1, Timestamp := 38000000000 },
       { X := 0, Y := 1, Timestamp := 39000000000 },
       { X := 0, Y := 0, Timestamp := 40000000000 }],
    actionCount := 0 }

/-- An agent whose health and maximum health are both 10 to the power 17. -/
def exHeroHuge : HeroState ℚ :=
  { X := 0, Y := 0, MapID := "map1", HP := 100000000000000000,
    HPMax := 100000000000000000, MP := 50, MPMax := 50,
    Level := 10, Exp := 0, InCombat := false, Dead := false, LastUpdate := 0 }

/-- A heap holding the orc in cell 0. -/
def exHeap : MobHeap ℚ :=
  { cells := [exOrc] }

/-- The mob slice of a store: one pointer, to cell 0. -/
def exMobPointers : List (Option Nat) :=
  [some 0]

/-- Navigator collaborators: every move succeeds, every draw is 0, the agent status
stays that of the example agent. -/
def exNavEnv : NavCollaborators ℚ :=
  { MoveToErr := fun _ _ _ => false, rand := fun _ => 0, heroAt := fun _ => exHero,
    polls := fun _ => [] }

/-- Navigator collaborators whose every move fails. -/
def exNavEnvMoveFails : NavCollaborators ℚ :=
  { MoveToErr := fun _ _ _ => true, rand := fun _ => 0, heroAt := fun _ => exHero,
    polls := fun _ => [] }

/-- An agent inside the example hunting ground, 50 units from its centre. -/
def exHeroInside : HeroState ℚ :=
  { X := 150, Y := 0, MapID := "map1", HP := 100, HPMax := 100, MP := 50, MPMax := 50,
    Level := 10, Exp := 0, InCombat := false, Dead := false, LastUpdate := 0 }

/-- A store whose agent is inside the example hunting ground. -/
def exStoreInside : StateManager ℚ :=
  { hero := exHeroInside, mobs := [],
    connection := { Connected := true, LastCheck := 0, Retries := 0 },
    phase := BotPhase.PhaseNavigate, positionHistory := [], actionCount := 0 }

/-- Loop collaborators: the connection check reports a lost connection and the first
reconnection attempt succeeds. -/
def exLoopEnv : LoopCollaborators ℚ :=
  { RespawnErr := false, IsConnected := some false, NavigateErr := fun _ => false,
    EnsureReadyErr := fun _ => false, heroAfterRespawn := exHero, nav := exNavEnv }

/-- A loop state in the HUNT phase whose combat engine holds the orc. -/
def exLoopState : LoopState ℚ :=
  { stateMgr := exStore, combatEngine := exEngine }

/-- An older snapshot of the far goblin: other position and health, same identifier. -/
def exGoblinFarOld : Mob ℚ :=
  { ID := "3", Name := "Goblin", Level := 3, X := 9, Y := 12, HP := 4, HPMax := 10,
    Alive := true, Attackable := true }

/-- A store whose agent is at full health, with the orc and the far goblin in sight. -/
def exStoreTwo : StateManager ℚ :=
  { hero := exHero, mobs := [exOrc, exGoblinFar],
    connection := { Connected := true, LastCheck := 0, Retries := 0 },
    phase := BotPhase.PhaseHunt, positionHistory := [], actionCount := 0 }

/-- An engine holding the older snapshot of the far goblin. -/
def exEngineFar : Engine ℚ :=
  { cfg := exConfig, currentTarget := some exGoblinFarOld }

/-- An orc at distance 10. -/
def exOrcFar : Mob ℚ :=
  { ID := "5", Name := "Orc", Level := 3, X := 6, Y := 8, HP := 10, HPMax := 10,
    Alive := true, Attackable := true }

/-- Math functions for the rounded examples: the rounded square root, and the values 1
and 0 of `math.Cos` and `math.Sin` at 0, the only argument at which the examples
evaluate them. -/
def exMathF64 : MathFns ℚ :=
  { Sqrt := sqrtF64, Cos := fun _ => 1, Sin := fun _ => 0, Pi := piF64 }

/-- A goblin at `(2.7117, 100)`, about 100 units from the agent. -/
def exGoblinAside : Mob ℚ :=
  { ID := "11", Name := "Goblin", Level := 3, X := 6106205554770287 / 2251799813685248,
    Y := 100, HP := 10, HPMax := 10, Alive := true, Attackable := true }

/-- A goblin at `(60, 80)`, 100 units from the agent. -/
def exGoblinAway : Mob ℚ :=
  { ID := "12", Name := "Goblin", Level := 3, X := 60, Y := 80, HP := 10, HPMax := 10,
    Alive := true, Attackable := true }

/-- An engine without target whose path jitter is the `float64` value written `7.3`. -/
def exEngineJitter : Engine ℚ :=
  { cfg := { exConfig with
      Behavior := { exBehavior with PathJitter := 8219069319951155 / 1125899906842624 } },
    currentTarget := none }

/-- An engine without target whose path jitter is -5. -/
def exEngineNegJitter : Engine ℚ :=
  { cfg := { exConfig with Behavior := { exBehavior with PathJitter := -5 } },
    currentTarget := none }

/-- An engine without target, with a path jitter of 5. -/
def exEngineIdle : Engine ℚ :=
  { cfg := exConfig, currentTarget := none }

/-- A game client whose commands succeed; both draws are 0. -/
def exEnvZero : Collaborators ℚ :=
  { MoveToErr := fun _ _ => false, AttackMobErr := fun _ => false, rand1 := 0, rand2 := 0 }

/-- A game client whose commands succeed; the draws are one half and 0. -/
def exEnvHalf : Collaborators ℚ :=
  { MoveToErr := fun _ _ => false, AttackMobErr := fun _ => false, rand1 := 1 / 2, rand2 := 0 }

/-- A store whose agent is at full health, with the goblin at `(2.7117, 100)` in sight. -/
def exStoreAside : StateManager ℚ :=
  { hero := exHero, mobs := [exGoblinAside],
    connection := { Connected := true, LastCheck := 0, Retries := 0 },
    phase := BotPhase.PhaseHunt, positionHistory := [], actionCount := 0 }

/-- A store whose agent is at full health, with the goblin at `(60, 80)` in sight. -/
def exStoreAway : StateManager ℚ :=
  { hero := exHero, mobs := [exGoblinAway],
    connection := { Connected := true, LastCheck := 0, Retries := 0 },
    phase := BotPhase.PhaseHunt, positionHistory := [], actionCount := 0 }

end Examples

/-! ## Lemmas on the targeting engine -/

section TargetingLemmas

variable {F : Type} [LinearOrderedField F]

theorem candidates_cons_of_passes (M : MathFns F) (hero : HeroState F) (cfg : CombatConfig F)
    (mob : Mob F) (rest : List (Mob F)) (h : passesFilters M hero cfg mob) :
    candidates M hero cfg (mob :: rest) =
      mkCandidate M hero cfg mob :: candidates M hero cfg rest := by
  obtain ⟨h1, h2, h3, h4, h5⟩ := h
  simp only [candidates, h1, h2, Bool.not_true, Bool.or_self, Bool.false_eq_true, if_false,
    if_neg h3, if_neg h4, if_neg h5, mkCandidate, mobScore]

theorem candidates_cons_of_not_passes (M : MathFns F) (hero : HeroState F)
    (cfg : CombatConfig F) (mob : Mob F) (rest : List (Mob F))
    (h : ¬ passesFilters M hero cfg mob) :
    candidates M hero cfg (mob :: rest) = candidates M hero cfg rest := by
  unfold passesFilters at h
  simp only [candidates]
  split_ifs with h1 h2 h3 h4
  · rfl
  · rfl
  · rfl
  · rfl
  · exfalso
    apply h
    simp only [Bool.or_eq_true, Bool.not_eq_true', not_or, Bool.not_eq_false] at h1
    exact ⟨h1.1, h1.2, h2, h3, h4⟩

theorem mem_candidates_of_passes (M : MathFns F) (hero : HeroState F) (cfg : CombatConfig F)
    (mobs : List (Mob F)) (c : Mob F) (hc : c ∈ mobs) (hp : passesFilters M hero cfg c) :
    mkCandidate M hero cfg c ∈ candidates M hero cfg mobs := by
  induction mobs with
  | nil => cases hc
  | cons x rest ih =>
    by_cases hx : passesFilters M hero cfg x
    · rw [candidates_cons_of_passes M hero cfg x rest hx]
      rcases List.mem_cons.mp hc with rfl | hc
      · exact List.mem_cons_self _ _
      · exact List.mem_cons_of_mem _ (ih hc)
    · rw [candidates_cons_of_not_passes M hero cfg x rest hx]
      rcases List.mem_cons.mp hc with rfl | hc
      · exact absurd hp hx
      · exact ih hc

/-- A candidate list that splits around an entry comes from a mob list that splits
around the mob of that entry, the mobs before it yielding the candidates before it. -/
theorem candidates_split (M : MathFns F) (hero : HeroState F) (cfg : CombatConfig F) :
    ∀ (mobs : List (Mob F)) (cpre cpost : List (TargetScore F)) (r : TargetScore F),
      candidates M hero cfg mobs = cpre ++ r :: cpost →
      ∃ pre post, mobs = pre ++ r.Mob :: post ∧ passesFilters M hero cfg r.Mob ∧
        r = mkCandidate M hero cfg r.Mob ∧ candidates M hero cfg pre = cpre := by
  intro mobs
  induction mobs with
  | nil =>
    intro cpre cpost r h
    simp [candidates] at h
  | cons x rest ih =>
    intro cpre cpost r h
    by_cases hx : passesFilters M hero cfg x
    · rw [candidates_cons_of_passes M hero cfg x rest hx] at h
      cases cpre with
      | nil =>
        simp only [List.nil_append, List.cons.injEq] at h
        obtain ⟨h1, _⟩ := h
        subst h1
        exact ⟨[], rest, by simp [mkCandidate], by simpa [mkCandidate] using hx,
          by simp [mkCandidate], by simp [candidates]⟩
      | cons p cpre2 =>
        simp only [List.cons_append, List.cons.injEq] at h
        obtain ⟨h1, h2⟩ := h
        obtain ⟨pre, post, e1, e2, e3, e4⟩ := ih cpre2 cpost r h2
        refine ⟨x :: pre, post, by simp [e1], e2, e3, ?_⟩
        rw [candidates_cons_of_passes M hero cfg x pre hx, e4, h1]
    · rw [candidates_cons_of_not_passes M hero cfg x rest hx] at h
      obtain ⟨pre, post, e1, e2, e3, e4⟩ := ih cpre cpost r h
      refine ⟨x :: pre, post, by simp [e1], e2, e3, ?_⟩
      rw [candidates_cons_of_not_passes M hero cfg x pre hx, e4]

/-- Invariant of the best-score scan: the entries before the current best score
strictly lower, the entries scanned after it score no higher. -/
theorem bestLoop_split :
    ∀ (cs cpre mid : List (TargetScore F)) (best : TargetScore F),
      (∀ c ∈ cpre, c.Score < best.Score) → (∀ c ∈ mid, c.Score ≤ best.Score) →
      ∃ cpre2 cpost2, cpre ++ best :: (mid ++ cs) = cpre2 ++ bestLoop best cs :: cpost2 ∧
        (∀ c ∈ cpre2, c.Score < (bestLoop best cs).Score) ∧
        (∀ c ∈ cpost2, c.Score ≤ (bestLoop best cs).Score) := by
  intro cs
  induction cs with
  | nil =>
    intro cpre mid best h1 h2
    exact ⟨cpre, mid, by simp [bestLoop], by simpa [bestLoop] using h1,
      by simpa [bestLoop] using h2⟩
  | cons c cs ih =>
    intro cpre mid best h1 h2
    by_cases hc : c.Score > best.Score
    · have hb : bestLoop best (c :: cs) = bestLoop c cs := by simp [bestLoop, hc]
      rw [hb]
      obtain ⟨cpre2, cpost2, e1, e2, e3⟩ := ih (cpre ++ best :: mid) [] c
        (by
          intro d hd
          rcases List.mem_append.mp hd with hd | hd
          · exact lt_trans (h1 d hd) hc
          · rcases List.mem_cons.mp hd with rfl | hd
            · exact hc
            · exact lt_of_le_of_lt (h2 d hd) hc)
        (by intro d hd; cases hd)
      refine ⟨cpre2, cpost2, ?_, e2, e3⟩
      rw [← e1]
      simp
    · have hb : bestLoop best (c :: cs) = bestLoop best cs := by simp [bestLoop, hc]
      rw [hb]
      obtain ⟨cpre2, cpost2, e1, e2, e3⟩ := ih cpre (mid ++ [c]) best h1
        (by
          intro d hd
          rcases List.mem_append.mp hd with hd | hd
          · exact h2 d hd
          · rcases List.mem_singleton.mp hd with rfl
            exact not_lt.mp hc)
      refine ⟨cpre2, cpost2, ?_, e2, e3⟩
      rw [← e1]
      simp

theorem mkCandidate_score (M : MathFns F) (hero : HeroState F) (cfg : CombatConfig F)
    (mob : Mob F) : (mkCandidate M hero cfg mob).Score = mobScore M hero cfg mob := rfl

/-- What `SelectTarget` returns: a mob of the list that passes the filters, scores at
least as high as every passing mob and strictly higher than every passing mob
before it. -/
theorem SelectTarget_some_split (M : MathFns F) (hero : HeroState F) (mobs : List (Mob F))
    (cfg : CombatConfig F) (m : Mob F) (h : SelectTarget M hero mobs cfg = some m) :
    ∃ pre post, mobs = pre ++ m :: post ∧ passesFilters M hero cfg m ∧
      (∀ c ∈ mobs, passesFilters M hero cfg c →
        mobScore M hero cfg c ≤ mobScore M hero cfg m) ∧
      (∀ c ∈ pre, passesFilters M hero cfg c →
        mobScore M hero cfg c < mobScore M hero cfg m) := by
  unfold SelectTarget at h
  split_ifs at h with hlen
  cases hcand : candidates M hero cfg mobs with
  | nil => rw [hcand] at h; cases h
  | cons c0 cs =>
    rw [hcand] at h
    simp only [Option.some.injEq] at h
    obtain ⟨cpre2, cpost2, e1, e2, e3⟩ := bestLoop_split cs [] [] c0
      (by intro d hd; cases hd) (by intro d hd; cases hd)
    simp only [List.nil_append] at e1
    rw [e1] at hcand
    obtain ⟨pre, post, f1, f2, f3, f4⟩ :=
      candidates_split M hero cfg mobs cpre2 cpost2 (bestLoop c0 cs) hcand
    rw [h] at f1 f2 f3
    have hscore : (bestLoop c0 cs).Score = mobScore M hero cfg m := by
      rw [f3]; rfl
    refine ⟨pre, post, f1, f2, ?_, ?_⟩
    · intro c hc hp
      have hmem := mem_candidates_of_passes M hero cfg mobs c hc hp
      rw [hcand] at hmem
      rw [← hscore, ← mkCandidate_score]
      rcases List.mem_append.mp hmem with hm | hm
      · exact le_of_lt (e2 _ hm)
      · rcases List.mem_cons.mp hm with hm | hm
        · rw [hm]
        · exact e3 _ hm
    · intro c hc hp
      have hmem := mem_candidates_of_passes M hero cfg pre c hc hp
      rw [f4] at hmem
      rw [← hscore, ← mkCandidate_score]
      exact e2 _ hmem

/-- When `SelectTarget` returns nothing: exactly when no mob of the list passes the
filters. -/
theorem SelectTarget_eq_none_iff (M : MathFns F) (hero : HeroState F) (mobs : List (Mob F))
    (cfg : CombatConfig F) :
    SelectTarget M hero mobs cfg = none ↔ ∀ c ∈ mobs, ¬ passesFilters M hero cfg c := by
  constructor
  · intro h c hc hp
    have hmem := mem_candidates_of_passes M hero cfg mobs c hc hp
    unfold SelectTarget at h
    split_ifs at h with hlen
    · rw [List.length_eq_zero] at hlen
      rw [hlen] at hc
      cases hc
    · cases hcand : candidates M hero cfg mobs with
      | nil => rw [hcand] at hmem; cases hmem
      | cons c0 cs => rw [hcand] at h; cases h
  · intro h
    cases hsel : SelectTarget M hero mobs cfg with
    | none => rfl
    | some m =>
      obtain ⟨pre, post, f1, f2, _, _⟩ := SelectTarget_some_split M hero mobs cfg m hsel
      exact absurd f2 (h m (by rw [f1]; simp))

theorem indexOf?_lt_length (name : String) :
    ∀ (l : List String) (k : Nat), l.indexOf? name = some k → k < l.length := by
  intro l
  induction l with
  | nil => intro k h; simp at h
  | cons n rest ih =>
    intro k h
    rw [List.indexOf?_cons] at h
    split_ifs at h with hn
    · simp only [Option.some.injEq] at h
      subst h
      simp
    · cases hr : rest.indexOf? name with
      | none => rw [hr] at h; simp at h
      | some j =>
        rw [hr] at h
        simp only [Option.map_some', Option.some.injEq] at h
        subst h
        have := ih j hr
        simp only [List.length_cons]
        omega

/-- The priority loop adds the bonus of the first index at which the name occurs,
and nothing for a name that does not occur. -/
theorem priorityLoop_indexOf? (name : String) (len : Nat) :
    ∀ (rest : List String) (i : Nat) (score : F),
      priorityLoop name len i rest score =
        match rest.indexOf? name with
        | none => score
        | some k => score + (((len : Int) - ((i + k : Nat) : Int) : Int) : F) * 50 := by
  intro rest
  induction rest with
  | nil => intro i score; simp [priorityLoop]
  | cons n rest ih =>
    intro i score
    rw [List.indexOf?_cons]
    by_cases hn : name = n
    · subst hn
      simp [priorityLoop]
    · have hn2 : ¬ (n == name) = true := by
        simp only [beq_iff_eq]
        exact fun h => hn h.symm
      simp only [priorityLoop, if_neg hn, if_neg hn2]
      rw [ih (i + 1) score]
      cases hr : rest.indexOf? name with
      | none => simp
      | some j =>
        simp only [Option.map_some']
        have : i + 1 + j = i + Nat.succ j := by omega
        rw [this]

/-- The score of a mob whose name first occurs at index `k` of the priority list. -/
theorem scoreMob_listed (mob : Mob F) (dist : F) (priority : List String) (k : Nat)
    (h : priority.indexOf? mob.Name = some k) :
    scoreMob mob dist priority =
      100 + ((priority.length : F) - (k : F)) * 50 - (dist / 300) * 50 := by
  simp only [scoreMob, priorityLoop_indexOf?, h]
  push_cast
  ring

/-- The score of a mob whose name is not on the priority list. -/
theorem scoreMob_unlisted (mob : Mob F) (dist : F) (priority : List String)
    (h : priority.indexOf? mob.Name = none) :
    scoreMob mob dist priority = 100 - (dist / 300) * 50 := by
  simp only [scoreMob, priorityLoop_indexOf?, h]

/-- With equal standing on the priority list, the score depends on the distance only. -/
theorem scoreMob_lt_of_dist_lt (a b : Mob F) (da db : F) (priority : List String)
    (hst : priority.indexOf? a.Name = priority.indexOf? b.Name) (hd : da < db) :
    scoreMob b db priority < scoreMob a da priority := by
  have hpen : da / 300 * 50 < db / 300 * 50 := by
    have : da / 300 < db / 300 := div_lt_div_of_pos_right hd (by norm_num)
    exact mul_lt_mul_of_pos_right this (by norm_num)
  simp only [scoreMob, priorityLoop_indexOf?, hst]
  linarith

/-- The loop keeps exactly the mobs that qualify, a non-positive level bound imposing
no limit. -/
theorem passesFilters_iff_qualifies (M : MathFns F) (hero : HeroState F)
    (cfg : CombatConfig F) (mob : Mob F) :
    passesFilters M hero cfg mob ↔ qualifies M hero cfg mob := by
  unfold passesFilters qualifies
  constructor
  · rintro ⟨h1, h2, h3, h4, h5⟩
    refine ⟨h1, h2, ?_, ?_, ?_⟩
    · by_contra hc
      push_neg at hc
      exact h3 ⟨hc.1, hc.2⟩
    · by_contra hc
      push_neg at hc
      exact h4 ⟨hc.1, hc.2⟩
    · intro hpos
      by_contra hc
      exact h5 ⟨hpos, not_le.mp hc⟩
  · rintro ⟨h1, h2, h3, h4, h5⟩
    refine ⟨h1, h2, ?_, ?_, ?_⟩
    · rintro ⟨ha, hb⟩
      rcases h3 with h3 | h3
      · exact absurd ha (not_lt.mpr h3)
      · exact absurd hb (not_lt.mpr h3)
    · rintro ⟨ha, hb⟩
      rcases h4 with h4 | h4
      · exact absurd ha (not_lt.mpr h4)
      · exact absurd hb (not_lt.mpr h4)
    · rintro ⟨ha, hb⟩
      exact absurd hb (not_lt.mpr (h5 ha))

end TargetingLemmas

/-! ## Lemmas on stuck detection -/

section StuckLemmas

variable {F : Type} [LinearOrderedField F]

/-- The backward scan from index `k - 1` reports a stall exactly when some scanned
sample is close to the most recent one and every sample from it up to index `k - 1`
is within the time window. -/
theorem stuckLoop_eq_true_iff (history : List (PositionRecord F)) (recent : PositionRecord F)
    (now : Int) (threshold : F) (duration : Int) :
    ∀ k : Nat, stuckLoop history recent now threshold duration k = true ↔
      ∃ i, i < k ∧
        (∀ j, i ≤ j → j < k → ∃ p, history[j]? = some p ∧ inWindow now duration p) ∧
        ∃ p, history[i]? = some p ∧ sqDist recent p < threshold * threshold := by
  intro k
  induction k with
  | zero => simp [stuckLoop]
  | succ k ih =>
    cases hk : history[k]? with
    | none =>
      simp only [stuckLoop, hk, Bool.false_eq_true, false_iff]
      rintro ⟨i, hi, hwin, _⟩
      obtain ⟨p, hp, _⟩ := hwin k (by omega) (by omega)
      rw [hk] at hp
      cases hp
    | some pos =>
      by_cases hold : now - pos.Timestamp > duration
      · simp only [stuckLoop, hk, if_pos hold, Bool.false_eq_true, false_iff]
        rintro ⟨i, hi, hwin, _⟩
        obtain ⟨p, hp, hpw⟩ := hwin k (by omega) (by omega)
        rw [hk] at hp
        simp only [Option.some.injEq] at hp
        subst hp
        unfold inWindow at hpw
        omega
      · have hposwin : inWindow now duration pos := by
          unfold inWindow
          omega
        by_cases hclose : sqDist recent pos < threshold * threshold
        · have hclose2 := hclose
          unfold sqDist at hclose2
          simp only [stuckLoop, hk, if_neg hold, if_pos hclose2, true_iff]
          refine ⟨k, by omega, ?_, pos, hk, hclose⟩
          intro j hj1 hj2
          have : j = k := by omega
          subst this
          exact ⟨pos, hk, hposwin⟩
        · have hclose2 := hclose
          unfold sqDist at hclose2
          simp only [stuckLoop, hk, if_neg hold, if_neg hclose2]
          rw [ih]
          constructor
          · rintro ⟨i, hi, hwin, hp⟩
            refine ⟨i, by omega, ?_, hp⟩
            intro j hj1 hj2
            by_cases hjk : j = k
            · subst hjk
              exact ⟨pos, hk, hposwin⟩
            · exact hwin j hj1 (by omega)
          · rintro ⟨i, hi, hwin, p, hp, hpc⟩
            have hik : i ≠ k := by
              intro hik
              subst hik
              rw [hk] at hp
              simp only [Option.some.injEq] at hp
              subst hp
              exact hclose hpc
            exact ⟨i, by omega, fun j hj1 hj2 => hwin j hj1 (by omega), p, hp, hpc⟩

/-- The method `IsStuck` on a history with at least two samples is the backward scan
from the sample before the most recent one. -/
theorem IsStuck_eq_stuckLoop (sm : StateManager F) (now : Int) (threshold : F)
    (duration : Int) (recent : PositionRecord F) (hlen : 2 ≤ sm.positionHistory.length)
    (hrecent : sm.positionHistory.getLast? = some recent) :
    sm.IsStuck now threshold duration =
      stuckLoop sm.positionHistory recent now threshold duration
        (sm.positionHistory.length - 1) := by
  rw [List.getLast?_eq_getElem?] at hrecent
  have hnot : ¬ sm.positionHistory.length < 2 := by omega
  simp only [StateManager.IsStuck, if_neg hnot, hrecent]

theorem IsStuck_of_short (sm : StateManager F) (now : Int) (threshold : F)
    (duration : Int) (hlen : sm.positionHistory.length < 2) :
    sm.IsStuck now threshold duration = false := by
  simp only [StateManager.IsStuck, if_pos hlen]

end StuckLemmas

/-! ## The targeting engine: selection -/

section TargetingClaims

variable {F : Type} [LinearOrderedField F]

/-- C1: if `SelectTarget` returns an entity `m`, then `m` stands in the list and
survived the filters, no surviving candidate of the list has a score strictly higher
than that of `m`, and every surviving candidate that comes before `m` in the list has
a strictly lower score: the highest score wins and ties go to the candidate scanned
first. -/
theorem SelectTarget_highest_score_first_scanned (M : MathFns F) (hero : HeroState F)
    (mobs : List (Mob F)) (cfg : CombatConfig F) (m : Mob F)
    (h : SelectTarget M hero mobs cfg = some m) :
    ∃ pre post, mobs = pre ++ m :: post ∧ passesFilters M hero cfg m ∧
      (∀ c ∈ mobs, passesFilters M hero cfg c →
        ¬ (mobScore M hero cfg c > mobScore M hero cfg m)) ∧
      (∀ c ∈ pre, passesFilters M hero cfg c →
        mobScore M hero cfg c < mobScore M hero cfg m) := by
  obtain ⟨pre, post, h1, h2, h3, h4⟩ := SelectTarget_some_split M hero mobs cfg m h
  exact ⟨pre, post, h1, h2, fun c hc hp => not_lt.mpr (h3 c hc hp), h4⟩

/-- Witness of C1: with a goblin and an orc both at distance 5 and the priority list
Orc, Goblin, the orc is returned although the goblin is scanned first. -/
theorem SelectTarget_highest_score_first_scanned_witness :
    ∃ pre post, [exGoblin, exOrc] = pre ++ exOrc :: post ∧
      passesFilters exMath exHero exCfg exOrc ∧
      (∀ c ∈ [exGoblin, exOrc], passesFilters exMath exHero exCfg c →
        ¬ (mobScore exMath exHero exCfg c > mobScore exMath exHero exCfg exOrc)) ∧
      (∀ c ∈ pre, passesFilters exMath exHero exCfg c →
        mobScore exMath exHero exCfg c < mobScore exMath exHero exCfg exOrc) :=
  SelectTarget_highest_score_first_scanned exMath exHero [exGoblin, exOrc] exCfg exOrc
    (by decide!)

/-- C2: with a level band `MinLevel = lo > 0` and `MaxLevel = hi > 0`, `SelectTarget`
never returns an entity whose level is below `lo` or above `hi`. -/
theorem SelectTarget_level_band (M : MathFns F) (hero : HeroState F)
    (mobs : List (Mob F)) (cfg : CombatConfig F) (m : Mob F)
    (hlo : 0 < cfg.MinLevel) (hhi : 0 < cfg.MaxLevel)
    (h : SelectTarget M hero mobs cfg = some m) :
    cfg.MinLevel ≤ m.Level ∧ m.Level ≤ cfg.MaxLevel := by
  obtain ⟨_, _, _, hp, _, _⟩ := SelectTarget_some_split M hero mobs cfg m h
  obtain ⟨_, _, h3, h4, _⟩ := hp
  constructor
  · by_contra hc
    exact h3 ⟨hlo, not_le.mp hc⟩
  · by_contra hc
    exact h4 ⟨hhi, not_le.mp hc⟩

/-- Witness of C2: with the band 2 to 8 the orc of level 3 is returned. -/
theorem SelectTarget_level_band_witness :
    exCfgBand.MinLevel ≤ exOrc.Level ∧ exOrc.Level ≤ exCfgBand.MaxLevel :=
  SelectTarget_level_band exMath exHero [exGoblin, exOrc] exCfgBand exOrc
    (by decide) (by decide) (by decide!)

/-- Counterexample to C3 as stated: with `MaxLevel = -1` no entity lies inside the
level band of the specification (the bound is not zero and the level 3 exceeds it),
yet `SelectTarget` returns the orc. -/
theorem SelectTarget_negative_bound_counterexample :
    SelectTarget exMath exHero [exOrc] exCfgNeg = some exOrc ∧
      ∀ c ∈ [exOrc], ¬ specQualifies exMath exHero exCfgNeg c := by
  refine ⟨by decide!, ?_⟩
  intro c hc
  rw [List.mem_singleton] at hc
  subst hc
  rintro ⟨_, _, _, h4, _⟩
  rcases h4 with h4 | h4
  · exact absurd h4 (by decide)
  · exact absurd h4 (by decide)

/-- C3, amended: `SelectTarget` returns none if and only if no entity of the list is
alive, attackable, inside the level band (a bound of zero or less imposing no limit on
that side) and, when `MaxEngageDistance` is positive, at distance at most
`MaxEngageDistance` from the agent; it returns none on an empty list and on a list
whose entities are all dead or non-attackable, and any entity it returns is an element
of the input list that passes all these filters. -/
theorem SelectTarget_none_iff_no_qualifying (M : MathFns F) (hero : HeroState F)
    (mobs : List (Mob F)) (cfg : CombatConfig F) :
    (SelectTarget M hero mobs cfg = none ↔ ∀ c ∈ mobs, ¬ qualifies M hero cfg c) ∧
    SelectTarget M hero [] cfg = none ∧
    ((∀ c ∈ mobs, c.Alive = false ∨ c.Attackable = false) →
      SelectTarget M hero mobs cfg = none) ∧
    (∀ m, SelectTarget M hero mobs cfg = some m → m ∈ mobs ∧ qualifies M hero cfg m) := by
  refine ⟨?_, ?_, ?_, ?_⟩
  · rw [SelectTarget_eq_none_iff]
    constructor
    · intro h c hc hq
      exact h c hc ((passesFilters_iff_qualifies M hero cfg c).mpr hq)
    · intro h c hc hp
      exact h c hc ((passesFilters_iff_qualifies M hero cfg c).mp hp)
  · simp [SelectTarget]
  · intro h
    rw [SelectTarget_eq_none_iff]
    intro c hc hp
    rcases h c hc with hd | hd
    · rw [hp.1] at hd; cases hd
    · rw [hp.2.1] at hd; cases hd
  · intro m hm
    obtain ⟨pre, post, h1, h2, _, _⟩ := SelectTarget_some_split M hero mobs cfg m hm
    exact ⟨by rw [h1]; simp, (passesFilters_iff_qualifies M hero cfg m).mp h2⟩

/-- In exact arithmetic (no rounding): of two candidates that both survive the filters
and have equal standing on the priority list (both unlisted, or both first matching the
same index), the one strictly closer to the agent scores strictly higher, and
`SelectTarget` on a list containing both never returns the farther one. -/
theorem SelectTarget_prefers_closer_exact (M : MathFns F) (hero : HeroState F)
    (cfg : CombatConfig F) (a b : Mob F)
    (ha : passesFilters M hero cfg a) (_hb : passesFilters M hero cfg b)
    (hst : cfg.TargetPriority.indexOf? a.Name = cfg.TargetPriority.indexOf? b.Name)
    (hd : distance M hero.X hero.Y a.X a.Y < distance M hero.X hero.Y b.X b.Y) :
    mobScore M hero cfg b < mobScore M hero cfg a ∧
      ∀ mobs : List (Mob F), a ∈ mobs → b ∈ mobs →
        SelectTarget M hero mobs cfg ≠ some b := by
  have hlt : mobScore M hero cfg b < mobScore M hero cfg a :=
    scoreMob_lt_of_dist_lt a b _ _ cfg.TargetPriority hst hd
  refine ⟨hlt, ?_⟩
  intro mobs hma _ hsel
  obtain ⟨_, _, _, _, h3, _⟩ := SelectTarget_some_split M hero mobs cfg b hsel
  exact absurd (h3 a hma ha) (not_le.mpr hlt)

/-- An instance in exact arithmetic: two goblins at distances 5 and 10. -/
theorem SelectTarget_prefers_closer_exact_witness :
    mobScore exMath exHero exCfg exGoblinFar < mobScore exMath exHero exCfg exGoblin ∧
      ∀ mobs : List (Mob ℚ), exGoblin ∈ mobs → exGoblinFar ∈ mobs →
        SelectTarget exMath exHero mobs exCfg ≠ some exGoblinFar :=
  SelectTarget_prefers_closer_exact exMath exHero exCfg exGoblin exGoblinFar
    (by decide!) (by decide!) (by decide) (by decide!)

/-- C5: of two candidates at equal distance from the agent, the one whose name first
occurs at an earlier index of the priority list scores strictly higher than one whose
name first occurs at a later index, and a listed candidate scores strictly higher than
an unlisted one; the score of a candidate listed first at index `i` is
`100 + (listLength - i) * 50` minus the distance penalty, the bonus being taken once at
the first matching index, and the score of an unlisted candidate has no bonus. -/
theorem scoreMob_priority_order (M : MathFns F) (hero : HeroState F) (cfg : CombatConfig F)
    (a b : Mob F)
    (hd : distance M hero.X hero.Y a.X a.Y = distance M hero.X hero.Y b.X b.Y) :
    (∀ i j, cfg.TargetPriority.indexOf? a.Name = some i →
      cfg.TargetPriority.indexOf? b.Name = some j → i < j →
      mobScore M hero cfg b < mobScore M hero cfg a) ∧
    (∀ i, cfg.TargetPriority.indexOf? a.Name = some i →
      cfg.TargetPriority.indexOf? b.Name = none →
      mobScore M hero cfg b < mobScore M hero cfg a) ∧
    (∀ i, cfg.TargetPriority.indexOf? a.Name = some i →
      mobScore M hero cfg a =
        100 + ((cfg.TargetPriority.length : F) - (i : F)) * 50
          - (distance M hero.X hero.Y a.X a.Y / 300) * 50) ∧
    (cfg.TargetPriority.indexOf? a.Name = none →
      mobScore M hero cfg a = 100 - (distance M hero.X hero.Y a.X a.Y / 300) * 50) := by
  refine ⟨?_, ?_, ?_, ?_⟩
  · intro i j hi hj hij
    unfold mobScore
    rw [scoreMob_listed a _ _ i hi, scoreMob_listed b _ _ j hj, hd]
    have hc : (i : F) < (j : F) := by exact_mod_cast hij
    linarith
  · intro i hi hn
    unfold mobScore
    rw [scoreMob_listed a _ _ i hi, scoreMob_unlisted b _ _ hn, hd]
    have hlen : (i : F) < (cfg.TargetPriority.length : F) := by
      exact_mod_cast indexOf?_lt_length a.Name _ i hi
    linarith
  · intro i hi
    exact scoreMob_listed a _ _ i hi
  · intro hn
    exact scoreMob_unlisted a _ _ hn

/-- Witness of C5: with the priority list Orc, Goblin and all three at distance 5, the
orc beats the goblin and the goblin beats the unlisted rat. -/
theorem scoreMob_priority_order_witness :
    mobScore exMath exHero exCfg exGoblin < mobScore exMath exHero exCfg exOrc ∧
      mobScore exMath exHero exCfg exRat < mobScore exMath exHero exCfg exGoblin :=
  ⟨(scoreMob_priority_order exMath exHero exCfg exOrc exGoblin (by decide!)).1 0 1
      (by decide) (by decide) (by decide),
    (scoreMob_priority_order exMath exHero exCfg exGoblin exRat (by decide!)).2.1 1
      (by decide) (by decide)⟩

end TargetingClaims

/-! ## Lemmas on the combat controller -/

theorem revalidate_eq_none_iff {F : Type} (targetID : String) (mobs : List (Mob F)) :
    revalidate targetID mobs = none ↔
      ∀ m ∈ mobs, ¬ (m.ID = targetID ∧ m.Alive = true ∧ m.Attackable = true) := by
  induction mobs with
  | nil => simp [revalidate]
  | cons x rest ih =>
    by_cases hx : x.ID = targetID ∧ x.Alive = true ∧ x.Attackable = true
    · simp only [revalidate, if_pos hx, List.mem_cons, forall_eq_or_imp]
      constructor
      · intro h; cases h
      · intro h; exact absurd hx h.1
    · simp only [revalidate, if_neg hx, List.mem_cons, forall_eq_or_imp, ih]
      constructor
      · intro h; exact ⟨hx, h⟩
      · intro h; exact h.2

theorem revalidate_some {F : Type} (targetID : String) (mobs : List (Mob F)) (m : Mob F)
    (h : revalidate targetID mobs = some m) :
    m ∈ mobs ∧ m.ID = targetID ∧ m.Alive = true ∧ m.Attackable = true := by
  induction mobs with
  | nil => simp [revalidate] at h
  | cons x rest ih =>
    by_cases hx : x.ID = targetID ∧ x.Alive = true ∧ x.Attackable = true
    · simp only [revalidate, if_pos hx, Option.some.injEq] at h
      subst h
      exact ⟨List.mem_cons_self _ _, hx⟩
    · simp only [revalidate, if_neg hx] at h
      obtain ⟨h1, h2⟩ := ih h
      exact ⟨List.mem_cons_of_mem _ h1, h2⟩

section CombatLemmas

variable {F : Type} [LinearOrderedField F]

/-- The target held after a tick that retreats. -/
theorem Tick_target_of_low (M : MathFns F) (env : Collaborators F) (e : Engine F)
    (sm : StateManager F) (h : sm.GetHero.HPPercent < e.cfg.Combat.HPThreshold) :
    (Engine.Tick M env e sm).engine.currentTarget = none := by
  simp only [Engine.Tick, if_pos h]

/-- The target held after a tick that starts without a target or with a target that
is not found alive and attackable: the choice of `SelectTarget`. -/
theorem Tick_target_of_no_valid (M : MathFns F) (env : Collaborators F) (e : Engine F)
    (sm : StateManager F) (h : ¬ sm.GetHero.HPPercent < e.cfg.Combat.HPThreshold)
    (hcur : ∀ t, e.currentTarget = some t → revalidate t.ID sm.GetMobs = none) :
    (Engine.Tick M env e sm).engine.currentTarget =
      SelectTarget M sm.GetHero sm.GetMobs e.cfg.Combat := by
  simp only [Engine.Tick, if_neg h]
  cases hc : e.currentTarget with
  | none =>
    simp only
    cases hs : SelectTarget M sm.GetHero sm.GetMobs e.cfg.Combat with
    | none => rfl
    | some m => rfl
  | some t =>
    simp only [hcur t hc]
    cases hr : e.cfg.Combat.RetargetOnDeath with
    | false =>
      simp only [Bool.false_eq_true, if_false]
      cases hs : SelectTarget M sm.GetHero sm.GetMobs e.cfg.Combat with
      | none => rfl
      | some m => rfl
    | true =>
      simp only [if_true]
      cases hs : SelectTarget M sm.GetHero sm.GetMobs e.cfg.Combat with
      | none => simp only [hs]
      | some m => rfl

/-- The target held after a tick whose held target is found alive and attackable:
the entry found. -/
theorem Tick_target_of_valid (M : MathFns F) (env : Collaborators F) (e : Engine F)
    (sm : StateManager F) (h : ¬ sm.GetHero.HPPercent < e.cfg.Combat.HPThreshold)
    (t m : Mob F) (hc : e.currentTarget = some t)
    (hr : revalidate t.ID sm.GetMobs = some m) :
    (Engine.Tick M env e sm).engine.currentTarget = some m := by
  simp only [Engine.Tick, if_neg h, hc, hr]

/-- After any tick the held target is none or an alive and attackable mob of the
list read by the tick. -/
theorem Tick_target_valid (M : MathFns F) (env : Collaborators F) (e : Engine F)
    (sm : StateManager F) (m : Mob F)
    (hm : (Engine.Tick M env e sm).engine.currentTarget = some m) :
    m ∈ sm.GetMobs ∧ m.Alive = true ∧ m.Attackable = true := by
  by_cases h : sm.GetHero.HPPercent < e.cfg.Combat.HPThreshold
  · rw [Tick_target_of_low M env e sm h] at hm
    cases hm
  · have hsel : SelectTarget M sm.GetHero sm.GetMobs e.cfg.Combat = some m →
        m ∈ sm.GetMobs ∧ m.Alive = true ∧ m.Attackable = true := by
      intro hs
      obtain ⟨pre, post, h1, h2, _, _⟩ := SelectTarget_some_split M _ _ _ m hs
      exact ⟨by rw [h1]; simp, h2.1, h2.2.1⟩
    cases hc : e.currentTarget with
    | none =>
      rw [Tick_target_of_no_valid M env e sm h (by intro t ht; rw [hc] at ht; cases ht)] at hm
      exact hsel hm
    | some t =>
      cases hr : revalidate t.ID sm.GetMobs with
      | none =>
        rw [Tick_target_of_no_valid M env e sm h
          (by intro t2 ht; rw [hc] at ht; cases ht; exact hr)] at hm
        exact hsel hm
      | some m2 =>
        rw [Tick_target_of_valid M env e sm h t m2 hc hr] at hm
        simp only [Option.some.injEq] at hm
        subst hm
        obtain ⟨h1, _, h3, h4⟩ := revalidate_some t.ID sm.GetMobs m2 hr
        exact ⟨h1, h3, h4⟩

end CombatLemmas

/-! ## The combat controller: one tick -/

section CombatClaims

variable {F : Type} [LinearOrderedField F]

/-- C6: when the agent's health percentage is strictly below the retreat threshold,
`Tick` clears the held target and sends exactly one command, the move to the retreat
point, and no attack, whatever the entity list and the held target are; the target is
cleared whether or not the move fails, a failed move being returned as the error. -/
theorem Tick_retreats_below_threshold (M : MathFns F) (env : Collaborators F)
    (e : Engine F) (sm : StateManager F)
    (h : sm.GetHero.HPPercent < e.cfg.Combat.HPThreshold) :
    (Engine.Tick M env e sm).engine.currentTarget = none ∧
    (Engine.Tick M env e sm).commands =
      [Command.MoveTo (sm.GetHero.X + (RandomOffset M env.rand1 env.rand2 100).X)
        (sm.GetHero.Y + (RandomOffset M env.rand1 env.rand2 100).Y)] ∧
    (∀ mobID, Command.AttackMob mobID ∉ (Engine.Tick M env e sm).commands) ∧
    (Engine.Tick M env e sm).err =
      (if env.MoveToErr (sm.GetHero.X + (RandomOffset M env.rand1 env.rand2 100).X)
          (sm.GetHero.Y + (RandomOffset M env.rand1 env.rand2 100).Y)
        then some TickError.failedToRetreat else none) := by
  have hcmd : (Engine.Tick M env e sm).commands =
      [Command.MoveTo (sm.GetHero.X + (RandomOffset M env.rand1 env.rand2 100).X)
        (sm.GetHero.Y + (RandomOffset M env.rand1 env.rand2 100).Y)] := by
    simp only [Engine.Tick, if_pos h, Engine.retreat]
    split_ifs <;> rfl
  refine ⟨Tick_target_of_low M env e sm h, hcmd, ?_, ?_⟩
  · intro mobID hmem
    rw [hcmd] at hmem
    simp at hmem
  · simp only [Engine.Tick, if_pos h, Engine.retreat]
    split_ifs <;> rfl

/-- Witness of C6: an engine holding the orc, an agent at 10 percent health against a
threshold of 30, and a game client whose move command fails. -/
theorem Tick_retreats_below_threshold_witness :
    exStoreLow.GetHero.HPPercent < exEngine.cfg.Combat.HPThreshold ∧
    exEngine.currentTarget = some exOrc ∧
    (Engine.Tick exMath exEnvMoveFails exEngine exStoreLow).engine.currentTarget = none ∧
    (Engine.Tick exMath exEnvMoveFails exEngine exStoreLow).err =
      some TickError.failedToRetreat :=
  ⟨by decide, rfl,
    (Tick_retreats_below_threshold exMath exEnvMoveFails exEngine exStoreLow (by decide)).1,
    (Tick_retreats_below_threshold exMath exEnvMoveFails exEngine exStoreLow
      (by decide)).2.2.2⟩

/-- C7: in a tick with health not below the retreat threshold and a held target whose
identifier matches no alive and attackable entity of the entity list, the controller
clears that target (afterwards it holds no entity with that identifier), and with
retarget-on-loss enabled the target held afterwards is the one `SelectTarget` picks
from the same snapshot. -/
theorem Tick_clears_lost_target (M : MathFns F) (env : Collaborators F) (e : Engine F)
    (sm : StateManager F) (t : Mob F)
    (hhp : ¬ sm.GetHero.HPPercent < e.cfg.Combat.HPThreshold)
    (hheld : e.currentTarget = some t)
    (hlost : ∀ m ∈ sm.GetMobs, ¬ (m.ID = t.ID ∧ m.Alive = true ∧ m.Attackable = true)) :
    (∀ t2, (Engine.Tick M env e sm).engine.currentTarget = some t2 → t2.ID ≠ t.ID) ∧
    (e.cfg.Combat.RetargetOnDeath = true →
      (Engine.Tick M env e sm).engine.currentTarget =
        SelectTarget M sm.GetHero sm.GetMobs e.cfg.Combat) := by
  have hsel := Tick_target_of_no_valid M env e sm hhp
    (by
      intro t2 ht
      rw [hheld] at ht
      simp only [Option.some.injEq] at ht
      subst ht
      exact (revalidate_eq_none_iff t.ID sm.GetMobs).mpr hlost)
  refine ⟨?_, fun _ => hsel⟩
  intro t2 ht2 hid
  obtain ⟨h1, h2, h3⟩ := Tick_target_valid M env e sm t2 ht2
  exact hlost t2 h1 ⟨hid, h2, h3⟩

/-- Witness of C7: the engine holds the orc, the snapshot shows only the goblin; after
the tick the goblin, the choice of `SelectTarget`, is held. -/
theorem Tick_clears_lost_target_witness :
    (∀ t2, (Engine.Tick exMath exEnv exEngine exStore).engine.currentTarget = some t2 →
      t2.ID ≠ exOrc.ID) ∧
    (exEngine.cfg.Combat.RetargetOnDeath = true →
      (Engine.Tick exMath exEnv exEngine exStore).engine.currentTarget =
        SelectTarget exMath exStore.GetHero exStore.GetMobs exEngine.cfg.Combat) :=
  Tick_clears_lost_target exMath exEnv exEngine exStore exOrc (by decide) rfl (by decide)

/-- C8: invariant of the combat controller. After every tick, from any prior
controller state and for any store snapshot, the held target is none or an alive and
attackable entity of the entity list read during that tick; a held target that is not
found alive and attackable in that list is not held after the tick. -/
theorem Tick_target_invariant (M : MathFns F) (env : Collaborators F) (e : Engine F)
    (sm : StateManager F) :
    ((Engine.Tick M env e sm).engine.currentTarget = none ∨
      ∃ m ∈ sm.GetMobs, (Engine.Tick M env e sm).engine.currentTarget = some m ∧
        m.Alive = true ∧ m.Attackable = true) ∧
    (∀ t, e.currentTarget = some t →
      (∀ m ∈ sm.GetMobs, ¬ (m.ID = t.ID ∧ m.Alive = true ∧ m.Attackable = true)) →
      (Engine.Tick M env e sm).engine.currentTarget ≠ some t) := by
  constructor
  · cases hc : (Engine.Tick M env e sm).engine.currentTarget with
    | none => exact Or.inl rfl
    | some m =>
      obtain ⟨h1, h2, h3⟩ := Tick_target_valid M env e sm m hc
      exact Or.inr ⟨m, h1, rfl, h2, h3⟩
  · intro t _ hlost hafter
    obtain ⟨h1, h2, h3⟩ := Tick_target_valid M env e sm t hafter
    exact hlost t h1 ⟨rfl, h2, h3⟩

end CombatClaims

/-! ## The world state store: stuck detection -/

section StuckClaims

variable {F : Type} [LinearOrderedField F]

/-- C9: `IsStuck` returns true if and only if some sample earlier than the most recent
one, reached by scanning backward from the most recent sample while the samples
scanned remain within the time window of now, lies within the distance threshold of
the most recent sample, the comparison being made on squared distances (squared
distance below squared threshold); with fewer than two samples it returns false. -/
theorem IsStuck_iff_close_sample_in_window (sm : StateManager F) (now : Int)
    (threshold : F) (duration : Int) :
    (sm.IsStuck now threshold duration = true ↔
      ∃ recent, sm.positionHistory.getLast? = some recent ∧
        ∃ i, i + 1 < sm.positionHistory.length ∧
          (∀ j, i ≤ j → j + 1 < sm.positionHistory.length →
            ∃ p, sm.positionHistory[j]? = some p ∧ inWindow now duration p) ∧
          ∃ p, sm.positionHistory[i]? = some p ∧
            sqDist recent p < threshold * threshold) ∧
    (sm.positionHistory.length < 2 → sm.IsStuck now threshold duration = false) := by
  refine ⟨?_, IsStuck_of_short sm now threshold duration⟩
  by_cases hlen : sm.positionHistory.length < 2
  · rw [IsStuck_of_short sm now threshold duration hlen]
    simp only [Bool.false_eq_true, false_iff]
    rintro ⟨_, _, i, hi, _⟩
    omega
  · cases hr : sm.positionHistory.getLast? with
    | none =>
      rw [List.getLast?_eq_none_iff] at hr
      rw [hr] at hlen
      simp at hlen
    | some recent =>
      rw [IsStuck_eq_stuckLoop sm now threshold duration recent (by omega) hr,
        stuckLoop_eq_true_iff]
      constructor
      · rintro ⟨i, hi, hwin, hp⟩
        exact ⟨recent, rfl, i, by omega, fun j hj1 hj2 => hwin j hj1 (by omega), hp⟩
      · rintro ⟨r2, hr2, i, hi, hwin, hp⟩
        simp only [Option.some.injEq] at hr2
        subst hr2
        exact ⟨i, by omega, fun j hj1 hj2 => hwin j hj1 (by omega), hp⟩

/-- Counterexample to C10 as stated: a history of two samples at the same place, the
earlier one 40 seconds old. Every sample within the 30 second window (the latest one
only) lies within the threshold 10 of the latest sample, yet `IsStuck` returns
false. -/
theorem IsStuck_stale_history_counterexample :
    2 ≤ exStoreStale.positionHistory.length ∧
    (∀ recent, exStoreStale.positionHistory.getLast? = some recent →
      ∀ p ∈ exStoreStale.positionHistory,
        inWindow 40000000000 30000000000 p → sqDist recent p < 10 * 10) ∧
    exStoreStale.IsStuck 40000000000 10 30000000000 = false := by
  refine ⟨by decide, ?_, by decide!⟩
  intro recent hrecent
  simp only [exStoreStale, List.getLast?_cons_cons, List.getLast?_singleton,
    Option.some.injEq] at hrecent
  subst hrecent
  decide!

/-- C10, amended: for every position history with at least two samples, if the sample
just before the latest one is within the time window of now and all retained samples
whose timestamp is within the time window of now lie within the threshold distance of
the latest sample (squared distance below squared threshold), then `IsStuck` returns
true, for every threshold and window. -/
theorem IsStuck_of_all_in_window_close (sm : StateManager F) (now : Int) (threshold : F)
    (duration : Int) (recent prev : PositionRecord F)
    (hlen : 2 ≤ sm.positionHistory.length)
    (hrecent : sm.positionHistory.getLast? = some recent)
    (hprev : sm.positionHistory[sm.positionHistory.length - 2]? = some prev)
    (hprevwin : inWindow now duration prev)
    (hall : ∀ p ∈ sm.positionHistory, inWindow now duration p →
      sqDist recent p < threshold * threshold) :
    sm.IsStuck now threshold duration = true := by
  rw [IsStuck_eq_stuckLoop sm now threshold duration recent hlen hrecent,
    stuckLoop_eq_true_iff]
  refine ⟨sm.positionHistory.length - 2, by omega, ?_, prev, hprev, ?_⟩
  · intro j hj1 hj2
    have : j = sm.positionHistory.length - 2 := by omega
    subst this
    exact ⟨prev, hprev, hprevwin⟩
  · exact hall prev (List.getElem?_mem hprev) hprevwin

/-- Witness of C10 amended: three samples one second apart within 2 units of each
other, threshold 10 and window 30 seconds. -/
theorem IsStuck_of_all_in_window_close_witness :
    exStoreStill.IsStuck 40000000000 10 30000000000 = true :=
  IsStuck_of_all_in_window_close exStoreStill 40000000000 10 30000000000
    { X := 0, Y := 0, Timestamp := 40000000000 }
    { X := 0, Y := 1, Timestamp := 39000000000 }
    (by decide) (by decide!) (by decide!) (by decide!) (by decide!)

end StuckClaims

/-! ## Health and resource percentages -/

section PercentClaims

theorem wrap64_of_in_range (z : Int) (h1 : -2 ^ 63 ≤ z) (h2 : z < 2 ^ 63) : wrap64 z = z := by
  unfold wrap64
  omega

theorem tdiv_in_range (x y : Int) (h1 : -2 ^ 63 < x) (h2 : x < 2 ^ 63) :
    -2 ^ 63 ≤ Int.tdiv x y ∧ Int.tdiv x y < 2 ^ 63 := by
  have h : (Int.tdiv x y).natAbs ≤ x.natAbs := by
    rw [Int.natAbs_tdiv]
    exact Nat.div_le_self _ _
  omega

/-- The percentage computed from a current value whose hundredfold fits in 64 bits. -/
theorem percent_of_in_range (cur max : Int) (h1 : -2 ^ 63 ≤ cur * 100)
    (h2 : cur * 100 < 2 ^ 63) :
    wrap64 (Int.tdiv (wrap64 (cur * 100)) max) = Int.tdiv (cur * 100) max := by
  rw [wrap64_of_in_range (cur * 100) h1 h2]
  have hne : -2 ^ 63 < cur * 100 := by omega
  obtain ⟨h3, h4⟩ := tdiv_in_range (cur * 100) max hne h2
  exact wrap64_of_in_range _ h3 h4

/-- Counterexample to C11 as stated: with health and maximum health both 10 to the
power 17 the product `hp * 100` exceeds the 64-bit range and wraps around, and
`HPPercent` returns -84 although the quotient `(hp * 100) / hpMax` is 100. -/
theorem HPPercent_overflow_counterexample :
    exHeroHuge.HPMax ≠ 0 ∧ exHeroHuge.HPPercent = -84 ∧
      Int.tdiv (exHeroHuge.HP * 100) exHeroHuge.HPMax = 100 := by
  decide

/-- C11, amended: for every agent status whose `hp * 100` and `mp * 100` fit in a signed
64-bit integer, `HPPercent` returns 0 when max health is 0 and otherwise the integer
quotient `(hp * 100) / hpMax` truncated toward zero, and no division by zero occurs (for
every status); `MPPercent` obeys the same rule on the resource pair. -/
theorem HPPercent_eq_truncated_quotient {F : Type} (h : HeroState F)
    (hHP : -2 ^ 63 ≤ h.HP * 100 ∧ h.HP * 100 < 2 ^ 63)
    (hMP : -2 ^ 63 ≤ h.MP * 100 ∧ h.MP * 100 < 2 ^ 63) :
    (h.HPMax = 0 → h.HPPercent = 0) ∧
    (h.HPMax ≠ 0 → h.HPPercent = Int.tdiv (h.HP * 100) h.HPMax) ∧
    (h.MPMax = 0 → h.MPPercent = 0) ∧
    (h.MPMax ≠ 0 → h.MPPercent = Int.tdiv (h.MP * 100) h.MPMax) ∧
    (∀ g : HeroState F, g.HPPercentChecked = some g.HPPercent ∧
      g.MPPercentChecked = some g.MPPercent) := by
  refine ⟨?_, ?_, ?_, ?_, ?_⟩
  · intro h0
    simp only [HeroState.HPPercent, if_pos h0]
  · intro h0
    simp only [HeroState.HPPercent, if_neg h0]
    exact percent_of_in_range h.HP h.HPMax hHP.1 hHP.2
  · intro h0
    simp only [HeroState.MPPercent, if_pos h0]
  · intro h0
    simp only [HeroState.MPPercent, if_neg h0]
    exact percent_of_in_range h.MP h.MPMax hMP.1 hMP.2
  · intro g
    constructor
    · by_cases h0 : g.HPMax = 0
      · simp only [HeroState.HPPercentChecked, HeroState.HPPercent, if_pos h0]
      · simp only [HeroState.HPPercentChecked, HeroState.HPPercent, goDiv, if_neg h0]
    · by_cases h0 : g.MPMax = 0
      · simp only [HeroState.MPPercentChecked, HeroState.MPPercent, if_pos h0]
      · simp only [HeroState.MPPercentChecked, HeroState.MPPercent, goDiv, if_neg h0]

/-- Witness of C11 amended: the agent with 10 of 100 health and 50 of 50 resource
points. -/
theorem HPPercent_eq_truncated_quotient_witness :
    exHeroLow.HPPercent = 10 ∧ exHeroLow.MPPercent = 100 :=
  ⟨((HPPercent_eq_truncated_quotient exHeroLow (by decide) (by decide)).2.1
      (by decide)).trans (by decide),
    ((HPPercent_eq_truncated_quotient exHeroLow (by decide) (by decide)).2.2.2.1
      (by decide)).trans (by decide)⟩

end PercentClaims

/-! ## Backoff -/

section BackoffClaims

variable {F : Type} [LinearOrderedField F] [FloorRing F]

/-- Converting an integer-valued number back to an integer gives the integer. -/
theorem truncToInt_intCast (z : Int) : truncToInt ((z : Int) : F) = z := by
  unfold truncToInt
  split_ifs
  · exact Int.floor_intCast z
  · exact Int.ceil_intCast z

/-- The loop of `Backoff` with a whole-number factor at least 1, started from a positive
duration that does not exceed the ceiling. -/
theorem backoffLoop_natCast (k : Nat) (hk : 1 ≤ k) (max : Int) :
    ∀ (n : Nat) (d : Int), 0 < d → d ≤ max →
      backoffLoop (k : F) max n d = min (d * (k : Int) ^ n) max := by
  intro n
  induction n with
  | zero =>
    intro d _ hdm
    simp only [backoffLoop, pow_zero, mul_one]
    exact (min_eq_left hdm).symm
  | succ n ih =>
    intro d hd hdm
    have hcast : ((d : Int) : F) * (k : F) = (((d * (k : Int) : Int)) : F) := by
      push_cast
      ring
    have hk1 : (1 : Int) ≤ (k : Int) := by exact_mod_cast hk
    have hpow : (1 : Int) ≤ (k : Int) ^ n := one_le_pow₀ hk1
    have hdk : 0 < d * (k : Int) := by positivity
    simp only [backoffLoop, hcast, truncToInt_intCast]
    by_cases hgt : d * (k : Int) > max
    · rw [if_pos hgt]
      have hle : d * (k : Int) ≤ d * (k : Int) ^ (n + 1) := by
        have e : d * (k : Int) ^ (n + 1) = d * (k : Int) * (k : Int) ^ n := by ring
        rw [e]
        calc d * (k : Int) = d * (k : Int) * 1 := by ring
          _ ≤ d * (k : Int) * (k : Int) ^ n :=
            mul_le_mul_of_nonneg_left hpow (le_of_lt hdk)
      exact (min_eq_right (le_of_lt (lt_of_lt_of_le hgt hle))).symm
    · rw [if_neg hgt, ih (d * (k : Int)) hdk (not_lt.mp hgt)]
      congr 1
      ring

/-- After at least one iteration the loop of `Backoff` returns a value that does not
exceed the ceiling. -/
theorem backoffLoop_le_max (factor : F) (max : Int) :
    ∀ (n : Nat) (d : Int), backoffLoop factor max (n + 1) d ≤ max := by
  intro n
  induction n with
  | zero =>
    intro d
    simp only [backoffLoop]
    split_ifs with h
    · exact le_refl _
    · exact not_lt.mp h
  | succ n ih =>
    intro d
    rw [backoffLoop]
    split_ifs with h
    · exact le_refl _
    · exact ih _

/-- What holds of the ceiling: `Backoff` does not exceed `max` when at least one
multiplication is made or when the base does not exceed `max`. -/
theorem Backoff_le_max_of (base : Int) (factor : F) (max : Int) (attempt : Int)
    (h : 1 ≤ attempt ∨ base ≤ max) : Backoff base factor max attempt ≤ max := by
  unfold Backoff
  cases hn : attempt.toNat with
  | zero =>
    rcases h with h | h
    · omega
    · simpa [backoffLoop] using h
  | succ n => exact backoffLoop_le_max factor max n base

/-- C12: for every base with `0 < base ≤ max`, every whole-number factor at least 1 and
every attempt at least 0, `Backoff(base, factor, max, attempt)` equals
`min(base * factor ^ attempt, max)` in exact arithmetic; with base 5, factor 2 and
max 60 it gives 5 at attempt 0, 40 at attempt 3 and 60 at attempt 10. -/
theorem Backoff_eq_min_of_whole_factor :
    (∀ (base max : Int) (k : Nat) (attempt : Int), 0 < base → base ≤ max → 1 ≤ k →
      0 ≤ attempt →
      Backoff base (k : F) max attempt = min (base * (k : Int) ^ attempt.toNat) max) ∧
    Backoff 5 (2 : F) 60 0 = 5 ∧ Backoff 5 (2 : F) 60 3 = 40 ∧
    Backoff 5 (2 : F) 60 10 = 60 := by
  have hgen : ∀ (base max : Int) (k : Nat) (attempt : Int), 0 < base → base ≤ max →
      1 ≤ k → 0 ≤ attempt →
      Backoff base (k : F) max attempt = min (base * (k : Int) ^ attempt.toNat) max := by
    intro base max k attempt hb hbm hk _
    exact backoffLoop_natCast k hk max attempt.toNat base hb hbm
  have h2 : (2 : F) = ((2 : Nat) : F) := by norm_num
  refine ⟨hgen, ?_, ?_, ?_⟩
  · rw [h2, hgen 5 60 2 0 (by decide) (by decide) (by decide) (by decide)]
    decide
  · rw [h2, hgen 5 60 2 3 (by decide) (by decide) (by decide) (by decide)]
    decide
  · rw [h2, hgen 5 60 2 10 (by decide) (by decide) (by decide) (by decide)]
    decide

/-- Witness of C12: the delays of the reconnection loop, 5 s doubled twice under a
ceiling of 60 s, in nanoseconds. -/
theorem Backoff_eq_min_of_whole_factor_witness :
    Backoff (5 * Second) (((2 : Nat) : ℚ)) (60 * Second) 2 = 20 * Second :=
  ((Backoff_eq_min_of_whole_factor (F := ℚ)).1 (5 * Second) (60 * Second) 2 2
    (by decide) (by decide) (by decide) (by decide)).trans (by decide)

/-- C13 at the failing input: with base 100 s above the ceiling 60 s and attempt 0 the
loop does not run and `Backoff` returns the base, which exceeds the ceiling. -/
theorem Backoff_exceeds_max_at_attempt_zero :
    Backoff (100 * Second) (2 : ℚ) (60 * Second) 0 = 100 * Second ∧
      ¬ (Backoff (100 * Second) (2 : ℚ) (60 * Second) 0 ≤ 60 * Second) := by
  decide!

end BackoffClaims

/-! ## The world state store: position history -/

section HistoryClaims

variable {F : Type}

/-- Appending a sample and dropping the oldest one when more than ten are held, then
keeping the last ten of what follows, keeps the last ten of the whole. -/
theorem keep_last_ten {α : Type} (h0 h1 : List α) (r : α) (rest : List α)
    (hlen : h0.length ≤ 10)
    (h1def : h1 = if (h0 ++ [r]).length > 10 then (h0 ++ [r]).drop 1 else h0 ++ [r]) :
    h1.length ≤ 10 ∧
    (h1 ++ rest).drop (h1.length + rest.length - 10) =
      (h0 ++ r :: rest).drop (h0.length + (r :: rest).length - 10) := by
  by_cases hfull : (h0 ++ [r]).length > 10
  · rw [if_pos hfull] at h1def
    have h10 : h0.length = 10 := by
      simp only [List.length_append, List.length_singleton] at hfull
      omega
    cases h0 with
    | nil => simp at h10
    | cons a t =>
      simp only [List.length_cons] at h10
      have h1eq : h1 = t ++ [r] := by rw [h1def]; rfl
      subst h1eq
      have e1 : (t ++ [r]).length + rest.length - 10 = rest.length := by
        simp only [List.length_append, List.length_singleton]
        omega
      have e2 : (a :: t).length + (r :: rest).length - 10 = rest.length + 1 := by
        simp only [List.length_cons]
        omega
      refine ⟨?_, ?_⟩
      · simp only [List.length_append, List.length_singleton]
        omega
      · rw [e1, e2]
        simp
  · rw [if_neg hfull] at h1def
    subst h1def
    refine ⟨not_lt.mp hfull, ?_⟩
    have e1 : (h0 ++ [r]).length + rest.length - 10 = h0.length + (r :: rest).length - 10 := by
      simp only [List.length_append, List.length_cons, List.length_nil]
      omega
    rw [e1]
    simp

theorem apply_UpdateHero_positionHistory (sm : StateManager F) (hero : HeroState F)
    (tUpdate tRecord : Int) :
    (StoreOp.apply sm (StoreOp.UpdateHero hero tUpdate tRecord)).positionHistory =
      if (sm.positionHistory ++
          [({ X := hero.X, Y := hero.Y, Timestamp := tRecord } : PositionRecord F)]).length
          > 10 then
        (sm.positionHistory ++
          [({ X := hero.X, Y := hero.Y, Timestamp := tRecord } : PositionRecord F)]).drop 1
      else
        sm.positionHistory ++
          [({ X := hero.X, Y := hero.Y, Timestamp := tRecord } : PositionRecord F)] := rfl

/-- A write operation other than `UpdateHero` leaves the position history as it is. -/
theorem apply_positionHistory_of_not_UpdateHero (sm : StateManager F) (op : StoreOp F)
    (h : ∀ hero tUpdate tRecord, op ≠ StoreOp.UpdateHero hero tUpdate tRecord) :
    (StoreOp.apply sm op).positionHistory = sm.positionHistory := by
  cases op with
  | UpdateHero hero tUpdate tRecord => exact absurd rfl (h hero tUpdate tRecord)
  | UpdateMobs mobs => rfl
  | SetPhase phase => rfl
  | IncrementAction => rfl
  | UpdateConnection connected now => rfl

/-- The position history after a sequence of write operations on a store whose history
holds at most ten samples: the last ten of the old samples followed by the recorded
ones. -/
theorem foldl_apply_positionHistory :
    ∀ (ops : List (StoreOp F)) (sm : StateManager F), sm.positionHistory.length ≤ 10 →
      (ops.foldl StoreOp.apply sm).positionHistory =
        (sm.positionHistory ++ recordedPositions ops).drop
          (sm.positionHistory.length + (recordedPositions ops).length - 10) := by
  intro ops
  induction ops with
  | nil =>
    intro sm hlen
    simp only [List.foldl_nil, recordedPositions, List.append_nil, List.length_nil,
      Nat.add_zero]
    have : sm.positionHistory.length - 10 = 0 := by omega
    rw [this, List.drop_zero]
  | cons op rest ih =>
    intro sm hlen
    rw [List.foldl_cons]
    cases op with
    | UpdateHero hero tUpdate tRecord =>
      obtain ⟨hlen1, hdrop⟩ := keep_last_ten sm.positionHistory
        (StoreOp.apply sm (StoreOp.UpdateHero hero tUpdate tRecord)).positionHistory
        ({ X := hero.X, Y := hero.Y, Timestamp := tRecord } : PositionRecord F)
        (recordedPositions rest) hlen (apply_UpdateHero_positionHistory sm hero tUpdate tRecord)
      rw [ih _ hlen1, hdrop]
      rfl
    | UpdateMobs mobs => exact ih _ hlen
    | SetPhase phase => exact ih _ hlen
    | IncrementAction => exact ih _ hlen
    | UpdateConnection connected now => exact ih _ hlen

/-- C14: invariant of the world state store. After any sequence of write operations on a
new store, `n` of them being `UpdateHero` calls, the position history holds exactly the
positions of the last `min(n, 10)` updates, oldest first and ending with the position
of the latest update; its length never exceeds 10, and no store operation other than
`UpdateHero` changes it. -/
theorem positionHistory_holds_last_ten [Zero F] (ops : List (StoreOp F)) :
    (ops.foldl StoreOp.apply NewStateManager).positionHistory =
      (recordedPositions ops).drop ((recordedPositions ops).length - 10) ∧
    (ops.foldl StoreOp.apply NewStateManager).positionHistory.length =
      min (recordedPositions ops).length 10 ∧
    (ops.foldl StoreOp.apply NewStateManager).positionHistory.length ≤ 10 ∧
    (ops.foldl StoreOp.apply NewStateManager).positionHistory.getLast? =
      (recordedPositions ops).getLast? ∧
    (∀ (sm : StateManager F) (op : StoreOp F),
      (∀ hero tUpdate tRecord, op ≠ StoreOp.UpdateHero hero tUpdate tRecord) →
      (StoreOp.apply sm op).positionHistory = sm.positionHistory) := by
  have hnew : (NewStateManager : StateManager F).positionHistory = [] := rfl
  have h := foldl_apply_positionHistory ops (NewStateManager : StateManager F)
    (by rw [hnew]; simp)
  rw [hnew] at h
  simp only [List.nil_append, List.length_nil, Nat.zero_add] at h
  refine ⟨h, ?_, ?_, ?_, apply_positionHistory_of_not_UpdateHero⟩
  · rw [h, List.length_drop]
    omega
  · rw [h, List.length_drop]
    omega
  · rw [h, List.getLast?_drop]
    split_ifs with hle
    · have : (recordedPositions ops).length = 0 := by omega
      rw [List.length_eq_zero] at this
      rw [this]
      rfl
    · rfl

end HistoryClaims

/-! ## The world state store: reads -/

section ReadClaims

/-- The slice returned by `GetMobs` holds the pointers of the store, in order. -/
theorem GetMobsPointers_eq (mobs : List (Option Nat)) : GetMobsPointers mobs = mobs := by
  simp [GetMobsPointers, copySlice]

/-- C15 at the failing input: the store holds one pointer, to the orc. A caller takes the
list returned by `GetMobs` and sets the health of its first entity to 0 through the
pointer found there; a later `GetMobs` then shows the orc with health 0 instead of 10,
because the returned slice is new but its pointers are those of the store. -/
theorem GetMobs_shares_mob_objects :
    (GetMobsPointers exMobPointers).map exHeap.load = [some exOrc] ∧
    (GetMobsPointers exMobPointers).head? = some (some 0) ∧
    (GetMobsPointers exMobPointers).map
        (exHeap.store (some 0) { exOrc with HP := 0 }).load =
      [some { exOrc with HP := 0 }] ∧
    (GetMobsPointers exMobPointers).map
        (exHeap.store (some 0) { exOrc with HP := 0 }).load ≠
      (GetMobsPointers exMobPointers).map exHeap.load := by
  decide

end ReadClaims

/-! ## The navigator -/

/-- When no move fails the move loop of `PatrolArea` sends every point of the path. -/
theorem patrolLoop_of_no_failure {F : Type} (env : NavCollaborators F)
    (hok : ∀ k x y, env.MoveToErr k x y = false) :
    ∀ (path : List (Point F)) (k : Nat),
      (patrolLoop env k path).commands = path.map (fun p => Command.MoveTo p.X p.Y) ∧
        (patrolLoop env k path).err = none := by
  intro path
  induction path with
  | nil => intro k; exact ⟨rfl, rfl⟩
  | cons p rest ih =>
    intro k
    obtain ⟨h1, h2⟩ := ih (k + 1)
    simp only [patrolLoop, hok, Bool.false_eq_true, if_false, List.map_cons, h1, h2,
      and_self]

section NavigationClaims

variable {F : Type} [LinearOrderedField F] [FloorRing F]

/-- The number of points of a path between points at least one step apart. -/
theorem GeneratePath_length (M : MathFns F) (rand : Nat → F) (fromPt toPt : Point F)
    (stepSize : F) (h : ¬ Distance M fromPt toPt < stepSize) :
    (GeneratePath M rand fromPt toPt stepSize).length =
      (Int.ceil (Distance M fromPt toPt / stepSize)).toNat := by
  simp only [GeneratePath, if_neg h, List.length_map, List.length_range]

/-- Counterexample to C16 as stated: the agent is 200 units from the chosen point and
the first move command fails. The path has 4 points, but `PatrolArea` returns the error
after the first move, so one move command is sent, not 4. -/
theorem PatrolArea_failed_move_counterexample :
    Distance exMath ({ X := exStore.GetHero.X, Y := exStore.GetHero.Y } : Point ℚ)
        (patrolTarget exMath exNavEnvMoveFails exConfig) = 200 ∧
    Int.ceil ((200 : ℚ) / 50) = 4 ∧
    (PatrolArea exMath exNavEnvMoveFails exConfig exStore).commands.length = 1 ∧
    (PatrolArea exMath exNavEnvMoveFails exConfig exStore).err =
      some NavError.failedToPatrol := by
  decide!

/-- C16, amended: for every `PatrolArea` call in which the distance from the agent's
current position to the chosen patrol point exceeds 150 units and no move command
fails, the movement is issued as a multi-point path of `ceil(distance / 50) ≥ 4`
successive move commands, the points of `GeneratePath` with step 50, rather than a
single move; when the distance is at most 150, exactly one move command, to the chosen
point itself, is issued. -/
theorem PatrolArea_commands (M : MathFns F) (env : NavCollaborators F) (cfg : Config F)
    (sm : StateManager F) :
    (Distance M ({ X := sm.GetHero.X, Y := sm.GetHero.Y } : Point F)
        (patrolTarget M env cfg) > 150 →
      (∀ k x y, env.MoveToErr k x y = false) →
      (PatrolArea M env cfg sm).commands =
        (GeneratePath M (fun n => env.rand (n + 2))
          ({ X := sm.GetHero.X, Y := sm.GetHero.Y } : Point F)
          (patrolTarget M env cfg) 50).map (fun p => Command.MoveTo p.X p.Y) ∧
      (((PatrolArea M env cfg sm).commands.length : Nat) : Int) =
        Int.ceil (Distance M ({ X := sm.GetHero.X, Y := sm.GetHero.Y } : Point F)
          (patrolTarget M env cfg) / 50) ∧
      4 ≤ Int.ceil (Distance M ({ X := sm.GetHero.X, Y := sm.GetHero.Y } : Point F)
          (patrolTarget M env cfg) / 50) ∧
      (PatrolArea M env cfg sm).err = none) ∧
    (Distance M ({ X := sm.GetHero.X, Y := sm.GetHero.Y } : Point F)
        (patrolTarget M env cfg) ≤ 150 →
      (PatrolArea M env cfg sm).commands =
        [Command.MoveTo (patrolTarget M env cfg).X (patrolTarget M env cfg).Y]) := by
  constructor
  · intro hfar hok
    have hceil : 4 ≤ Int.ceil (Distance M ({ X := sm.GetHero.X, Y := sm.GetHero.Y } : Point F)
        (patrolTarget M env cfg) / 50) := by
      have h3 : (3 : Int) < Int.ceil (Distance M
          ({ X := sm.GetHero.X, Y := sm.GetHero.Y } : Point F)
          (patrolTarget M env cfg) / 50) := by
        rw [Int.lt_ceil]
        have h50 : (0 : F) < 50 := by norm_num
        rw [lt_div_iff₀ h50]
        push_cast
        linarith
      omega
    have hnot : ¬ Distance M ({ X := sm.GetHero.X, Y := sm.GetHero.Y } : Point F)
        (patrolTarget M env cfg) < 50 := by
      intro hlt
      linarith
    obtain ⟨h1, h2⟩ := patrolLoop_of_no_failure env hok
      (GeneratePath M (fun n => env.rand (n + 2))
        ({ X := sm.GetHero.X, Y := sm.GetHero.Y } : Point F) (patrolTarget M env cfg) 50) 0
    have hcmd : (PatrolArea M env cfg sm).commands =
        (GeneratePath M (fun n => env.rand (n + 2))
          ({ X := sm.GetHero.X, Y := sm.GetHero.Y } : Point F)
          (patrolTarget M env cfg) 50).map (fun p => Command.MoveTo p.X p.Y) := by
      simp only [PatrolArea, if_pos hfar]
      exact h1
    refine ⟨hcmd, ?_, hceil, ?_⟩
    · rw [hcmd, List.length_map, GeneratePath_length M _ _ _ 50 hnot]
      exact Int.toNat_of_nonneg (by omega)
    · simp only [PatrolArea, if_pos hfar]
      exact h2
  · intro hnear
    have hnot : ¬ Distance M ({ X := sm.GetHero.X, Y := sm.GetHero.Y } : Point F)
        (patrolTarget M env cfg) > 150 := not_lt.mpr hnear
    simp only [PatrolArea, if_neg hnot]
    split_ifs <;> rfl

/-- Witness of C16 amended: the agent 200 units from the chosen point and a game client
whose moves succeed; four move commands are sent. -/
theorem PatrolArea_commands_witness :
    (((PatrolArea exMath exNavEnv exConfig exStore).commands.length : Nat) : Int) =
      Int.ceil (Distance exMath ({ X := exStore.GetHero.X, Y := exStore.GetHero.Y } : Point ℚ)
        (patrolTarget exMath exNavEnv exConfig) / 50) :=
  ((PatrolArea_commands exMath exNavEnv exConfig exStore).1 (by decide!)
    (by intro k x y; rfl)).2.1

end NavigationClaims

section HuntingGroundClaims

variable {F : Type} [LinearOrderedField F]

/-- C17: when the agent's map identifier equals the hunting ground's map and its
distance to the hunting-ground centre is at most the radius, `GoToHuntingGround`
returns success at once without sending any move command, whatever the waypoint list
holds; repeating the call gives the same. -/
theorem GoToHuntingGround_noop_inside (M : MathFns F) (env : NavCollaborators F)
    (cfg : Config F) (sm : StateManager F)
    (hmap : sm.GetHero.MapID = cfg.Profile.HuntingGround.MapID)
    (hdist : Distance M ({ X := sm.GetHero.X, Y := sm.GetHero.Y } : Point F)
        ({ X := cfg.Profile.HuntingGround.CenterX,
           Y := cfg.Profile.HuntingGround.CenterY } : Point F)
      ≤ cfg.Profile.HuntingGround.Radius) :
    (GoToHuntingGround M env cfg sm).commands = [] ∧
      (GoToHuntingGround M env cfg sm).err = none := by
  have h : sm.GetHero.MapID = cfg.Profile.HuntingGround.MapID ∧
      Distance M ({ X := sm.GetHero.X, Y := sm.GetHero.Y } : Point F)
        ({ X := cfg.Profile.HuntingGround.CenterX,
           Y := cfg.Profile.HuntingGround.CenterY } : Point F)
      ≤ cfg.Profile.HuntingGround.Radius := ⟨hmap, hdist⟩
  simp only [GoToHuntingGround, if_pos h, and_self]

/-- Witness of C17: an agent 50 units from the centre of a hunting ground of radius 100
on the same map, with two waypoints configured. -/
theorem GoToHuntingGround_noop_inside_witness :
    exConfig.Profile.Waypoints.length = 2 ∧
    (GoToHuntingGround exMath exNavEnv exConfig exStoreInside).commands = [] ∧
      (GoToHuntingGround exMath exNavEnv exConfig exStoreInside).err = none :=
  ⟨by decide,
    GoToHuntingGround_noop_inside exMath exNavEnv exConfig exStoreInside (by decide)
      (by decide!)⟩

end HuntingGroundClaims

/-! ## The decision loop: leaving and re-entering HUNT -/

section DeathBranchLemmas

variable {F : Type} [LinearOrderedField F]

/-- The death branch ends in the HUNT phase with the combat engine reset. -/
theorem deathBranch_resets (M : MathFns F) (env : LoopCollaborators F) (s : LoopState F) :
    (deathBranch M env s).stateMgr.GetPhase = BotPhase.PhaseHunt ∧
      (deathBranch M env s).combatEngine.currentTarget = none := by
  simp only [deathBranch]
  split_ifs <;> exact ⟨rfl, rfl⟩

end DeathBranchLemmas

section LoopClaims

variable {F : Type} [LinearOrderedField F] [FloorRing F]

/-- C18 on the disconnection path: in a loop iteration whose agent is alive, whose
connection check fails and whose reconnection succeeds, the phase is set back to HUNT
and the combat engine is left as it was, so a held target is still held: the
disconnection branch does not call `Reset`, the death branch does. -/
theorem loopRecovery_reconnect_keeps_target (M : MathFns F) (env : LoopCollaborators F)
    (s : LoopState F)
    (halive : s.stateMgr.GetHero.Dead = false)
    (hconn : env.IsConnected ≠ some true)
    (hok : (handleDisconnect env s.combatEngine.cfg).2 = false) :
    ∃ s2, loopRecovery M env s = RecoveryOutcome.handled s2 ∧
      s2.stateMgr.GetPhase = BotPhase.PhaseHunt ∧
      s2.combatEngine.currentTarget = s.combatEngine.currentTarget := by
  refine ⟨{ s with stateMgr :=
    (s.stateMgr.SetPhase BotPhase.PhaseDisconnected).SetPhase BotPhase.PhaseHunt }, ?_,
    rfl, rfl⟩
  simp only [loopRecovery, halive, Bool.false_eq_true, if_false]
  cases hc : env.IsConnected with
  | none => simp only [disconnectBranch, hok, Bool.false_eq_true, if_false]
  | some b =>
    cases b with
    | true => exact absurd hc hconn
    | false => simp only [disconnectBranch, hok, Bool.false_eq_true, if_false]

/-- Witness of C18 on the disconnection path: the engine holds the orc, the connection
check reports a lost connection and the first reconnection attempt succeeds; the phase
is HUNT again and the orc is still held. -/
theorem loopRecovery_reconnect_keeps_target_witness :
    ∃ s2, loopRecovery exMath exLoopEnv exLoopState = RecoveryOutcome.handled s2 ∧
      s2.stateMgr.GetPhase = BotPhase.PhaseHunt ∧
      s2.combatEngine.currentTarget = some exOrc :=
  loopRecovery_reconnect_keeps_target exMath exLoopEnv exLoopState (by decide)
    (by decide) (by decide!)

end LoopClaims

/-! ## Random offsets -/

section OffsetClaims

variable {F : Type} [LinearOrderedField F]

end OffsetClaims

/-! ## The combat controller: engagement -/

section EngageClaims

variable {F : Type} [LinearOrderedField F]

/-- A tick that does not retreat either ends idle, without target and command, or
engages the target it holds afterwards. -/
theorem Tick_idle_or_engage (M : MathFns F) (env : Collaborators F) (e : Engine F)
    (sm : StateManager F) (h : ¬ sm.GetHero.HPPercent < e.cfg.Combat.HPThreshold) :
    ((Engine.Tick M env e sm).engine.currentTarget = none ∧
      (Engine.Tick M env e sm).commands = [] ∧ (Engine.Tick M env e sm).err = none) ∨
    ∃ t, (Engine.Tick M env e sm).engine.currentTarget = some t ∧
      (Engine.Tick M env e sm).commands = (Engine.engage M env e sm.GetHero t).1 ∧
      (Engine.Tick M env e sm).err = (Engine.engage M env e sm.GetHero t).2 := by
  simp only [Engine.Tick, if_neg h]
  split
  · exact Or.inl ⟨rfl, rfl, rfl⟩
  · rename_i t _
    exact Or.inr ⟨t, rfl, rfl, rfl⟩

/-- A tick that holds a target afterwards without having retreated has engaged it. -/
theorem Tick_engages_held (M : MathFns F) (env : Collaborators F) (e : Engine F)
    (sm : StateManager F) (t : Mob F)
    (h : ¬ sm.GetHero.HPPercent < e.cfg.Combat.HPThreshold)
    (hheld : (Engine.Tick M env e sm).engine.currentTarget = some t) :
    (Engine.Tick M env e sm).commands = (Engine.engage M env e sm.GetHero t).1 ∧
      (Engine.Tick M env e sm).err = (Engine.engage M env e sm.GetHero t).2 := by
  rcases Tick_idle_or_engage M env e sm h with ⟨h1, _, _⟩ | ⟨t2, h1, h2, h3⟩
  · rw [h1] at hheld
    cases hheld
  · rw [h1] at hheld
    simp only [Option.some.injEq] at hheld
    subst hheld
    exact ⟨h2, h3⟩

/-- A jittered coordinate differs from the original by at most the size of the
offset. -/
theorem jitter_bound (u maxOffset : F) (h0 : 0 ≤ u) (h1 : u < 1) :
    |(u * 2 - 1) * maxOffset| ≤ |maxOffset| := by
  rw [abs_mul]
  have hu : |u * 2 - 1| ≤ 1 := by
    rw [abs_le]
    constructor <;> linarith
  calc |u * 2 - 1| * |maxOffset| ≤ 1 * |maxOffset| :=
        mul_le_mul_of_nonneg_right hu (abs_nonneg _)
    _ = |maxOffset| := one_mul _

/-- In exact arithmetic (no rounding): for every tick that reaches engagement with held
target `t` (random draws in `[0, 1)`): if the agent's distance to `t` is greater than 50
the commands issued are exactly one move, to a point whose coordinates each differ from
the position of `t` by at most the absolute value of the configured path jitter,
followed by one attack on the identifier of `t`; if the distance is at most 50 the only
command is the attack on the identifier of `t`; a failing move makes `Tick` return an
error without issuing the attack, a failing attack makes `Tick` return an error, and no
command is issued twice in the tick. -/
theorem Tick_engage_commands_exact (M : MathFns F) (env : Collaborators F) (e : Engine F)
    (sm : StateManager F) (t : Mob F)
    (hhp : ¬ sm.GetHero.HPPercent < e.cfg.Combat.HPThreshold)
    (hheld : (Engine.Tick M env e sm).engine.currentTarget = some t)
    (hr1 : 0 ≤ env.rand1 ∧ env.rand1 < 1) (hr2 : 0 ≤ env.rand2 ∧ env.rand2 < 1) :
    (distance M sm.GetHero.X sm.GetHero.Y t.X t.Y > 50 →
      ∃ p : Point F,
        p = AddJitter env.rand1 env.rand2 { X := t.X, Y := t.Y } e.cfg.Behavior.PathJitter ∧
        |p.X - t.X| ≤ |e.cfg.Behavior.PathJitter| ∧
        |p.Y - t.Y| ≤ |e.cfg.Behavior.PathJitter| ∧
        (env.MoveToErr p.X p.Y = true →
          (Engine.Tick M env e sm).commands = [Command.MoveTo p.X p.Y] ∧
          (Engine.Tick M env e sm).err = some TickError.failedToMoveToTarget) ∧
        (env.MoveToErr p.X p.Y = false →
          (Engine.Tick M env e sm).commands =
            [Command.MoveTo p.X p.Y, Command.AttackMob t.ID] ∧
          (Engine.Tick M env e sm).err =
            (if env.AttackMobErr t.ID then some TickError.failedToAttack else none))) ∧
    (distance M sm.GetHero.X sm.GetHero.Y t.X t.Y ≤ 50 →
      (Engine.Tick M env e sm).commands = [Command.AttackMob t.ID] ∧
      (Engine.Tick M env e sm).err =
        (if env.AttackMobErr t.ID then some TickError.failedToAttack else none)) ∧
    (Engine.Tick M env e sm).commands.Nodup := by
  obtain ⟨hcmd, herr⟩ := Tick_engages_held M env e sm t hhp hheld
  rw [hcmd, herr]
  refine ⟨?_, ?_, ?_⟩
  · intro hfar
    refine ⟨AddJitter env.rand1 env.rand2 { X := t.X, Y := t.Y } e.cfg.Behavior.PathJitter,
      rfl, ?_, ?_, ?_, ?_⟩
    · have e1 : (AddJitter env.rand1 env.rand2 { X := t.X, Y := t.Y }
          e.cfg.Behavior.PathJitter).X - t.X =
          (env.rand1 * 2 - 1) * e.cfg.Behavior.PathJitter := by
        simp only [AddJitter]
        ring
      rw [e1]
      exact jitter_bound _ _ hr1.1 hr1.2
    · have e2 : (AddJitter env.rand1 env.rand2 { X := t.X, Y := t.Y }
          e.cfg.Behavior.PathJitter).Y - t.Y =
          (env.rand2 * 2 - 1) * e.cfg.Behavior.PathJitter := by
        simp only [AddJitter]
        ring
      rw [e2]
      exact jitter_bound _ _ hr2.1 hr2.2
    · intro hfail
      simp only [Engine.engage, if_pos hfar, hfail, if_true, and_self]
    · intro hok
      simp only [Engine.engage, if_pos hfar, hok, Bool.false_eq_true, if_false]
      split_ifs <;> exact ⟨rfl, rfl⟩
  · intro hnear
    have hnot : ¬ distance M sm.GetHero.X sm.GetHero.Y t.X t.Y > 50 := not_lt.mpr hnear
    simp only [Engine.engage, if_neg hnot]
    split_ifs <;> exact ⟨rfl, rfl⟩
  · simp only [Engine.engage]
    split_ifs <;> simp

/-- An instance in exact arithmetic: the tick ends holding the goblin, which is at
distance 5, and the game client succeeds; the only command is the attack on the
goblin. -/
theorem Tick_engage_commands_exact_witness :
    (Engine.Tick exMath exEnv exEngine exStore).engine.currentTarget = some exGoblin ∧
    (Engine.Tick exMath exEnv exEngine exStore).commands =
      [Command.AttackMob exGoblin.ID] :=
  ⟨by decide!,
    ((Tick_engage_commands_exact exMath exEnv exEngine exStore exGoblin (by decide) (by decide!)
      (by decide!) (by decide!)).2.1 (by decide!)).1⟩

end EngageClaims

/-! ## The combat controller: keeping and replacing the target -/

/-- The validity loop returns the first entry with the held identifier that is alive
and attackable. -/
theorem revalidate_some_split {F : Type} (targetID : String) :
    ∀ (mobs : List (Mob F)) (m : Mob F), revalidate targetID mobs = some m →
      ∃ pre post, mobs = pre ++ m :: post ∧
        (m.ID = targetID ∧ m.Alive = true ∧ m.Attackable = true) ∧
        ∀ c ∈ pre, ¬ (c.ID = targetID ∧ c.Alive = true ∧ c.Attackable = true) := by
  intro mobs
  induction mobs with
  | nil => intro m h; simp [revalidate] at h
  | cons x rest ih =>
    intro m h
    by_cases hx : x.ID = targetID ∧ x.Alive = true ∧ x.Attackable = true
    · simp only [revalidate, if_pos hx, Option.some.injEq] at h
      subst h
      exact ⟨[], rest, rfl, hx, by intro c hc; cases hc⟩
    · simp only [revalidate, if_neg hx] at h
      obtain ⟨pre, post, h1, h2, h3⟩ := ih m h
      refine ⟨x :: pre, post, by rw [h1]; rfl, h2, ?_⟩
      intro c hc
      rcases List.mem_cons.mp hc with rfl | hc
      · exact hx
      · exact h3 c hc

section KeepTargetClaims

variable {F : Type} [LinearOrderedField F]

/-- The filtering loop does not read the retarget-on-loss option. -/
theorem candidates_withRetarget (M : MathFns F) (hero : HeroState F) (cfg : CombatConfig F)
    (b : Bool) :
    ∀ mobs : List (Mob F),
      candidates M hero { cfg with RetargetOnDeath := b } mobs = candidates M hero cfg mobs := by
  intro mobs
  induction mobs with
  | nil => rfl
  | cons x rest ih =>
    simp only [candidates, ih]

/-- The targeting engine does not read the retarget-on-loss option. -/
theorem SelectTarget_withRetarget (M : MathFns F) (hero : HeroState F) (mobs : List (Mob F))
    (cfg : CombatConfig F) (b : Bool) :
    SelectTarget M hero mobs { cfg with RetargetOnDeath := b } =
      SelectTarget M hero mobs cfg := by
  simp only [SelectTarget, candidates_withRetarget]

/-- The target a tick that does not retreat holds afterwards: the entry the validity
loop finds for the held identifier, and otherwise the choice of `SelectTarget`. -/
theorem Tick_target_of_not_low (M : MathFns F) (env : Collaborators F) (e : Engine F)
    (sm : StateManager F) (h : ¬ sm.GetHero.HPPercent < e.cfg.Combat.HPThreshold) :
    (Engine.Tick M env e sm).engine.currentTarget =
      match e.currentTarget with
      | none => SelectTarget M sm.GetHero sm.GetMobs e.cfg.Combat
      | some t =>
        match revalidate t.ID sm.GetMobs with
        | some m => some m
        | none => SelectTarget M sm.GetHero sm.GetMobs e.cfg.Combat := by
  cases hc : e.currentTarget with
  | none =>
    exact Tick_target_of_no_valid M env e sm h (by intro t ht; rw [hc] at ht; cases ht)
  | some t =>
    cases hr : revalidate t.ID sm.GetMobs with
    | none =>
      simp only [hr]
      exact Tick_target_of_no_valid M env e sm h
        (by
          intro t2 ht
          rw [hc] at ht
          simp only [Option.some.injEq] at ht
          subst ht
          exact hr)
    | some m =>
      simp only [hr]
      exact Tick_target_of_valid M env e sm h t m hc hr

/-- A tick gives the same held target, commands and error whatever the retarget-on-loss
option is set to. -/
theorem Tick_withRetarget (M : MathFns F) (env : Collaborators F) (e : Engine F)
    (sm : StateManager F) (b : Bool) :
    (Engine.Tick M env (e.withRetarget b) sm).engine.currentTarget =
      (Engine.Tick M env e sm).engine.currentTarget ∧
    (Engine.Tick M env (e.withRetarget b) sm).commands = (Engine.Tick M env e sm).commands ∧
    (Engine.Tick M env (e.withRetarget b) sm).err = (Engine.Tick M env e sm).err := by
  by_cases h : sm.GetHero.HPPercent < e.cfg.Combat.HPThreshold
  · have h2 : sm.GetHero.HPPercent < (e.withRetarget b).cfg.Combat.HPThreshold := h
    simp only [Engine.Tick, if_pos h, if_pos h2, and_self]
  · have h2 : ¬ sm.GetHero.HPPercent < (e.withRetarget b).cfg.Combat.HPThreshold := h
    have htarget : (Engine.Tick M env (e.withRetarget b) sm).engine.currentTarget =
        (Engine.Tick M env e sm).engine.currentTarget := by
      rw [Tick_target_of_not_low M env e sm h,
        Tick_target_of_not_low M env (e.withRetarget b) sm h2]
      simp only [Engine.withRetarget, SelectTarget_withRetarget]
    refine ⟨htarget, ?_⟩
    rcases Tick_idle_or_engage M env e sm h with ⟨h1, h3, h4⟩ | ⟨t, h1, h3, h4⟩
    · rcases Tick_idle_or_engage M env (e.withRetarget b) sm h2 with
        ⟨_, k3, k4⟩ | ⟨t2, k1, _, _⟩
      · rw [h3, h4, k3, k4]
        exact ⟨rfl, rfl⟩
      · rw [htarget, h1] at k1
        cases k1
    · rw [h1] at htarget
      obtain ⟨k3, k4⟩ := Tick_engages_held M env (e.withRetarget b) sm t h2 htarget
      rw [h3, h4, k3, k4]
      exact ⟨rfl, rfl⟩

/-- C21: in a tick with health not below the retreat threshold and a held target whose
identifier matches some alive and attackable entity of the entity list, the target held
afterwards is the first such entity of the list, the fresh snapshot; the targeting
engine is not consulted: the same entity is held whatever the math functions, the game
client and the configuration of the engine are, so the controller does not switch to
an entity that would score higher and keeps a target that no longer passes the level
or distance filters. -/
theorem Tick_keeps_valid_target (M : MathFns F) (env : Collaborators F) (e : Engine F)
    (sm : StateManager F) (t : Mob F)
    (hhp : ¬ sm.GetHero.HPPercent < e.cfg.Combat.HPThreshold)
    (hheld : e.currentTarget = some t)
    (hex : ∃ m ∈ sm.GetMobs, m.ID = t.ID ∧ m.Alive = true ∧ m.Attackable = true) :
    ∃ pre m post, sm.GetMobs = pre ++ m :: post ∧
      (m.ID = t.ID ∧ m.Alive = true ∧ m.Attackable = true) ∧
      (∀ c ∈ pre, ¬ (c.ID = t.ID ∧ c.Alive = true ∧ c.Attackable = true)) ∧
      (Engine.Tick M env e sm).engine.currentTarget = some m ∧
      (∀ (M2 : MathFns F) (env2 : Collaborators F) (e2 : Engine F),
        ¬ sm.GetHero.HPPercent < e2.cfg.Combat.HPThreshold → e2.currentTarget = some t →
        (Engine.Tick M2 env2 e2 sm).engine.currentTarget = some m) := by
  cases hr : revalidate t.ID sm.GetMobs with
  | none =>
    obtain ⟨m, hm, hid⟩ := hex
    exact absurd hid ((revalidate_eq_none_iff t.ID sm.GetMobs).mp hr m hm)
  | some m =>
    obtain ⟨pre, post, h1, h2, h3⟩ := revalidate_some_split t.ID sm.GetMobs m hr
    exact ⟨pre, m, post, h1, h2, h3, Tick_target_of_valid M env e sm hhp t m hheld hr,
      fun M2 env2 e2 hhp2 hheld2 => Tick_target_of_valid M2 env2 e2 sm hhp2 t m hheld2 hr⟩

/-- Witness of C21: the engine holds an older snapshot of the far goblin, the snapshot
shows the orc before the far goblin; `SelectTarget` would pick the orc, the tick keeps
the far goblin. -/
theorem Tick_keeps_valid_target_witness :
    SelectTarget exMath exStoreTwo.GetHero exStoreTwo.GetMobs exEngineFar.cfg.Combat =
      some exOrc ∧
    ∃ pre m post, exStoreTwo.GetMobs = pre ++ m :: post ∧
      (m.ID = exGoblinFarOld.ID ∧ m.Alive = true ∧ m.Attackable = true) ∧
      (∀ c ∈ pre, ¬ (c.ID = exGoblinFarOld.ID ∧ c.Alive = true ∧ c.Attackable = true)) ∧
      (Engine.Tick exMath exEnv exEngineFar exStoreTwo).engine.currentTarget = some m ∧
      (∀ (M2 : MathFns ℚ) (env2 : Collaborators ℚ) (e2 : Engine ℚ),
        ¬ exStoreTwo.GetHero.HPPercent < e2.cfg.Combat.HPThreshold →
        e2.currentTarget = some exGoblinFarOld →
        (Engine.Tick M2 env2 e2 exStoreTwo).engine.currentTarget = some m) :=
  ⟨by decide!,
    Tick_keeps_valid_target exMath exEnv exEngineFar exStoreTwo exGoblinFarOld (by decide)
      rfl ⟨exGoblinFar, by decide, by decide⟩⟩

/-- C24: the retarget-on-loss option does not change what `Tick` does. For every
controller state, store snapshot and configuration, the tick run with the option true
and the tick run with the option false give the same held target afterwards, the same
sequence of commands and the same returned error. -/
theorem Tick_retarget_option_irrelevant (M : MathFns F) (env : Collaborators F)
    (e : Engine F) (sm : StateManager F) :
    (Engine.Tick M env (e.withRetarget true) sm).engine.currentTarget =
      (Engine.Tick M env (e.withRetarget false) sm).engine.currentTarget ∧
    (Engine.Tick M env (e.withRetarget true) sm).commands =
      (Engine.Tick M env (e.withRetarget false) sm).commands ∧
    (Engine.Tick M env (e.withRetarget true) sm).err =
      (Engine.Tick M env (e.withRetarget false) sm).err := by
  obtain ⟨a1, a2, a3⟩ := Tick_withRetarget M env e sm true
  obtain ⟨b1, b2, b3⟩ := Tick_withRetarget M env e sm false
  exact ⟨a1.trans b1.symm, a2.trans b2.symm, a3.trans b3.symm⟩

end KeepTargetClaims

/-! ## The targeting engine: priority against distance -/

section PriorityClaims

variable {F : Type} [LinearOrderedField F]

/-- The square root of the examples is never negative. -/
theorem ratSqrt_nonneg (q : ℚ) : 0 ≤ ratSqrt q := by
  unfold ratSqrt
  exact div_nonneg (Nat.cast_nonneg _) (Nat.cast_nonneg _)

/-- A candidate that survives the distance filter of a positive maximum engage distance
is at most that far away. -/
theorem dist_le_of_passes (M : MathFns F) (hero : HeroState F) (cfg : CombatConfig F)
    (a : Mob F) (hmax : 0 < cfg.MaxEngageDistance) (ha : passesFilters M hero cfg a) :
    distance M hero.X hero.Y a.X a.Y ≤ cfg.MaxEngageDistance := by
  obtain ⟨_, _, _, _, h5⟩ := ha
  by_contra hc
  exact h5 ⟨hmax, not_le.mp hc⟩

/-- In exact arithmetic (no rounding): priority dominates distance when the maximum
engage distance lies strictly between 0 and the reference distance 300. For two
candidates `a` and `b` that survive the filters, if `a` is listed earlier than `b` on
the priority list, or `a` is listed and `b` is not, then `a` scores strictly higher
than `b` whatever their distances, and `SelectTarget` on a list containing `a` never
returns `b`. The square root of the math package is taken to be non-negative. -/
theorem SelectTarget_priority_dominates_exact (M : MathFns F) (hero : HeroState F)
    (cfg : CombatConfig F) (a b : Mob F)
    (hsqrt : ∀ x, 0 ≤ M.Sqrt x)
    (hmax : 0 < cfg.MaxEngageDistance ∧ cfg.MaxEngageDistance < 300)
    (ha : passesFilters M hero cfg a) (_hb : passesFilters M hero cfg b)
    (hprio :
      (∃ i j, cfg.TargetPriority.indexOf? a.Name = some i ∧
        cfg.TargetPriority.indexOf? b.Name = some j ∧ i < j) ∨
      (∃ i, cfg.TargetPriority.indexOf? a.Name = some i ∧
        cfg.TargetPriority.indexOf? b.Name = none)) :
    mobScore M hero cfg b < mobScore M hero cfg a ∧
      ∀ mobs : List (Mob F), a ∈ mobs → SelectTarget M hero mobs cfg ≠ some b := by
  have hda : distance M hero.X hero.Y a.X a.Y < 300 :=
    lt_of_le_of_lt (dist_le_of_passes M hero cfg a hmax.1 ha) hmax.2
  have hdb : 0 ≤ distance M hero.X hero.Y b.X b.Y := hsqrt _
  have hpa : distance M hero.X hero.Y a.X a.Y / 300 * 50 < 50 := by
    have h1 : distance M hero.X hero.Y a.X a.Y / 300 < 1 := by
      rw [div_lt_one (by norm_num)]
      exact hda
    linarith
  have hpb : 0 ≤ distance M hero.X hero.Y b.X b.Y / 300 * 50 := by positivity
  have hlt : mobScore M hero cfg b < mobScore M hero cfg a := by
    unfold mobScore
    rcases hprio with ⟨i, j, hi, hj, hij⟩ | ⟨i, hi, hn⟩
    · rw [scoreMob_listed a _ _ i hi, scoreMob_listed b _ _ j hj]
      have hc : (i : F) + 1 ≤ (j : F) := by exact_mod_cast hij
      linarith
    · rw [scoreMob_listed a _ _ i hi, scoreMob_unlisted b _ _ hn]
      have hlen : (i : F) + 1 ≤ (cfg.TargetPriority.length : F) := by
        exact_mod_cast indexOf?_lt_length a.Name _ i hi
      linarith
  refine ⟨hlt, ?_⟩
  intro mobs hma hsel
  obtain ⟨_, _, _, _, h3, _⟩ := SelectTarget_some_split M hero mobs cfg b hsel
  exact absurd (h3 a hma ha) (not_le.mpr hlt)

/-- An instance in exact arithmetic: with a maximum engage distance of 200, an orc at
distance 10 beats a goblin at distance 5, the orc being listed before the goblin. -/
theorem SelectTarget_priority_dominates_exact_witness :
    mobScore exMath exHero exCfg exGoblin < mobScore exMath exHero exCfg exOrcFar ∧
      ∀ mobs : List (Mob ℚ), exOrcFar ∈ mobs →
        SelectTarget exMath exHero mobs exCfg ≠ some exGoblin :=
  SelectTarget_priority_dominates_exact exMath exHero exCfg exOrcFar exGoblin
    (fun x => ratSqrt_nonneg x) (by decide!) (by decide!) (by decide!)
    (Or.inl ⟨0, 1, by decide, by decide, by decide⟩)

end PriorityClaims

/-! ## Paths -/

section PathLemmas

variable {F : Type} [LinearOrderedField F]

end PathLemmas

section PathClaims

variable {F : Type} [LinearOrderedField F] [FloorRing F]

end PathClaims

/-! ## The navigator: following the waypoints -/

/-- A waypoint step that succeeds has sent exactly the move to the waypoint. -/
theorem followWaypoint_commands_of_ok {F : Type} [LinearOrderedField F]
    (env : NavCollaborators F) (cfg : Config F) (i : Nat) (wp : Waypoint F)
    (h : (followWaypoint env cfg i wp).2 = none) :
    (followWaypoint env cfg i wp).1 = [waypointMove env cfg i wp] := by
  simp only [followWaypoint, moveToWaypoint] at h ⊢
  split_ifs at h ⊢ <;> rfl

/-- A waypoint step sends at most one command. -/
theorem followWaypoint_commands_length {F : Type} [LinearOrderedField F]
    (env : NavCollaborators F) (cfg : Config F) (i : Nat) (wp : Waypoint F) :
    (followWaypoint env cfg i wp).1.length ≤ 1 := by
  simp only [followWaypoint, moveToWaypoint]
  split_ifs <;> simp

section WaypointClaims

variable {F : Type} [LinearOrderedField F]

/-- When every step succeeds the waypoint loop sends one move per waypoint, in order. -/
theorem waypointLoop_of_all_ok (env : NavCollaborators F) (cfg : Config F) :
    ∀ (wps : List (Waypoint F)) (i : Nat),
      (∀ k wp, wps[k]? = some wp → (followWaypoint env cfg (i + k) wp).2 = none) →
      (waypointLoop env cfg i wps).commands =
          (wps.enumFrom i).map (fun p => waypointMove env cfg p.1 p.2) ∧
        (waypointLoop env cfg i wps).err = none := by
  intro wps
  induction wps with
  | nil => intro i _; exact ⟨rfl, rfl⟩
  | cons wp rest ih =>
    intro i hall
    have h0 : (followWaypoint env cfg i wp).2 = none := by
      have := hall 0 wp (by simp)
      simpa using this
    obtain ⟨h1, h2⟩ := ih (i + 1) (by
      intro k wp2 hk
      have := hall (k + 1) wp2 (by simpa using hk)
      have e : i + (k + 1) = i + 1 + k := by omega
      rw [e] at this
      exact this)
    have hc := followWaypoint_commands_of_ok env cfg i wp h0
    simp only [waypointLoop, h0, hc, h1, h2, List.enumFrom_cons, List.map_cons,
      List.singleton_append, and_self]

/-- The waypoint loop stops at the first step that fails. -/
theorem waypointLoop_of_first_failure (env : NavCollaborators F) (cfg : Config F) :
    ∀ (wps : List (Waypoint F)) (i j : Nat) (wp : Waypoint F) (cause : WaypointError),
      wps[j]? = some wp → (followWaypoint env cfg (i + j) wp).2 = some cause →
      (∀ k wp2, k < j → wps[k]? = some wp2 → (followWaypoint env cfg (i + k) wp2).2 = none) →
      (waypointLoop env cfg i wps).err = some (NavError.failedToFollowWaypoint (i + j) cause) ∧
        (waypointLoop env cfg i wps).commands =
          ((wps.take j).enumFrom i).map (fun p => waypointMove env cfg p.1 p.2) ++
            (followWaypoint env cfg (i + j) wp).1 := by
  intro wps
  induction wps with
  | nil => intro i j wp cause hj; simp at hj
  | cons w rest ih =>
    intro i j wp cause hj hfail hbefore
    cases j with
    | zero =>
      simp only [List.getElem?_cons_zero, Option.some.injEq] at hj
      subst hj
      simp only [Nat.add_zero] at hfail ⊢
      simp only [waypointLoop, hfail, List.take_zero, List.enumFrom_nil, List.map_nil,
        List.nil_append, and_self]
    | succ j =>
      have h0 : (followWaypoint env cfg i w).2 = none := by
        have := hbefore 0 w (by omega) (by simp)
        simpa using this
      have hj2 : rest[j]? = some wp := by simpa using hj
      have e : i + (j + 1) = i + 1 + j := by omega
      rw [e] at hfail ⊢
      obtain ⟨h1, h2⟩ := ih (i + 1) j wp cause hj2 hfail (by
        intro k wp2 hk hk2
        have := hbefore (k + 1) wp2 (by omega) (by simpa using hk2)
        have e2 : i + (k + 1) = i + 1 + k := by omega
        rw [e2] at this
        exact this)
      have hc := followWaypoint_commands_of_ok env cfg i w h0
      simp [waypointLoop, h0, hc, h1, h2]

/-- C26: `GoToHuntingGround` performs no arrival check. When the agent is not inside the
hunting ground, it returns success whenever every waypoint step succeeds, having sent
exactly one move command per waypoint in list order, wherever the agent is afterwards;
it stops with an error at the first waypoint that fails, having sent the moves of the
waypoints before it and what the failing step sent (at most one command); with an
empty waypoint list it returns success without sending any move command. -/
theorem GoToHuntingGround_follows_waypoints (M : MathFns F) (env : NavCollaborators F)
    (cfg : Config F) (sm : StateManager F)
    (hout : ¬ insideHuntingGround M cfg sm.GetHero) :
    ((∀ k wp, cfg.Profile.Waypoints[k]? = some wp →
        (followWaypoint env cfg k wp).2 = none) →
      (GoToHuntingGround M env cfg sm).err = none ∧
      (GoToHuntingGround M env cfg sm).commands =
        cfg.Profile.Waypoints.enum.map (fun p => waypointMove env cfg p.1 p.2) ∧
      (GoToHuntingGround M env cfg sm).commands.length = cfg.Profile.Waypoints.length) ∧
    (∀ (j : Nat) (wp : Waypoint F) (cause : WaypointError),
      cfg.Profile.Waypoints[j]? = some wp →
      (followWaypoint env cfg j wp).2 = some cause →
      (∀ k wp2, k < j → cfg.Profile.Waypoints[k]? = some wp2 →
        (followWaypoint env cfg k wp2).2 = none) →
      (GoToHuntingGround M env cfg sm).err =
        some (NavError.failedToFollowWaypoint j cause) ∧
      (GoToHuntingGround M env cfg sm).commands =
        (cfg.Profile.Waypoints.take j).enum.map (fun p => waypointMove env cfg p.1 p.2) ++
          (followWaypoint env cfg j wp).1 ∧
      (followWaypoint env cfg j wp).1.length ≤ 1) ∧
    (cfg.Profile.Waypoints = [] →
      (GoToHuntingGround M env cfg sm).commands = [] ∧
      (GoToHuntingGround M env cfg sm).err = none) := by
  have hnot : ¬ (sm.GetHero.MapID = cfg.Profile.HuntingGround.MapID ∧
      Distance M { X := sm.GetHero.X, Y := sm.GetHero.Y }
          { X := cfg.Profile.HuntingGround.CenterX, Y := cfg.Profile.HuntingGround.CenterY }
        ≤ cfg.Profile.HuntingGround.Radius) := hout
  have hgo : GoToHuntingGround M env cfg sm = waypointLoop env cfg 0 cfg.Profile.Waypoints := by
    simp only [GoToHuntingGround, if_neg hnot]
  rw [hgo]
  refine ⟨?_, ?_, ?_⟩
  · intro hall
    obtain ⟨h1, h2⟩ := waypointLoop_of_all_ok env cfg cfg.Profile.Waypoints 0
      (by intro k wp hk; rw [Nat.zero_add]; exact hall k wp hk)
    refine ⟨h2, h1, ?_⟩
    rw [h1, List.length_map, List.enumFrom_length]
  · intro j wp cause hj hfail hbefore
    obtain ⟨h1, h2⟩ := waypointLoop_of_first_failure env cfg cfg.Profile.Waypoints 0 j wp
      cause hj (by rw [Nat.zero_add]; exact hfail)
      (by intro k wp2 hk hk2; rw [Nat.zero_add]; exact hbefore k wp2 hk hk2)
    rw [Nat.zero_add] at h1 h2
    exact ⟨h1, h2, followWaypoint_commands_length env cfg j wp⟩
  · intro hempty
    rw [hempty]
    exact ⟨rfl, rfl⟩

/-- Witness of C26: the agent at the origin, outside the hunting ground around (200, 0),
two waypoints and a game client whose moves succeed: success after two moves. -/
theorem GoToHuntingGround_follows_waypoints_witness :
    (GoToHuntingGround exMath exNavEnv exConfig exStore).err = none ∧
    (GoToHuntingGround exMath exNavEnv exConfig exStore).commands =
      exConfig.Profile.Waypoints.enum.map (fun p => waypointMove exNavEnv exConfig p.1 p.2) ∧
    (GoToHuntingGround exMath exNavEnv exConfig exStore).commands.length =
      exConfig.Profile.Waypoints.length :=
  (GoToHuntingGround_follows_waypoints exMath exNavEnv exConfig exStore (by decide!)).1
    (by
      intro k wp hk
      rcases k with _ | _ | k
      · simp only [exConfig, exProfile, List.getElem?_cons_zero, Option.some.injEq] at hk
        subst hk
        decide!
      · simp only [exConfig, exProfile, List.getElem?_cons_succ, List.getElem?_cons_zero,
          Option.some.injEq] at hk
        subst hk
        decide!
      · simp [exConfig, exProfile] at hk)

end WaypointClaims

/-! ## The decision loop: reconnection -/

section ReconnectClaims

variable {F : Type} [LinearOrderedField F] [FloorRing F]

/-- The waits of the reconnection loop: 5 s, 10 s and 20 s. -/
theorem Backoff_reconnect_values :
    Backoff (5 * Second) (2 : F) (60 * Second) 0 = 5 * Second ∧
    Backoff (5 * Second) (2 : F) (60 * Second) 1 = 10 * Second ∧
    Backoff (5 * Second) (2 : F) (60 * Second) 2 = 20 * Second := by
  have h2 : (2 : F) = ((2 : Nat) : F) := by norm_num
  have hgen : ∀ n : Nat, backoffLoop ((2 : Nat) : F) (60 * Second) n (5 * Second) =
      min (5 * Second * ((2 : Nat) : Int) ^ n) (60 * Second) := fun n =>
    backoffLoop_natCast 2 (by decide) (60 * Second) n (5 * Second) (by decide) (by decide)
  refine ⟨?_, ?_, ?_⟩
  · show backoffLoop (2 : F) (60 * Second) 0 (5 * Second) = 5 * Second
    rw [h2, hgen 0]
    decide
  · show backoffLoop (2 : F) (60 * Second) 1 (5 * Second) = 10 * Second
    rw [h2, hgen 1]
    decide
  · show backoffLoop (2 : F) (60 * Second) 2 (5 * Second) = 20 * Second
    rw [h2, hgen 2]
    decide

/-- C22: for every sequence of outcomes of the page reload and the ready check,
`handleDisconnect` makes at most 3 reconnection attempts, waits
`Backoff(5 s, 2, 60 s, i)`, that is 5 s, 10 s, 20 s, before attempt `i = 0, 1, 2`,
returns success at the first attempt in which both the reload and the ready check
succeed, making no further attempt, and returns an error if and only if all 3 attempts
fail; that error makes `run` return an error. -/
theorem handleDisconnect_bounded_retries (env : LoopCollaborators F) (cfg : Config F) :
    (Backoff (5 * Second) (2 : F) (60 * Second) 0 = 5 * Second ∧
      Backoff (5 * Second) (2 : F) (60 * Second) 1 = 10 * Second ∧
      Backoff (5 * Second) (2 : F) (60 * Second) 2 = 20 * Second) ∧
    (handleDisconnect env cfg).1.countP ReconnectEvent.isNavigate ≤ 3 ∧
    (attemptFails env 0 = false →
      handleDisconnect env cfg = (attemptEvents env cfg 0, false)) ∧
    (attemptFails env 0 = true → attemptFails env 1 = false →
      handleDisconnect env cfg =
        (attemptEvents env cfg 0 ++ attemptEvents env cfg 1, false)) ∧
    (attemptFails env 0 = true → attemptFails env 1 = true → attemptFails env 2 = false →
      handleDisconnect env cfg =
        (attemptEvents env cfg 0 ++ attemptEvents env cfg 1 ++ attemptEvents env cfg 2,
          false)) ∧
    (attemptFails env 0 = true → attemptFails env 1 = true → attemptFails env 2 = true →
      handleDisconnect env cfg =
        (attemptEvents env cfg 0 ++ attemptEvents env cfg 1 ++ attemptEvents env cfg 2,
          true)) ∧
    ((handleDisconnect env cfg).2 = true ↔
      (attemptFails env 0 = true ∧ attemptFails env 1 = true ∧
        attemptFails env 2 = true)) ∧
    (∀ (M : MathFns F) (s : LoopState F), s.combatEngine.cfg = cfg →
      s.stateMgr.GetHero.Dead = false → env.IsConnected ≠ some true →
      (handleDisconnect env cfg).2 = true →
      ∃ s2, loopRecovery M env s = RecoveryOutcome.fatal s2) := by
  refine ⟨Backoff_reconnect_values, ?_, ?_, ?_, ?_, ?_, ?_, ?_⟩
  · cases h0n : env.NavigateErr 0 <;> cases h0e : env.EnsureReadyErr 0 <;>
      cases h1n : env.NavigateErr 1 <;> cases h1e : env.EnsureReadyErr 1 <;>
      cases h2n : env.NavigateErr 2 <;> cases h2e : env.EnsureReadyErr 2 <;>
      simp [handleDisconnect, handleDisconnectLoop, ReconnectEvent.isNavigate, h0n, h0e,
        h1n, h1e, h2n, h2e]
  · cases h0n : env.NavigateErr 0 <;> cases h0e : env.EnsureReadyErr 0 <;>
      simp [handleDisconnect, handleDisconnectLoop, attemptEvents, attemptFails, h0n, h0e]
  · cases h0n : env.NavigateErr 0 <;> cases h0e : env.EnsureReadyErr 0 <;>
      cases h1n : env.NavigateErr 1 <;> cases h1e : env.EnsureReadyErr 1 <;>
      simp [handleDisconnect, handleDisconnectLoop, attemptEvents, attemptFails, h0n, h0e,
        h1n, h1e]
  · cases h0n : env.NavigateErr 0 <;> cases h0e : env.EnsureReadyErr 0 <;>
      cases h1n : env.NavigateErr 1 <;> cases h1e : env.EnsureReadyErr 1 <;>
      cases h2n : env.NavigateErr 2 <;> cases h2e : env.EnsureReadyErr 2 <;>
      simp [handleDisconnect, handleDisconnectLoop, attemptEvents, attemptFails, h0n, h0e,
        h1n, h1e, h2n, h2e]
  · cases h0n : env.NavigateErr 0 <;> cases h0e : env.EnsureReadyErr 0 <;>
      cases h1n : env.NavigateErr 1 <;> cases h1e : env.EnsureReadyErr 1 <;>
      cases h2n : env.NavigateErr 2 <;> cases h2e : env.EnsureReadyErr 2 <;>
      simp [handleDisconnect, handleDisconnectLoop, attemptEvents, attemptFails, h0n, h0e,
        h1n, h1e, h2n, h2e]
  · cases h0n : env.NavigateErr 0 <;> cases h0e : env.EnsureReadyErr 0 <;>
      cases h1n : env.NavigateErr 1 <;> cases h1e : env.EnsureReadyErr 1 <;>
      cases h2n : env.NavigateErr 2 <;> cases h2e : env.EnsureReadyErr 2 <;>
      simp [handleDisconnect, handleDisconnectLoop, attemptFails, h0n, h0e, h1n, h1e, h2n,
        h2e]
  · intro M s hcfg halive hconn herr
    refine ⟨{ s with stateMgr := s.stateMgr.SetPhase BotPhase.PhaseDisconnected }, ?_⟩
    rw [← hcfg] at herr
    simp only [loopRecovery, halive, Bool.false_eq_true, if_false]
    cases hc : env.IsConnected with
    | none => simp only [disconnectBranch, herr, if_true]
    | some b =>
      cases b with
      | true => exact absurd hc hconn
      | false => simp only [disconnectBranch, herr, if_true]

/-- Witness of C22: a first attempt that succeeds; one wait of 5 s, one reload and one
ready check, then success. -/
theorem handleDisconnect_bounded_retries_witness :
    handleDisconnect exLoopEnv exConfig =
      ([ReconnectEvent.Sleep 5000000000, ReconnectEvent.Navigate "https://example.invalid/",
        ReconnectEvent.EnsureReady], false) :=
  ((handleDisconnect_bounded_retries exLoopEnv exConfig).2.2.1 (by decide)).trans
    (by decide!)

end ReconnectClaims

/-! ## Lemmas on float64 rounding -/

section Float64Lemmas

/-- The function `pow2` is the power of two. -/
theorem pow2_eq (e : Int) : pow2 e = (2 : ℚ) ^ e := by
  unfold pow2
  split_ifs with h
  · rw [Nat.cast_pow, Nat.cast_ofNat, ← zpow_natCast, Int.toNat_of_nonneg h]
  · have h2 : 0 ≤ -e := by omega
    rw [Nat.cast_pow, Nat.cast_ofNat, ← zpow_natCast, Int.toNat_of_nonneg h2, zpow_neg, one_div,
      inv_inv]

theorem pow2_pos (e : Int) : 0 < pow2 e := by
  rw [pow2_eq]; positivity

/-- With enough fuel the loop computes the binary logarithm rounded down. -/
theorem log2Loop_eq : ∀ (fuel n : Nat), n ≤ fuel → log2Loop fuel n = Nat.log 2 n := by
  intro fuel
  induction fuel with
  | zero =>
    intro n hn
    have : n = 0 := by omega
    subst this
    simp [log2Loop]
  | succ fuel ih =>
    intro n hn
    unfold log2Loop
    split_ifs with h
    · exact (Nat.log_of_lt h).symm
    · have h2 : 2 ≤ n := by omega
      rw [Nat.log_of_one_lt_of_le (by norm_num) h2, ih (n / 2) (by omega)]

theorem natLog2_eq (n : Nat) : natLog2 n = Nat.log 2 n :=
  log2Loop_eq n n (le_refl n)

theorem natLog2_le (n : Nat) (hn : n ≠ 0) : 2 ^ natLog2 n ≤ n := by
  rw [natLog2_eq]; exact Nat.pow_log_le_self 2 hn

theorem natLog2_lt (n : Nat) : n < 2 ^ (natLog2 n + 1) := by
  rw [natLog2_eq]; exact Nat.lt_pow_succ_log_self (by norm_num) n

/-- The binary exponent of a rational other than 0. -/
theorem ilog2_spec (q : ℚ) (hq : q ≠ 0) :
    (2 : ℚ) ^ ilog2 q ≤ |q| ∧ |q| < (2 : ℚ) ^ (ilog2 q + 1) := by
  have hN : q.num.natAbs ≠ 0 := by
    simpa using (Rat.num_ne_zero.mpr hq)
  have hD : q.den ≠ 0 := q.den_nz
  have habs : |q| = (q.num.natAbs : ℚ) / (q.den : ℚ) := by
    conv_lhs => rw [← Rat.num_div_den q]
    rw [abs_div, Nat.abs_cast, Nat.cast_natAbs, Int.cast_abs]
  have hDpos : (0 : ℚ) < q.den := by exact_mod_cast Nat.pos_of_ne_zero hD
  have a1 : ((2 : ℚ) ^ (natLog2 q.num.natAbs : Int)) ≤ (q.num.natAbs : ℚ) := by
    rw [zpow_natCast]; exact_mod_cast natLog2_le _ hN
  have a2 : (q.num.natAbs : ℚ) < (2 : ℚ) ^ ((natLog2 q.num.natAbs : Int) + 1) := by
    have := natLog2_lt q.num.natAbs
    have e : ((natLog2 q.num.natAbs : Int) + 1) = ((natLog2 q.num.natAbs + 1 : Nat) : Int) := by
      push_cast; ring
    rw [e, zpow_natCast]; exact_mod_cast this
  have b1 : ((2 : ℚ) ^ (natLog2 q.den : Int)) ≤ (q.den : ℚ) := by
    rw [zpow_natCast]; exact_mod_cast natLog2_le _ hD
  have b2 : (q.den : ℚ) < (2 : ℚ) ^ ((natLog2 q.den : Int) + 1) := by
    have := natLog2_lt q.den
    have e : ((natLog2 q.den : Int) + 1) = ((natLog2 q.den + 1 : Nat) : Int) := by
      push_cast; ring
    rw [e, zpow_natCast]; exact_mod_cast this
  have two : (0 : ℚ) < 2 := by norm_num
  have up : |q| < (2 : ℚ) ^ ((natLog2 q.num.natAbs : Int) - (natLog2 q.den : Int) + 1) := by
    rw [habs, div_lt_iff₀ hDpos]
    have e : (2 : ℚ) ^ ((natLog2 q.num.natAbs : Int) - (natLog2 q.den : Int) + 1) =
        (2 : ℚ) ^ ((natLog2 q.num.natAbs : Int) + 1) / (2 : ℚ) ^ (natLog2 q.den : Int) := by
      rw [← zpow_sub₀ (by norm_num)]; congr 1; ring
    rw [e, div_mul_eq_mul_div, lt_div_iff₀ (by positivity)]
    calc (q.num.natAbs : ℚ) * (2 : ℚ) ^ (natLog2 q.den : Int)
        ≤ (q.num.natAbs : ℚ) * q.den := by
          apply mul_le_mul_of_nonneg_left b1 (by positivity)
      _ < (2 : ℚ) ^ ((natLog2 q.num.natAbs : Int) + 1) * q.den := by
          apply mul_lt_mul_of_pos_right a2 hDpos
  have lo : (2 : ℚ) ^ ((natLog2 q.num.natAbs : Int) - (natLog2 q.den : Int) - 1) < |q| := by
    rw [habs, lt_div_iff₀ hDpos]
    have e : (2 : ℚ) ^ ((natLog2 q.num.natAbs : Int) - (natLog2 q.den : Int) - 1) =
        (2 : ℚ) ^ (natLog2 q.num.natAbs : Int) / (2 : ℚ) ^ ((natLog2 q.den : Int) + 1) := by
      rw [← zpow_sub₀ (by norm_num)]; congr 1; ring
    rw [e, div_mul_eq_mul_div, div_lt_iff₀ (by positivity)]
    calc (2 : ℚ) ^ (natLog2 q.num.natAbs : Int) * q.den
        < (2 : ℚ) ^ (natLog2 q.num.natAbs : Int) * (2 : ℚ) ^ ((natLog2 q.den : Int) + 1) := by
          apply mul_lt_mul_of_pos_left b2 (by positivity)
      _ ≤ (q.num.natAbs : ℚ) * (2 : ℚ) ^ ((natLog2 q.den : Int) + 1) := by
          apply mul_le_mul_of_nonneg_right a1 (by positivity)
  unfold ilog2
  simp only [pow2_eq]
  split_ifs with h
  · exact ⟨h, up⟩
  · refine ⟨le_of_lt lo, ?_⟩
    rw [sub_add_cancel]
    exact not_le.mp h

theorem ilog2_mono (x y : ℚ) (hx : 0 < x) (hxy : x ≤ y) : ilog2 x ≤ ilog2 y := by
  have hy : 0 < y := lt_of_lt_of_le hx hxy
  obtain ⟨s1, _⟩ := ilog2_spec x (ne_of_gt hx)
  obtain ⟨_, t2⟩ := ilog2_spec y (ne_of_gt hy)
  rw [abs_of_pos hx] at s1
  rw [abs_of_pos hy] at t2
  have two : (1 : ℚ) < 2 := by norm_num
  have a : ilog2 x < ilog2 y + 1 :=
    (zpow_lt_zpow_iff_right₀ two).mp (lt_of_le_of_lt s1 (lt_of_le_of_lt hxy t2))
  omega

theorem ilog2_neg (q : ℚ) : ilog2 (-q) = ilog2 q := by
  unfold ilog2
  simp only [Rat.neg_num, Rat.neg_den, Int.natAbs_neg, abs_neg]

/-- An integer rounds to itself. -/
theorem roundHalfEven_intCast (n : Int) : roundHalfEven (n : ℚ) = n := by
  unfold roundHalfEven
  simp

/-- Rounding to the nearest integer gives the floor or the floor plus one. -/
theorem roundHalfEven_cases (x : ℚ) :
    (roundHalfEven x = Int.floor x ∧ x - (Int.floor x : ℚ) ≤ 1 / 2) ∨
    (roundHalfEven x = Int.floor x + 1 ∧ 1 / 2 ≤ x - (Int.floor x : ℚ)) := by
  unfold roundHalfEven
  simp only []
  split_ifs with h1 h2 h3
  · exact Or.inl ⟨rfl, le_of_lt h1⟩
  · exact Or.inr ⟨rfl, le_of_lt h2⟩
  · exact Or.inl ⟨rfl, not_lt.mp h2⟩
  · exact Or.inr ⟨rfl, not_lt.mp h1⟩

/-- Rounding to the nearest integer is monotone. -/
theorem roundHalfEven_mono (x y : ℚ) (h : x ≤ y) : roundHalfEven x ≤ roundHalfEven y := by
  have hf : Int.floor x ≤ Int.floor y := Int.floor_mono h
  rcases lt_or_eq_of_le hf with hlt | heq
  · rcases roundHalfEven_cases x with ⟨a, _⟩ | ⟨a, _⟩ <;>
    rcases roundHalfEven_cases y with ⟨b, _⟩ | ⟨b, _⟩ <;> omega
  · unfold roundHalfEven
    simp only []
    rw [← heq]
    have hr : x - (Int.floor x : ℚ) ≤ y - (Int.floor x : ℚ) := by linarith
    split_ifs <;> first | omega | (exfalso; linarith)

/-- Rounding to the nearest integer, ties to even, commutes with negation. -/
theorem roundHalfEven_neg (x : ℚ) : roundHalfEven (-x) = - roundHalfEven x := by
  have hfl : (Int.floor x : ℚ) ≤ x := Int.floor_le x
  have hlt : x < (Int.floor x : ℚ) + 1 := Int.lt_floor_add_one x
  by_cases hint : x = (Int.floor x : ℚ)
  · rw [hint, ← Int.cast_neg, roundHalfEven_intCast, roundHalfEven_intCast]
  · have hpos : (Int.floor x : ℚ) < x := lt_of_le_of_ne hfl (Ne.symm hint)
    have hneg : Int.floor (-x) = - Int.floor x - 1 := by
      rw [Int.floor_eq_iff]
      push_cast
      constructor <;> linarith
    unfold roundHalfEven
    simp only []
    rw [hneg]
    push_cast
    split_ifs <;> first | omega | (exfalso; linarith)

theorem le_roundHalfEven (n : Int) (x : ℚ) (h : (n : ℚ) ≤ x) : n ≤ roundHalfEven x := by
  have := roundHalfEven_mono _ _ h
  rwa [roundHalfEven_intCast] at this

theorem roundHalfEven_le (n : Int) (x : ℚ) (h : x ≤ (n : ℚ)) : roundHalfEven x ≤ n := by
  have := roundHalfEven_mono _ _ h
  rwa [roundHalfEven_intCast] at this

theorem ulpF64_pos (q : ℚ) : 0 < ulpF64 q := pow2_pos _

theorem ulpF64_eq (q : ℚ) : ulpF64 q = (2 : ℚ) ^ (max (ilog2 q) (-1022) - 52) := by
  unfold ulpF64; rw [pow2_eq]

theorem ulpF64_neg (q : ℚ) : ulpF64 (-q) = ulpF64 q := by
  unfold ulpF64; rw [ilog2_neg]

/-- Rounding to `float64` commutes with negation. -/
theorem roundF64_neg (q : ℚ) : roundF64 (-q) = - roundF64 q := by
  unfold roundF64
  rw [ulpF64_neg, neg_div, roundHalfEven_neg]
  push_cast
  ring

theorem roundF64_zero : roundF64 0 = 0 := by
  unfold roundF64
  rw [zero_div]
  have : roundHalfEven 0 = 0 := by
    have := roundHalfEven_intCast 0
    simpa using this
  rw [this]
  simp

theorem roundF64_nonneg (q : ℚ) (h : 0 ≤ q) : 0 ≤ roundF64 q := by
  unfold roundF64
  apply mul_nonneg _ (le_of_lt (ulpF64_pos q))
  have h0 : (0 : Int) ≤ roundHalfEven (q / ulpF64 q) :=
    le_roundHalfEven 0 _ (by push_cast; exact div_nonneg h (le_of_lt (ulpF64_pos q)))
  exact_mod_cast h0

/-- A positive value rounds to at most the upper end of its binade. -/
theorem roundF64_le_binade (q : ℚ) (hq : 0 < q) :
    roundF64 q ≤ (2 : ℚ) ^ (max (ilog2 q) (-1022) + 1) := by
  obtain ⟨_, s2⟩ := ilog2_spec q (ne_of_gt hq)
  rw [abs_of_pos hq] at s2
  have two : (1 : ℚ) ≤ 2 := by norm_num
  have hE : q < (2 : ℚ) ^ (max (ilog2 q) (-1022) + 1) :=
    lt_of_lt_of_le s2 (zpow_le_zpow_right₀ two (by omega))
  have hu := ulpF64_pos q
  have hsplit : (2 : ℚ) ^ (max (ilog2 q) (-1022) + 1) = ((2 ^ 53 : Int) : ℚ) * ulpF64 q := by
    have h53 : ((2 ^ 53 : Int) : ℚ) = (2 : ℚ) ^ (53 : Int) := by norm_num
    rw [ulpF64_eq, h53, ← zpow_add₀ (by norm_num)]
    congr 1
    ring
  rw [hsplit]
  unfold roundF64
  apply mul_le_mul_of_nonneg_right _ (le_of_lt hu)
  have : roundHalfEven (q / ulpF64 q) ≤ (2 ^ 53 : Int) := by
    apply roundHalfEven_le
    rw [div_le_iff₀ hu, ← hsplit]
    exact le_of_lt hE
  exact_mod_cast this

/-- In the normal range a positive value rounds to at least the lower end of its
binade. -/
theorem binade_le_roundF64 (q : ℚ) (hq : 0 < q) (hn : -1022 ≤ ilog2 q) :
    (2 : ℚ) ^ (ilog2 q) ≤ roundF64 q := by
  obtain ⟨s1, _⟩ := ilog2_spec q (ne_of_gt hq)
  rw [abs_of_pos hq] at s1
  have hu := ulpF64_pos q
  have hmax : max (ilog2 q) (-1022) = ilog2 q := max_eq_left hn
  have hsplit : (2 : ℚ) ^ (ilog2 q) = ((2 ^ 52 : Int) : ℚ) * ulpF64 q := by
    have h52 : ((2 ^ 52 : Int) : ℚ) = (2 : ℚ) ^ (52 : Int) := by norm_num
    rw [ulpF64_eq, hmax, h52, ← zpow_add₀ (by norm_num)]
    congr 1
    ring
  rw [hsplit]
  unfold roundF64
  apply mul_le_mul_of_nonneg_right _ (le_of_lt hu)
  have : (2 ^ 52 : Int) ≤ roundHalfEven (q / ulpF64 q) := by
    apply le_roundHalfEven
    rw [le_div_iff₀ hu, ← hsplit]
    exact s1
  exact_mod_cast this

theorem roundF64_mono_pos (x y : ℚ) (hx : 0 < x) (hxy : x ≤ y) : roundF64 x ≤ roundF64 y := by
  have hy : 0 < y := lt_of_lt_of_le hx hxy
  have hl := ilog2_mono x y hx hxy
  rcases lt_or_eq_of_le (max_le_max hl (le_refl (-1022 : Int))) with hlt | heq
  · have hn : -1022 ≤ ilog2 y := by
      by_contra hc
      have : max (ilog2 y) (-1022) = -1022 := max_eq_right (by omega)
      rw [this] at hlt
      have := le_max_right (ilog2 x) (-1022)
      omega
    have hmax : max (ilog2 y) (-1022) = ilog2 y := max_eq_left hn
    rw [hmax] at hlt
    calc roundF64 x ≤ (2 : ℚ) ^ (max (ilog2 x) (-1022) + 1) := roundF64_le_binade x hx
      _ ≤ (2 : ℚ) ^ (ilog2 y) := zpow_le_zpow_right₀ (by norm_num) (by omega)
      _ ≤ roundF64 y := binade_le_roundF64 y hy hn
  · have hu : ulpF64 x = ulpF64 y := by rw [ulpF64_eq, ulpF64_eq, heq]
    unfold roundF64
    rw [hu]
    apply mul_le_mul_of_nonneg_right _ (le_of_lt (ulpF64_pos y))
    have : roundHalfEven (x / ulpF64 y) ≤ roundHalfEven (y / ulpF64 y) :=
      roundHalfEven_mono _ _ (div_le_div_of_nonneg_right hxy (le_of_lt (ulpF64_pos y)))
    exact_mod_cast this

theorem roundF64_nonpos (q : ℚ) (h : q ≤ 0) : roundF64 q ≤ 0 := by
  have := roundF64_nonneg (-q) (by linarith)
  rw [roundF64_neg] at this
  linarith

/-- Rounding to `float64` is monotone. -/
theorem roundF64_mono (x y : ℚ) (hxy : x ≤ y) : roundF64 x ≤ roundF64 y := by
  rcases lt_trichotomy 0 x with hx | hx | hx
  · exact roundF64_mono_pos x y hx hxy
  · subst hx
    rw [roundF64_zero]
    exact roundF64_nonneg y hxy
  · rcases le_or_lt 0 y with hy | hy
    · exact le_trans (roundF64_nonpos x (le_of_lt hx)) (roundF64_nonneg y hy)
    · have := roundF64_mono_pos (-y) (-x) (by linarith) (by linarith)
      rw [roundF64_neg, roundF64_neg] at this
      linarith

theorem roundF64_natCast_pos (n : Nat) (h0 : 0 < n) (h : n < 2 ^ 53) :
    roundF64 (n : ℚ) = n := by
  have hq : (0 : ℚ) < n := by exact_mod_cast h0
  obtain ⟨s1, s2⟩ := ilog2_spec (n : ℚ) (ne_of_gt hq)
  rw [abs_of_pos hq] at s1 s2
  have two : (1 : ℚ) < 2 := by norm_num
  have e1 : ilog2 (n : ℚ) < 53 := by
    have : (2 : ℚ) ^ ilog2 (n : ℚ) < (2 : ℚ) ^ (53 : Int) := by
      apply lt_of_le_of_lt s1
      have : (n : ℚ) < ((2 ^ 53 : Nat) : ℚ) := by exact_mod_cast h
      rw [show ((53 : Int)) = ((53 : Nat) : Int) from rfl, zpow_natCast]
      exact_mod_cast this
    exact (zpow_lt_zpow_iff_right₀ two).mp this
  have e0 : 0 < ilog2 (n : ℚ) + 1 := by
    have : (2 : ℚ) ^ (0 : Int) < (2 : ℚ) ^ (ilog2 (n : ℚ) + 1) := by
      apply lt_of_le_of_lt _ s2
      rw [zpow_zero]
      exact_mod_cast h0
    exact (zpow_lt_zpow_iff_right₀ two).mp this
  have hmax : max (ilog2 (n : ℚ)) (-1022) = ilog2 (n : ℚ) := max_eq_left (by omega)
  obtain ⟨k, hk⟩ : ∃ k : Nat, (52 : Int) - ilog2 (n : ℚ) = k := ⟨(52 - ilog2 (n : ℚ)).toNat, by omega⟩
  have hu : ulpF64 (n : ℚ) = ((2 : ℚ) ^ k)⁻¹ := by
    rw [ulpF64_eq, hmax, ← zpow_natCast, ← zpow_neg]
    congr 1
    omega
  unfold roundF64
  rw [hu, div_inv_eq_mul]
  have hc : (n : ℚ) * (2 : ℚ) ^ k = (((n * 2 ^ k : Nat) : Int) : ℚ) := by push_cast; ring
  rw [hc, roundHalfEven_intCast]
  push_cast
  field_simp

/-- An integer of absolute value below `2 ^ 53` is a `float64` value. -/
theorem roundF64_intCast (n : Int) (h : |n| < 2 ^ 53) : roundF64 (n : ℚ) = n := by
  rcases lt_trichotomy 0 n with hn | hn | hn
  · obtain ⟨m, rfl⟩ := Int.eq_ofNat_of_zero_le (le_of_lt hn)
    rw [abs_of_pos hn] at h
    have := roundF64_natCast_pos m (by exact_mod_cast hn) (by exact_mod_cast h)
    exact_mod_cast this
  · subst hn
    simpa using roundF64_zero
  · obtain ⟨m, hm⟩ := Int.eq_ofNat_of_zero_le (show 0 ≤ -n by omega)
    rw [abs_of_neg hn, hm] at h
    have := roundF64_natCast_pos m (by omega) (by exact_mod_cast h)
    have e : (n : ℚ) = - (m : ℚ) := by
      have : n = - (m : Int) := by omega
      rw [this]; push_cast; rfl
    rw [e, roundF64_neg, this]

/-- Invariant of the bisection. -/
theorem isqrtLoop_spec (n : Nat) :
    ∀ (fuel lo hi : Nat), lo * lo ≤ n → n < hi * hi → hi ≤ lo + fuel + 1 →
      isqrtLoop n fuel lo hi * isqrtLoop n fuel lo hi ≤ n ∧
        n < (isqrtLoop n fuel lo hi + 1) * (isqrtLoop n fuel lo hi + 1) := by
  intro fuel
  induction fuel with
  | zero =>
    intro lo hi h1 h2 h3
    simp only [isqrtLoop]
    refine ⟨h1, lt_of_lt_of_le h2 ?_⟩
    exact Nat.mul_le_mul (by omega) (by omega)
  | succ fuel ih =>
    intro lo hi h1 h2 h3
    simp only [isqrtLoop]
    split_ifs with hc hm
    · refine ⟨h1, lt_of_lt_of_le h2 ?_⟩
      exact Nat.mul_le_mul (by omega) (by omega)
    · exact ih _ _ hm h2 (by omega)
    · exact ih _ _ h1 (not_le.mp hm) (by omega)

/-- The function `isqrt` is the integer square root. -/
theorem isqrt_spec (n : Nat) : isqrt n * isqrt n ≤ n ∧ n < (isqrt n + 1) * (isqrt n + 1) := by
  unfold isqrt
  apply isqrtLoop_spec n (n + 1) 0 (n + 1) (by omega) _ (by omega)
  nlinarith

/-- Rounding to the nearest integer moves a value by at most one half. -/
theorem roundHalfEven_abs_sub_le (x : ℚ) : |(roundHalfEven x : ℚ) - x| ≤ 1 / 2 := by
  have hfl : (Int.floor x : ℚ) ≤ x := Int.floor_le x
  have hlt : x < (Int.floor x : ℚ) + 1 := Int.lt_floor_add_one x
  rw [abs_le]
  rcases roundHalfEven_cases x with ⟨h, hr⟩ | ⟨h, hr⟩
  · rw [h]
    constructor <;> linarith
  · rw [h]
    push_cast
    constructor <;> linarith

/-- The rounded value is a nearest multiple of the spacing: it lies within half the
spacing of the argument. -/
theorem roundF64_abs_sub_le (q : ℚ) : |roundF64 q - q| ≤ ulpF64 q / 2 := by
  have hu := ulpF64_pos q
  have h := roundHalfEven_abs_sub_le (q / ulpF64 q)
  have e : roundF64 q - q = ((roundHalfEven (q / ulpF64 q) : ℚ) - q / ulpF64 q) * ulpF64 q := by
    unfold roundF64
    field_simp
  rw [e, abs_mul, abs_of_pos hu]
  calc |(roundHalfEven (q / ulpF64 q) : ℚ) - q / ulpF64 q| * ulpF64 q
      ≤ 1 / 2 * ulpF64 q := mul_le_mul_of_nonneg_right h (le_of_lt hu)
    _ = ulpF64 q / 2 := by ring

/-- The choice between the two multiples of the spacing `U` around the square root of
`x`, for `x` between `2 ^ 104` and `2 ^ 106` squared spacings: the value chosen is a
significand of 53 bits times `U` and `x` lies between the squares of the midpoints on
either side of it. -/
theorem sqrt_grid_spec (x U : ℚ) (hU : 0 < U) (hlo : (2 : ℚ) ^ (104 : Int) * (U * U) ≤ x)
    (hhi : x < (2 : ℚ) ^ (106 : Int) * (U * U)) (k : Nat)
    (hk : k = isqrt (Int.floor (x / (U * U))).toNat) :
    ∃ m : Nat,
      (if x < (((k : ℚ) + 1 / 2) * U) * (((k : ℚ) + 1 / 2) * U) then (k : ℚ) * U
        else if (((k : ℚ) + 1 / 2) * U) * (((k : ℚ) + 1 / 2) * U) < x then ((k : ℚ) + 1) * U
        else if k % 2 = 0 then (k : ℚ) * U else ((k : ℚ) + 1) * U) = (m : ℚ) * U ∧
      2 ^ 52 ≤ m ∧ m ≤ 2 ^ 53 ∧
      (((m : ℚ) - 1 / 2) * U) ^ 2 ≤ x ∧ x ≤ (((m : ℚ) + 1 / 2) * U) ^ 2 := by
  have hU2 : 0 < U * U := mul_pos hU hU
  have hy0 : (2 : ℚ) ^ (104 : Int) ≤ x / (U * U) := by rw [le_div_iff₀ hU2]; exact hlo
  have hy1 : x / (U * U) < (2 : ℚ) ^ (106 : Int) := by rw [div_lt_iff₀ hU2]; exact hhi
  have hxy : x / (U * U) * (U * U) = x := by field_simp
  generalize x / (U * U) = y at hk hy0 hy1 hxy
  have hypos : 0 ≤ y := le_trans (by positivity) hy0
  have hfl0 : 0 ≤ Int.floor y := Int.floor_nonneg.mpr hypos
  obtain ⟨n, hn⟩ := Int.eq_ofNat_of_zero_le hfl0
  have hntoNat : (Int.floor y).toNat = n := by rw [hn]; rfl
  rw [hntoNat] at hk
  have hny : (n : ℚ) ≤ y := by
    have := Int.floor_le y
    rw [hn] at this
    exact_mod_cast this
  have hyn : y < (n : ℚ) + 1 := by
    have := Int.lt_floor_add_one y
    rw [hn] at this
    exact_mod_cast this
  obtain ⟨k1, k2⟩ := isqrt_spec n
  rw [← hk] at k1 k2
  have hky : (k : ℚ) * k ≤ y := le_trans (by exact_mod_cast k1) hny
  have hyk : y < ((k : ℚ) + 1) * ((k : ℚ) + 1) := by
    have : (n : ℚ) + 1 ≤ ((k : ℚ) + 1) * ((k : ℚ) + 1) := by
      have h2 : n + 1 ≤ (k + 1) * (k + 1) := k2
      exact_mod_cast h2
    linarith
  have hk52 : 2 ^ 52 ≤ k := by
    by_contra hc
    have hc2 : k + 1 ≤ 2 ^ 52 := by omega
    have h3 : (k + 1) * (k + 1) ≤ 2 ^ 52 * 2 ^ 52 := Nat.mul_le_mul hc2 hc2
    have h4 : (((k + 1) * (k + 1) : Nat) : ℚ) ≤ ((2 ^ 52 * 2 ^ 52 : Nat) : ℚ) := by
      exact_mod_cast h3
    have h5 : ((2 ^ 52 * 2 ^ 52 : Nat) : ℚ) = (2 : ℚ) ^ (104 : Int) := by norm_num
    rw [h5] at h4
    push_cast at h4
    linarith
  have hk53 : k < 2 ^ 53 := by
    by_contra hc
    have hc2 : 2 ^ 53 ≤ k := by omega
    have h3 : 2 ^ 53 * 2 ^ 53 ≤ k * k := Nat.mul_le_mul hc2 hc2
    have h4 : ((2 ^ 53 * 2 ^ 53 : Nat) : ℚ) ≤ ((k * k : Nat) : ℚ) := by exact_mod_cast h3
    have h5 : ((2 ^ 53 * 2 ^ 53 : Nat) : ℚ) = (2 : ℚ) ^ (106 : Int) := by norm_num
    rw [h5] at h4
    push_cast at h4
    linarith
  have hkq : (1 : ℚ) ≤ k := by
    have : 1 ≤ k := le_trans (by norm_num) hk52
    exact_mod_cast this
  have sq : ∀ c : ℚ, (c * U) ^ 2 = c ^ 2 * (U * U) := fun c => by ring
  have lowK : (((k : ℚ) - 1 / 2) * U) ^ 2 ≤ x := by
    rw [sq, ← hxy]
    exact mul_le_mul_of_nonneg_right (by nlinarith) (le_of_lt hU2)
  have highK1 : x ≤ ((((k + 1 : Nat) : ℚ) + 1 / 2) * U) ^ 2 := by
    rw [sq, ← hxy]
    exact mul_le_mul_of_nonneg_right (by push_cast; nlinarith) (le_of_lt hU2)
  have useK : x ≤ (((k : ℚ) + 1 / 2) * U) * (((k : ℚ) + 1 / 2) * U) →
      ∃ m : Nat, (k : ℚ) * U = (m : ℚ) * U ∧ 2 ^ 52 ≤ m ∧ m ≤ 2 ^ 53 ∧
        (((m : ℚ) - 1 / 2) * U) ^ 2 ≤ x ∧ x ≤ (((m : ℚ) + 1 / 2) * U) ^ 2 := by
    intro h
    exact ⟨k, rfl, hk52, le_of_lt hk53, lowK, by rw [pow_two]; exact h⟩
  have useK1 : (((k : ℚ) + 1 / 2) * U) * (((k : ℚ) + 1 / 2) * U) ≤ x →
      ∃ m : Nat, ((k : ℚ) + 1) * U = (m : ℚ) * U ∧ 2 ^ 52 ≤ m ∧ m ≤ 2 ^ 53 ∧
        (((m : ℚ) - 1 / 2) * U) ^ 2 ≤ x ∧ x ≤ (((m : ℚ) + 1 / 2) * U) ^ 2 := by
    intro h
    refine ⟨k + 1, by push_cast; rfl, by omega, by omega, ?_, highK1⟩
    have e : (((k + 1 : Nat) : ℚ) - 1 / 2) = (k : ℚ) + 1 / 2 := by push_cast; ring
    rw [e, pow_two]
    exact h
  split_ifs with h1 h2 h3
  · exact useK (le_of_lt h1)
  · exact useK1 (le_of_lt h2)
  · exact useK (not_lt.mp h2)
  · exact useK1 (not_lt.mp h1)

/-- The rounded square root of a positive value is a significand `m` of 53 bits times the
spacing `u`, and the argument lies between the squares of the two midpoints around it:
no other multiple of `u` is nearer to the square root. -/
theorem sqrtF64_spec (x : ℚ) (hx : 0 < x) :
    ∃ m : Nat, sqrtF64 x = (m : ℚ) * pow2 (ilog2 x / 2 - 52) ∧
      2 ^ 52 ≤ m ∧ m ≤ 2 ^ 53 ∧
      (((m : ℚ) - 1 / 2) * pow2 (ilog2 x / 2 - 52)) ^ 2 ≤ x ∧
      x ≤ (((m : ℚ) + 1 / 2) * pow2 (ilog2 x / 2 - 52)) ^ 2 := by
  obtain ⟨s1, s2⟩ := ilog2_spec x (ne_of_gt hx)
  rw [abs_of_pos hx] at s1 s2
  have hdiv : 2 * (ilog2 x / 2) ≤ ilog2 x ∧ ilog2 x ≤ 2 * (ilog2 x / 2) + 1 := by omega
  have hueq : pow2 (ilog2 x / 2 - 52) * pow2 (ilog2 x / 2 - 52) =
      (2 : ℚ) ^ (2 * (ilog2 x / 2) - 104) := by
    rw [pow2_eq, ← zpow_add₀ (by norm_num)]
    congr 1
    ring
  have hlo : (2 : ℚ) ^ (104 : Int) * (pow2 (ilog2 x / 2 - 52) * pow2 (ilog2 x / 2 - 52)) ≤ x := by
    rw [hueq, ← zpow_add₀ (by norm_num)]
    exact le_trans (zpow_le_zpow_right₀ (by norm_num) (by omega)) s1
  have hhi : x < (2 : ℚ) ^ (106 : Int) * (pow2 (ilog2 x / 2 - 52) * pow2 (ilog2 x / 2 - 52)) := by
    rw [hueq, ← zpow_add₀ (by norm_num)]
    exact lt_of_lt_of_le s2 (zpow_le_zpow_right₀ (by norm_num) (by omega))
  have h := sqrt_grid_spec x (pow2 (ilog2 x / 2 - 52)) (pow2_pos _) hlo hhi _ rfl
  unfold sqrtF64
  rw [if_neg (not_le.mpr hx)]
  exact h

/-- The rounding on known values: 0.1 rounds to the `float64` value written `0.1`, a tie
in the subnormal range goes to the even significand, and the rounded square roots of 2
and of 25 are the `float64` values `1.4142135623730951` and `5`. -/
theorem roundF64_known_values :
    roundF64 (1 / 10) = 3602879701896397 / 36028797018963968 ∧
    roundF64 (pow2 (-1074) * 3 / 2) = pow2 (-1073) ∧
    roundF64 (pow2 (-1074) / 2) = 0 ∧
    sqrtF64 2 = 6369051672525773 / 4503599627370496 ∧
    sqrtF64 25 = 5 := by
  decide!

end Float64Lemmas

/-! ## Lemmas on the targeting engine in float64 arithmetic -/

section TargetingF64Lemmas

end TargetingF64Lemmas

/-! ## The targeting engine in float64 arithmetic: distance and priority -/

section TargetingF64Claims

end TargetingF64Claims

/-! ## The combat controller in float64 arithmetic: engagement -/

section EngageF64Claims

/-- A value of absolute value at most a `float64` bound rounds to a value of absolute
value at most that bound. -/
theorem abs_roundF64_le (x b : ℚ) (hb : roundF64 b = b) (h : |x| ≤ b) : |roundF64 x| ≤ b := by
  rw [abs_le] at h ⊢
  constructor
  · have := roundF64_mono (-b) x h.1
    rwa [roundF64_neg, hb] at this
  · have := roundF64_mono x b h.2
    rwa [hb] at this

/-- The absolute value of a `float64` value is a `float64` value. -/
theorem roundF64_abs (j : ℚ) (hj : roundF64 j = j) : roundF64 |j| = |j| := by
  rcases le_or_lt 0 j with h | h
  · rw [abs_of_nonneg h, hj]
  · rw [abs_of_neg h, roundF64_neg, hj]

/-- The rounded jitter offset is at most the size of the jitter, for a draw in `[0, 1)`
and a jitter that is a `float64` value. -/
theorem jitterOffsetF64_abs_le (u maxOffset : ℚ) (h0 : 0 ≤ u) (h1 : u < 1)
    (hj : roundF64 maxOffset = maxOffset) : |jitterOffsetF64 u maxOffset| ≤ |maxOffset| := by
  have e1 : roundF64 1 = 1 := by
    have := roundF64_intCast 1 (by norm_num)
    simpa using this
  have e2 : roundF64 2 = 2 := by
    have := roundF64_intCast 2 (by norm_num)
    simpa using this
  have ha0 : 0 ≤ mulF64 u 2 := roundF64_nonneg _ (by linarith)
  have ha2 : mulF64 u 2 ≤ 2 := by
    have := roundF64_mono (u * 2) 2 (by linarith)
    rwa [e2] at this
  have hb : |subF64 (mulF64 u 2) 1| ≤ 1 := by
    unfold subF64
    apply abs_roundF64_le _ 1 e1
    rw [abs_le]
    constructor <;> linarith
  unfold jitterOffsetF64
  conv_lhs => unfold mulF64
  apply abs_roundF64_le _ _ (roundF64_abs maxOffset hj)
  rw [abs_mul]
  calc |subF64 (mulF64 u 2) 1| * |maxOffset| ≤ 1 * |maxOffset| :=
        mul_le_mul_of_nonneg_right hb (abs_nonneg _)
    _ = |maxOffset| := one_mul _

/-- A rounded sum differs from its first term by at most a bound on the second term plus
half the spacing of the `float64` values around the exact sum. -/
theorem abs_addF64_sub_le (t o b : ℚ) (h : |o| ≤ b) :
    |addF64 t o - t| ≤ b + ulpF64 (t + o) / 2 := by
  unfold addF64
  have h1 := roundF64_abs_sub_le (t + o)
  calc |roundF64 (t + o) - t| = |(roundF64 (t + o) - (t + o)) + o| := by
        congr 1
        ring
    _ ≤ |roundF64 (t + o) - (t + o)| + |o| := abs_add _ _
    _ ≤ ulpF64 (t + o) / 2 + b := add_le_add h1 h
    _ = b + ulpF64 (t + o) / 2 := add_comm _ _

/-- A tick in float64 arithmetic that does not retreat either ends idle, without target
and command, or engages the target it holds afterwards. -/
theorem TickF64_idle_or_engage (M : MathFns ℚ) (env : Collaborators ℚ) (e : Engine ℚ)
    (sm : StateManager ℚ) (h : ¬ sm.GetHero.HPPercent < e.cfg.Combat.HPThreshold) :
    ((Engine.TickF64 M env e sm).engine.currentTarget = none ∧
      (Engine.TickF64 M env e sm).commands = [] ∧ (Engine.TickF64 M env e sm).err = none) ∨
    ∃ t, (Engine.TickF64 M env e sm).engine.currentTarget = some t ∧
      (Engine.TickF64 M env e sm).commands = (Engine.engageF64 env e sm.GetHero t).1 ∧
      (Engine.TickF64 M env e sm).err = (Engine.engageF64 env e sm.GetHero t).2 := by
  simp only [Engine.TickF64, if_neg h]
  split
  · exact Or.inl ⟨rfl, rfl, rfl⟩
  · rename_i t _
    exact Or.inr ⟨t, rfl, rfl, rfl⟩

/-- A tick in float64 arithmetic that holds a target afterwards without having retreated
has engaged it. -/
theorem TickF64_engages_held (M : MathFns ℚ) (env : Collaborators ℚ) (e : Engine ℚ)
    (sm : StateManager ℚ) (t : Mob ℚ)
    (h : ¬ sm.GetHero.HPPercent < e.cfg.Combat.HPThreshold)
    (hheld : (Engine.TickF64 M env e sm).engine.currentTarget = some t) :
    (Engine.TickF64 M env e sm).commands = (Engine.engageF64 env e sm.GetHero t).1 ∧
      (Engine.TickF64 M env e sm).err = (Engine.engageF64 env e sm.GetHero t).2 := by
  rcases TickF64_idle_or_engage M env e sm h with ⟨h1, _, _⟩ | ⟨t2, h1, h2, h3⟩
  · rw [h1] at hheld
    cases hheld
  · rw [h1] at hheld
    simp only [Option.some.injEq] at hheld
    subst hheld
    exact ⟨h2, h3⟩

/-- Counterexample to C20 as stated, with every `float64` operation rounded. First, a
path jitter of 7.3 and a goblin at `(2.7117, 100)`, both draws 0: the tick ends holding
the goblin, which is more than 50 units away, and moves to the point whose first
coordinate is `2.7117 - 7.3` rounded, -4.5883; that coordinate differs from 2.7117 by
more than 7.3. Second, a path jitter of -5, which the configuration loader accepts, and
a goblin at `(60, 80)`: the move goes to `(65, 85)`, and 5 is not at most -5. -/
theorem Tick_engage_commands_counterexample :
    (Engine.TickF64 exMathF64 exEnvZero exEngineJitter exStoreAside).engine.currentTarget =
      some exGoblinAside ∧
    50 < distanceF64 exStoreAside.GetHero.X exStoreAside.GetHero.Y
      exGoblinAside.X exGoblinAside.Y ∧
    roundF64 exGoblinAside.X = exGoblinAside.X ∧
    roundF64 exEngineJitter.cfg.Behavior.PathJitter = exEngineJitter.cfg.Behavior.PathJitter ∧
    (Engine.TickF64 exMathF64 exEnvZero exEngineJitter exStoreAside).commands =
      [Command.MoveTo (-1291491635641503 / 281474976710656) (6523182585269453 / 70368744177664),
       Command.AttackMob exGoblinAside.ID] ∧
    ¬ (|(-1291491635641503 / 281474976710656 : ℚ) - exGoblinAside.X| ≤
        exEngineJitter.cfg.Behavior.PathJitter) ∧
    (Engine.TickF64 exMathF64 exEnvZero exEngineNegJitter exStoreAway).engine.currentTarget =
      some exGoblinAway ∧
    50 < distanceF64 exStoreAway.GetHero.X exStoreAway.GetHero.Y
      exGoblinAway.X exGoblinAway.Y ∧
    (Engine.TickF64 exMathF64 exEnvZero exEngineNegJitter exStoreAway).commands =
      [Command.MoveTo 65 85, Command.AttackMob exGoblinAway.ID] ∧
    ¬ (|(65 : ℚ) - exGoblinAway.X| ≤ exEngineNegJitter.cfg.Behavior.PathJitter) := by
  decide!

/-- C20, amended: with every `float64` operation rounded, for every tick that reaches
engagement with held target `t` (random draws in `[0, 1)`, the configured path jitter a
`float64` value): if the agent's distance to `t` is greater than 50 the commands issued
are exactly one move, to the point `AddJitter` computes, followed by one attack on the
identifier of `t`; each coordinate of that point is the `float64` sum of the coordinate
of `t` and an offset of absolute value at most the absolute value of the configured
path jitter, and so differs from the coordinate of `t` by at most that absolute value
plus half the spacing of the `float64` values around the exact sum. If the distance is
at most 50 the only command is the attack on the identifier of `t`; a failing move makes
`Tick` return an error without issuing the attack, a failing attack makes `Tick` return
an error, and no command is issued twice in the tick. -/
theorem TickF64_engage_commands (M : MathFns ℚ) (env : Collaborators ℚ) (e : Engine ℚ)
    (sm : StateManager ℚ) (t : Mob ℚ)
    (hhp : ¬ sm.GetHero.HPPercent < e.cfg.Combat.HPThreshold)
    (hheld : (Engine.TickF64 M env e sm).engine.currentTarget = some t)
    (hr1 : 0 ≤ env.rand1 ∧ env.rand1 < 1) (hr2 : 0 ≤ env.rand2 ∧ env.rand2 < 1)
    (hj : roundF64 e.cfg.Behavior.PathJitter = e.cfg.Behavior.PathJitter) :
    (distanceF64 sm.GetHero.X sm.GetHero.Y t.X t.Y > 50 →
      ∃ p : Point ℚ,
        p = AddJitterF64 env.rand1 env.rand2 { X := t.X, Y := t.Y } e.cfg.Behavior.PathJitter ∧
        p.X = addF64 t.X (jitterOffsetF64 env.rand1 e.cfg.Behavior.PathJitter) ∧
        p.Y = addF64 t.Y (jitterOffsetF64 env.rand2 e.cfg.Behavior.PathJitter) ∧
        |jitterOffsetF64 env.rand1 e.cfg.Behavior.PathJitter| ≤ |e.cfg.Behavior.PathJitter| ∧
        |jitterOffsetF64 env.rand2 e.cfg.Behavior.PathJitter| ≤ |e.cfg.Behavior.PathJitter| ∧
        |p.X - t.X| ≤ |e.cfg.Behavior.PathJitter| +
          ulpF64 (t.X + jitterOffsetF64 env.rand1 e.cfg.Behavior.PathJitter) / 2 ∧
        |p.Y - t.Y| ≤ |e.cfg.Behavior.PathJitter| +
          ulpF64 (t.Y + jitterOffsetF64 env.rand2 e.cfg.Behavior.PathJitter) / 2 ∧
        (env.MoveToErr p.X p.Y = true →
          (Engine.TickF64 M env e sm).commands = [Command.MoveTo p.X p.Y] ∧
          (Engine.TickF64 M env e sm).err = some TickError.failedToMoveToTarget) ∧
        (env.MoveToErr p.X p.Y = false →
          (Engine.TickF64 M env e sm).commands =
            [Command.MoveTo p.X p.Y, Command.AttackMob t.ID] ∧
          (Engine.TickF64 M env e sm).err =
            (if env.AttackMobErr t.ID then some TickError.failedToAttack else none))) ∧
    (distanceF64 sm.GetHero.X sm.GetHero.Y t.X t.Y ≤ 50 →
      (Engine.TickF64 M env e sm).commands = [Command.AttackMob t.ID] ∧
      (Engine.TickF64 M env e sm).err =
        (if env.AttackMobErr t.ID then some TickError.failedToAttack else none)) ∧
    (Engine.TickF64 M env e sm).commands.Nodup := by
  obtain ⟨hcmd, herr⟩ := TickF64_engages_held M env e sm t hhp hheld
  rw [hcmd, herr]
  have h1 := jitterOffsetF64_abs_le _ _ hr1.1 hr1.2 hj
  have h2 := jitterOffsetF64_abs_le _ _ hr2.1 hr2.2 hj
  refine ⟨?_, ?_, ?_⟩
  · intro hfar
    refine ⟨AddJitterF64 env.rand1 env.rand2 { X := t.X, Y := t.Y } e.cfg.Behavior.PathJitter,
      rfl, rfl, rfl, h1, h2, abs_addF64_sub_le _ _ _ h1, abs_addF64_sub_le _ _ _ h2, ?_, ?_⟩
    · intro hfail
      simp only [Engine.engageF64, if_pos hfar, hfail, if_true, and_self]
    · intro hok
      simp only [Engine.engageF64, if_pos hfar, hok, Bool.false_eq_true, if_false]
      split_ifs <;> exact ⟨rfl, rfl⟩
  · intro hnear
    have hnot : ¬ distanceF64 sm.GetHero.X sm.GetHero.Y t.X t.Y > 50 := not_lt.mpr hnear
    simp only [Engine.engageF64, if_neg hnot]
    split_ifs <;> exact ⟨rfl, rfl⟩
  · simp only [Engine.engageF64]
    split_ifs <;> simp

/-- Witness of C20: with a path jitter of 5 and the draws one half and 0, the tick ends
holding the goblin at `(60, 80)`, which is 100 units away, and the game client
succeeds; the commands are the move to the jittered point `(60, 75)` and the attack on
the goblin. -/
theorem TickF64_engage_commands_witness :
    (Engine.TickF64 exMathF64 exEnvHalf exEngineIdle exStoreAway).engine.currentTarget =
      some exGoblinAway ∧
    distanceF64 exStoreAway.GetHero.X exStoreAway.GetHero.Y exGoblinAway.X exGoblinAway.Y = 100 ∧
    (Engine.TickF64 exMathF64 exEnvHalf exEngineIdle exStoreAway).commands =
      [Command.MoveTo 60 75, Command.AttackMob exGoblinAway.ID] ∧
    (Engine.TickF64 exMathF64 exEnvHalf exEngineIdle exStoreAway).err = none ∧
    (∃ p : Point ℚ,
      p = AddJitterF64 exEnvHalf.rand1 exEnvHalf.rand2
        { X := exGoblinAway.X, Y := exGoblinAway.Y } exEngineIdle.cfg.Behavior.PathJitter ∧
      p.X = addF64 exGoblinAway.X
        (jitterOffsetF64 exEnvHalf.rand1 exEngineIdle.cfg.Behavior.PathJitter) ∧
      p.Y = addF64 exGoblinAway.Y
        (jitterOffsetF64 exEnvHalf.rand2 exEngineIdle.cfg.Behavior.PathJitter) ∧
      |jitterOffsetF64 exEnvHalf.rand1 exEngineIdle.cfg.Behavior.PathJitter| ≤
        |exEngineIdle.cfg.Behavior.PathJitter| ∧
      |jitterOffsetF64 exEnvHalf.rand2 exEngineIdle.cfg.Behavior.PathJitter| ≤
        |exEngineIdle.cfg.Behavior.PathJitter| ∧
      |p.X - exGoblinAway.X| ≤ |exEngineIdle.cfg.Behavior.PathJitter| +
        ulpF64 (exGoblinAway.X +
          jitterOffsetF64 exEnvHalf.rand1 exEngineIdle.cfg.Behavior.PathJitter) / 2 ∧
      |p.Y - exGoblinAway.Y| ≤ |exEngineIdle.cfg.Behavior.PathJitter| +
        ulpF64 (exGoblinAway.Y +
          jitterOffsetF64 exEnvHalf.rand2 exEngineIdle.cfg.Behavior.PathJitter) / 2 ∧
      (exEnvHalf.MoveToErr p.X p.Y = true →
        (Engine.TickF64 exMathF64 exEnvHalf exEngineIdle exStoreAway).commands =
          [Command.MoveTo p.X p.Y] ∧
        (Engine.TickF64 exMathF64 exEnvHalf exEngineIdle exStoreAway).err =
          some TickError.failedToMoveToTarget) ∧
      (exEnvHalf.MoveToErr p.X p.Y = false →
        (Engine.TickF64 exMathF64 exEnvHalf exEngineIdle exStoreAway).commands =
          [Command.MoveTo p.X p.Y, Command.AttackMob exGoblinAway.ID] ∧
        (Engine.TickF64 exMathF64 exEnvHalf exEngineIdle exStoreAway).err =
          (if exEnvHalf.AttackMobErr exGoblinAway.ID then some TickError.failedToAttack
            else none))) :=
  ⟨by decide!, by decide!, by decide!, by decide!,
    (TickF64_engage_commands exMathF64 exEnvHalf exEngineIdle exStoreAway exGoblinAway
      (by decide) (by decide!) (by decide!) (by decide!) (by decide!)).1 (by decide!)⟩

end EngageF64Claims

/-! ## Random offsets in float64 arithmetic -/

section OffsetF64Claims

variable {F : Type} [LinearOrderedField F]

end OffsetF64Claims

end MargonemBot
